import Mathlib

/-!
# OpenDecoder 2.2 GBM: occupancy detection and RS-bus feedback

A shallow embedding of `adc_hardware.c`, `occupancy.c`, `relays.c` and `speed.c`,
followed by theorems about the embedded functions.

Conventions of the embedding.

* C arrays are functions of the index (`Nat → α`); `store a i v` is the assignment
  `a[i] = v`.  Only the indices below the declared length belong to the C array.
* `unsigned char` values are naturals below 256 and `unsigned int` values naturals below
  65536 (AVR); every assignment that can leave the range is reduced explicitly.
* `my_eeprom_read_byte` returns one byte of the configuration record.
* Volatile variables and hardware registers that are written by interrupt handlers are
  inputs of a call (the records `AdcHw` and `RsHw`).
-/

namespace OpenDecoder

/-! ## Arrays -/

/-- Array assignment `a[i] = v`. -/
def store {α : Type} (a : Nat → α) (i : Nat) (v : α) : Nat → α :=
  fun j => if j = i then v else a j

/-! ## Configuration variables (cv_define.h) -/

/-- The fields of `t_cv_record` that the embedded functions read. -/
structure CV where
  T_on_F1 : Nat
  T_on_F2 : Nat
  T_on_F3 : Nat
  T_on_F4 : Nat
  DelayIn1 : Nat
  DelayIn2 : Nat
  DelayIn3 : Nat
  DelayIn4 : Nat
  DelayIn5 : Nat
  DelayIn6 : Nat
  DelayIn7 : Nat
  DelayIn8 : Nat
  RSRetry : Nat
  Min_Samples : Nat
  Delay_off : Nat
  Threshold_on : Nat
  Threshold_of : Nat
  Speed1_Out : Nat
  Speed1_LL : Nat
  Speed1_LH : Nat
  Speed2_Out : Nat
  Speed2_LL : Nat
  Speed2_LH : Nat
  FB_A : Nat
  FB_B : Nat
  FB_C : Nat
  FB_D : Nat
  FB_S1 : Nat
  FB_S2 : Nat
  FB_S3 : Nat
  FB_S4 : Nat
  Polarization : Nat
  myAddrL : Nat
  myAddrH : Nat
  MyRsAddr : Nat
  DecType : Nat
  Config : Nat

/-- One byte read from the configuration store. -/
def my_eeprom_read_byte (b : Nat) : Nat := b % 256

/-- The factory values of cv_data_gbm.h. -/
def CV.default : CV :=
  { T_on_F1 := 5, T_on_F2 := 5, T_on_F3 := 5, T_on_F4 := 5,
    DelayIn1 := 0, DelayIn2 := 0, DelayIn3 := 0, DelayIn4 := 0,
    DelayIn5 := 0, DelayIn6 := 0, DelayIn7 := 0, DelayIn8 := 0,
    RSRetry := 0, Min_Samples := 3, Delay_off := 15, Threshold_on := 20, Threshold_of := 15,
    Speed1_Out := 0, Speed1_LL := 0, Speed1_LH := 0,
    Speed2_Out := 0, Speed2_LL := 0, Speed2_LH := 0,
    FB_A := 0, FB_B := 1, FB_C := 2, FB_D := 3, FB_S1 := 0, FB_S2 := 1, FB_S3 := 1, FB_S4 := 2,
    Polarization := 0,
    myAddrL := 0x01, myAddrH := 0x80, MyRsAddr := 0, DecType := 0b00110000,
    Config := 0b10000000 }

/-! ## adc_hardware.c -/

/-- The type `t_adc_result` of adc_hardware.h. -/
structure AdcResult where
  is_on : Nat
  is_off : Nat

/-- One element of the local array `adc_port[8]`. -/
structure AdcPort where
  adc_value : Nat
  max_delay_before_off : Nat
  delay_before_off : Nat
  adc_history : Nat
  on_is_stable : Nat

/-- The variables of adc_hardware.c.  `T_Sample` and `T_DelayOff` hold the value the
last call left in the two counters. -/
structure AdcState where
  adc_result : Nat → AdcResult
  adc_port : Nat → AdcPort
  ADC_Input_Pin : Nat
  Threshold_On : Nat
  Threshold_Off : Nat
  Min_Samples_Mask : Nat
  T_Sample : Nat
  T_DelayOff : Nat
  new_adc_requested : Nat

/-- What one call of `detect_occupied_tracks` reads from the timer interrupt and from the
converter: the two millisecond counters and the registers ADCSRA, ADCL and ADCH. -/
structure AdcHw where
  T_Sample : Nat
  T_DelayOff : Nat
  ADCSRA : Nat
  ADCL : Nat
  ADCH : Nat

/-- The zero-initialised variables of adc_hardware.c at reset. -/
def AdcState.zero : AdcState :=
  { adc_result := fun _ => { is_on := 0, is_off := 0 },
    adc_port := fun _ =>
      { adc_value := 0, max_delay_before_off := 0, delay_before_off := 0,
        adc_history := 0, on_is_stable := 0 },
    ADC_Input_Pin := 0, Threshold_On := 0, Threshold_Off := 0, Min_Samples_Mask := 0,
    T_Sample := 0, T_DelayOff := 0, new_adc_requested := 0 }

/-- The clamped sample count `Min_Samples` of `init_occupied_tracks` (STEP 3). -/
def clamp_Min_Samples (cv : CV) : Nat :=
  let Min_Samples := my_eeprom_read_byte cv.Min_Samples
  let Min_Samples := if Min_Samples = 0 then 1 else Min_Samples
  if Min_Samples > 8 then 8 else Min_Samples

/-- The loop `for (i = 1; i < Min_Samples; i++) mask = mask * 2 + 1` on an `unsigned char`. -/
def make_mask (Min_Samples : Nat) : Nat :=
  (List.range' 1 (Min_Samples - 1)).foldl (fun mask _ => (mask * 2 + 1) % 256) 1

/-- One pass of the loop of STEP 4: a zero per-input delay is replaced by ten times CV34. -/
def init_delay_body (cv : CV) (port : Nat → AdcPort) (i : Nat) : Nat → AdcPort :=
  if (port i).max_delay_before_off = 0 then
    store port i { port i with
      max_delay_before_off := (my_eeprom_read_byte cv.Delay_off * 10) % 65536 }
  else port

/-- The assignment `adc_port[i].max_delay_before_off = v`. -/
def set_max_delay (port : Nat → AdcPort) (i v : Nat) : Nat → AdcPort :=
  store port i { port i with max_delay_before_off := v }

/-- The function `init_occupied_tracks`. -/
def init_occupied_tracks (cv : CV) (s : AdcState) : AdcState :=
  let Threshold_On := my_eeprom_read_byte cv.Threshold_on
  let Threshold_Off := my_eeprom_read_byte cv.Threshold_of
  let Threshold_On := if Threshold_On < 10 then 10 else Threshold_On
  let Threshold_Off := if Threshold_Off < 5 then 5 else Threshold_Off
  let Min_Samples_Mask := make_mask (clamp_Min_Samples cv)
  let port := set_max_delay s.adc_port 0 (my_eeprom_read_byte cv.DelayIn1)
  let port := set_max_delay port 1 (my_eeprom_read_byte cv.DelayIn2)
  let port := set_max_delay port 2 (my_eeprom_read_byte cv.DelayIn3)
  let port := set_max_delay port 3 (my_eeprom_read_byte cv.DelayIn4)
  let port := set_max_delay port 4 (my_eeprom_read_byte cv.DelayIn5)
  let port := set_max_delay port 5 (my_eeprom_read_byte cv.DelayIn6)
  let port := set_max_delay port 6 (my_eeprom_read_byte cv.DelayIn7)
  let port := set_max_delay port 7 (my_eeprom_read_byte cv.DelayIn8)
  let port := (List.range 8).foldl (init_delay_body cv) port
  { s with
    ADC_Input_Pin := 0, Threshold_On := Threshold_On, Threshold_Off := Threshold_Off,
    Min_Samples_Mask := Min_Samples_Mask, adc_port := port, T_Sample := 0, T_DelayOff := 0 }

/-- STEP 1B: the new history byte for a converted value. -/
def shift_history (Threshold_On Threshold_Off adc_value adc_history : Nat) : Nat :=
  if adc_value > Threshold_On then ((adc_history <<< 1) % 256) ||| 1
  else if adc_value < Threshold_Off then (adc_history <<< 1) % 256
  else adc_history

/-- STEP 1C: the stability verdict and the countdown for the masked history. -/
def analyse_history (Min_Samples_Mask : Nat) (port : AdcPort) : AdcPort :=
  let relevant_samples := port.adc_history &&& Min_Samples_Mask
  if relevant_samples = Min_Samples_Mask then { port with on_is_stable := 1 }
  else if relevant_samples = 0 then { port with on_is_stable := 0 }
  else { port with on_is_stable := 0, delay_before_off := port.max_delay_before_off }

/-- STEP 1 of `detect_occupied_tracks` (the body of the first `if`): the 1 ms action on the
selected input pin. -/
def sample_step (hw : AdcHw) (s : AdcState) : AdcState :=
  let adc_value := (hw.ADCL % 256 + (hw.ADCH % 256) * 256) % 65536
  let pin := s.ADC_Input_Pin
  let port := { s.adc_port pin with adc_value := adc_value }
  let port := { port with
    adc_history := shift_history s.Threshold_On s.Threshold_Off adc_value port.adc_history }
  let port := analyse_history s.Min_Samples_Mask port
  let occupied := port.adc_history &&& 1
  let on_stable := port.on_is_stable
  let result :=
    if occupied ≠ 0 ∧ on_stable ≠ 0 then { s.adc_result pin with is_on := 1 }
    else { s.adc_result pin with is_on := 0 }
  { s with
    adc_port := store s.adc_port pin port,
    adc_result := store s.adc_result pin result,
    ADC_Input_Pin := (pin + 1) % 8,
    new_adc_requested := 1,
    T_Sample := 0 }

/-- One pass of the loop of STEP 2 for input pin `i`. -/
def delay_off_body (s : AdcState) (i : Nat) : AdcState :=
  let result := { s.adc_result i with is_off := 0 }
  let port := s.adc_port i
  let port :=
    if port.delay_before_off > 0 then
      { port with delay_before_off := port.delay_before_off - 1 }
    else port
  let result :=
    if port.delay_before_off = 0 then
      (if port.adc_history &&& 1 = 0 then { result with is_off := 1 } else result)
    else result
  { s with adc_port := store s.adc_port i port, adc_result := store s.adc_result i result }

/-- STEP 2 of `detect_occupied_tracks` (the body of the second `if`): the 10 ms action. -/
def delay_off_step (s : AdcState) : AdcState :=
  (List.range 8).foldl delay_off_body { s with T_DelayOff := 0 }

/-- The two millisecond counters as the call finds them. -/
def read_counters (hw : AdcHw) (s : AdcState) : AdcState :=
  { s with T_Sample := hw.T_Sample, T_DelayOff := hw.T_DelayOff }

/-- The function `detect_occupied_tracks`. -/
def detect_occupied_tracks (hw : AdcHw) (s : AdcState) : AdcState :=
  let s := read_counters hw s
  let s := if s.T_Sample ≥ 2 ∧ hw.ADCSRA &&& 0x40 = 0 then sample_step hw s else s
  if s.T_DelayOff ≥ 10 then delay_off_step s else s

/-- The state after a sequence of calls of `detect_occupied_tracks`, oldest call first. -/
def run_adc (s : AdcState) : List AdcHw → AdcState
  | [] => s
  | hw :: rest => run_adc (detect_occupied_tracks hw s) rest

/-- The state of adc_hardware.c when the main loop is entered. -/
def adc_power_up (cv : CV) : AdcState := init_occupied_tracks cv AdcState.zero

/-- Whether the call with inputs `hw` runs the 1 ms action. -/
def samples (hw : AdcHw) : Bool := decide (hw.T_Sample ≥ 2 ∧ hw.ADCSRA &&& 0x40 = 0)

/-- Whether the call with inputs `hw` runs the 10 ms action. -/
def counts_down (hw : AdcHw) : Bool := decide (hw.T_DelayOff ≥ 10)

/-- The converted value of a call. -/
def AdcHw.adc_value (hw : AdcHw) : Nat := (hw.ADCL % 256 + (hw.ADCH % 256) * 256) % 65536

/-! ## relays.c (the part called from occupancy.c) -/

/-- The type `t_device`. -/
structure Device where
  gate_pos : Nat
  hold_time : Nat
  rest_time : Nat

/-- The array `devices[4]` and the output port of the relays board. -/
structure RelayState where
  devices : Nat → Device
  RELAYS_PORT : Nat

/-- The function `set_all_relays` (`relays_led` only drives the LED and is left out). -/
def set_all_relays (cv : CV) (pos : Nat) (r : RelayState) : RelayState :=
  let pos :=
    if my_eeprom_read_byte cv.Polarization ≠ 0 then (if pos ≠ 0 then 0 else 1) else pos
  if (r.devices 0).gate_pos ≠ pos ∨ (r.devices 1).gate_pos ≠ pos ∨
      (r.devices 2).gate_pos ≠ pos ∨ (r.devices 3).gate_pos ≠ pos then
    let devices := (List.range 4).foldl
      (fun d i => store d i { d i with gate_pos := pos, rest_time := (d i).hold_time })
      r.devices
    { devices := devices, RELAYS_PORT := if pos = 1 then 0b10101010 else 0b01010101 }
  else r

/-! ## occupancy.c -/

/-- Bit positions of the RS-bus byte. -/
def DATA_0 : Nat := 7
/-- Bit of feedback 2 or 6. -/
def DATA_1 : Nat := 6
/-- Bit of feedback 3 or 7. -/
def DATA_2 : Nat := 5
/-- Bit of feedback 4 or 8. -/
def DATA_3 : Nat := 4
/-- Bit that selects the low or high order nibble. -/
def NIBBLE : Nat := 3

/-- The decoder type "track occupancy decoder with reverser board" (CV27, value
0b00110001 in cv_data_gbm.h). -/
def TYPE_REVERSER : Nat := 0b00110001

/-- One element of the array `feedback[8]`. -/
structure Feedback where
  should_be_on : Nat
  should_be_off : Nat
  previous_transmitted : Nat
  next_to_transmit : Nat
  number_of_transmissions : Nat

/-- What one call of `handle_occupied_tracks` reads from the timer and RS-bus layers:
the results of `time_for_next_feedback()` and `start_up_phase()`, and the flags
`RS_Layer_1_active` and `RS_data2send_flag`. -/
structure RsHw where
  time_for_next_feedback : Nat
  start_up_phase : Nat
  RS_Layer_1_active : Nat
  RS_data2send_flag : Nat

/-- The variables written or read by occupancy.c: its own (`feedback`, `map`,
`RS_tranmissions`), the globals `MyType` and `My_RS_Addr`, the flag
`RS_Layer_2_connected`, the relays, and the bytes handed to
`format_and_send_RS_data_nibble` so far (oldest first). -/
structure OccState where
  feedback : Nat → Feedback
  map : Nat → Nat
  RS_tranmissions : Nat
  MyType : Nat
  My_RS_Addr : Nat
  RS_Layer_2_connected : Nat
  sent : List Nat
  relays : RelayState

/-- The zero-initialised variables at reset, for a decoder type and an RS-bus address. -/
def OccState.zero (MyType My_RS_Addr : Nat) : OccState :=
  { feedback := fun _ =>
      { should_be_on := 0, should_be_off := 0, previous_transmitted := 0,
        next_to_transmit := 0, number_of_transmissions := 0 },
    map := fun _ => 0,
    RS_tranmissions := 0,
    MyType := MyType,
    My_RS_Addr := My_RS_Addr,
    RS_Layer_2_connected := 0,
    sent := [],
    relays := { devices := fun _ => { gate_pos := 0, hold_time := 0, rest_time := 0 },
                RELAYS_PORT := 0 } }

/-- The function `init_occupancy`. -/
def init_occupancy (cv : CV) (s : OccState) : OccState :=
  let RS_tranmissions := (1 + my_eeprom_read_byte cv.RSRetry) % 256
  let RS_tranmissions := if RS_tranmissions > 3 then 3 else RS_tranmissions
  let map :=
    if s.MyType = TYPE_REVERSER then
      let map := store s.map 0 (my_eeprom_read_byte cv.FB_A)
      let map := store map 1 (my_eeprom_read_byte cv.FB_S1)
      let map := store map 2 (my_eeprom_read_byte cv.FB_S2)
      let map := store map 3 (my_eeprom_read_byte cv.FB_B)
      let map := store map 4 (my_eeprom_read_byte cv.FB_S3)
      let map := store map 5 (my_eeprom_read_byte cv.FB_S4)
      let map := store map 6 (my_eeprom_read_byte cv.FB_C)
      store map 7 (my_eeprom_read_byte cv.FB_D)
    else
      let map := store s.map 0 0
      let map := store map 1 1
      let map := store map 2 2
      let map := store map 3 3
      let map := store map 4 4
      let map := store map 5 5
      let map := store map 6 6
      store map 7 7
  { s with RS_tranmissions := RS_tranmissions, map := map }

/-- Step 1 of `analyse_track_occupation`: the reverser relays. -/
def reverser_actions (cv : CV) (adc_result : Nat → AdcResult) (MyType : Nat)
    (r : RelayState) : RelayState :=
  if MyType = TYPE_REVERSER then
    let r :=
      if (adc_result 1).is_on ≠ 0 ∨ (adc_result 2).is_on ≠ 0 then set_all_relays cv 1 r else r
    if (adc_result 4).is_on ≠ 0 ∨ (adc_result 5).is_on ≠ 0 then set_all_relays cv 0 r else r
  else r

/-- One pass of the loop of Step 2A. -/
def init_soll (f : Nat → Feedback) (i : Nat) : Nat → Feedback :=
  store f i { f i with should_be_on := 0, should_be_off := 1 }

/-- One pass of the loop of Step 2B for input pin `i`. -/
def map_pin (adc_result : Nat → AdcResult) (map : Nat → Nat) (f : Nat → Feedback) (i : Nat) :
    Nat → Feedback :=
  let f :=
    if (adc_result i).is_on > 0 then store f (map i) { f (map i) with should_be_on := 1 } else f
  if (adc_result i).is_off = 0 then store f (map i) { f (map i) with should_be_off := 0 } else f

/-- One pass of the loop of Step 2C for feedback bit `i`. -/
def check_change (RS_tranmissions : Nat) (f : Nat → Feedback) (i : Nat) : Nat → Feedback :=
  let previous := (f i).previous_transmitted
  let f :=
    if (f i).should_be_on ≠ 0 ∧ previous = 0 then
      store f i { f i with next_to_transmit := 1, number_of_transmissions := RS_tranmissions }
    else f
  if (f i).should_be_off ≠ 0 ∧ previous ≠ 0 then
    store f i { f i with next_to_transmit := 0, number_of_transmissions := RS_tranmissions }
  else f

/-- The function `analyse_track_occupation`. -/
def analyse_track_occupation (cv : CV) (adc_result : Nat → AdcResult) (s : OccState) :
    OccState :=
  let relays := reverser_actions cv adc_result s.MyType s.relays
  let f := (List.range 8).foldl init_soll s.feedback
  let f := (List.range 8).foldl (map_pin adc_result s.map) f
  let f := (List.range 8).foldl (check_change s.RS_tranmissions) f
  { s with relays := relays, feedback := f }

/-- One pass of the loop of `save_changes`. -/
def save_change (f : Nat → Feedback) (i : Nat) : Nat → Feedback :=
  let f := store f i { f i with previous_transmitted := (f i).next_to_transmit }
  if (f i).number_of_transmissions > 0 then
    store f i { f i with number_of_transmissions := (f i).number_of_transmissions - 1 }
  else f

/-- The function `save_changes`, for `start <= end < 255` (`last` is the parameter `end`): the loop
`for (i = start; i <= end; i++)`. -/
def save_changes (start last : Nat) (f : Nat → Feedback) : Nat → Feedback :=
  (List.range' start (last + 1 - start)).foldl save_change f

/-- The byte computed for the group that starts at feedback bit `start`; `high` is the
value shifted to the position NIBBLE. -/
def nibble (f : Nat → Feedback) (start high : Nat) : Nat :=
  (((f start).next_to_transmit <<< DATA_0)
    ||| ((f (start + 1)).next_to_transmit <<< DATA_1)
    ||| ((f (start + 2)).next_to_transmit <<< DATA_2)
    ||| ((f (start + 3)).next_to_transmit <<< DATA_3)
    ||| (high <<< NIBBLE)) % 256

/-- The call `format_and_send_RS_data_nibble(data_byte)`: the byte leaves the module. -/
def format_and_send_RS_data_nibble (data_byte : Nat) (s : OccState) : OccState :=
  { s with sent := s.sent ++ [data_byte] }

/-- The function `RS_connect`.  Each busy wait `while (RS_data2send_flag) {}` ends when the
transmit interrupt clears the flag. -/
def RS_connect (hw : RsHw) (s : OccState) : OccState :=
  if hw.RS_Layer_1_active ≠ 0 then
    let nibble1 := nibble s.feedback 0 0
    let s := { s with feedback := save_changes 0 3 s.feedback }
    let s := format_and_send_RS_data_nibble nibble1 s
    let nibble2 := nibble s.feedback 4 1
    let s := { s with feedback := save_changes 4 7 s.feedback }
    let s := format_and_send_RS_data_nibble nibble2 s
    { s with RS_Layer_2_connected := 1 }
  else s

/-- One pass of the loop of `send_needed`. -/
def send_needed_body (f : Nat → Feedback) (result i : Nat) : Nat :=
  if (f i).number_of_transmissions > 0 then 1 else result

/-- The function `send_needed`, for `start <= end < 255` (`last` is the parameter `end`). -/
def send_needed (start last : Nat) (f : Nat → Feedback) : Nat :=
  (List.range' start (last + 1 - start)).foldl (send_needed_body f) 0

/-- The function `send_feedbacks`. -/
def send_feedbacks (hw : RsHw) (s : OccState) : OccState :=
  if hw.RS_data2send_flag = 0 then
    if send_needed 0 3 s.feedback ≠ 0 then
      let nibble1 := nibble s.feedback 0 0
      let s := { s with feedback := save_changes 0 3 s.feedback }
      format_and_send_RS_data_nibble nibble1 s
    else if send_needed 4 7 s.feedback ≠ 0 then
      let nibble2 := nibble s.feedback 4 1
      let s := { s with feedback := save_changes 4 7 s.feedback }
      format_and_send_RS_data_nibble nibble2 s
    else s
  else s

/-- The function `handle_occupied_tracks`. -/
def handle_occupied_tracks (cv : CV) (adc_result : Nat → AdcResult) (hw : RsHw)
    (s : OccState) : OccState :=
  if hw.time_for_next_feedback ≠ 0 then
    let s := analyse_track_occupation cv adc_result s
    if s.My_RS_Addr = 0 then s
    else if hw.start_up_phase ≠ 0 then s
    else if s.RS_Layer_2_connected = 0 then RS_connect hw s
    else send_feedbacks hw s
  else s

/-! ## Auxiliary definitions for the statements about adc_hardware.c -/

/-- The 10 ms action on the port of one channel: the countdown (STEP 2A). -/
def count_down_port (port : AdcPort) : AdcPort :=
  if port.delay_before_off > 0 then
    { port with delay_before_off := port.delay_before_off - 1 }
  else port

/-- The 10 ms action on the result of one channel (STEP 2B). -/
def count_down_result (port : AdcPort) (result : AdcResult) : AdcResult :=
  let result := { result with is_off := 0 }
  if (count_down_port port).delay_before_off = 0 then
    (if (count_down_port port).adc_history &&& 1 = 0 then { result with is_off := 1 } else result)
  else result

/-- A channel reported on has its newest history bit set. -/
def OnImpliesOccupied (s : AdcState) : Prop :=
  ∀ c, (s.adc_result c).is_on ≠ 0 → (s.adc_port c).adc_history &&& 1 ≠ 0

/-- Whether `is_off` of channel `c` is current after the calls `l` made from state `s`: no
1 ms action has sampled `c` since the last 10 ms action (`b` is the answer before `l`). -/
def off_is_current (c : Nat) : AdcState → List AdcHw → Bool → Bool
  | _, [], b => b
  | s, hw :: rest, b =>
    off_is_current c (detect_occupied_tracks hw s) rest
      (if counts_down hw then true
       else if samples hw && decide (s.ADC_Input_Pin = c) then false else b)

/-- The number of calls in `l`, made from state `s`, whose 1 ms action samples channel `c`. -/
def sample_count (c : Nat) : AdcState → List AdcHw → Nat
  | _, [] => 0
  | s, hw :: rest =>
    (if samples hw && decide (s.ADC_Input_Pin = c) then 1 else 0) +
      sample_count c (detect_occupied_tracks hw s) rest

/-- Whether every call in `l` that samples channel `c` converts a value above
`Threshold_On`. -/
def samples_above (c : Nat) : AdcState → List AdcHw → Bool
  | _, [] => true
  | s, hw :: rest =>
    (if samples hw && decide (s.ADC_Input_Pin = c) then decide (hw.adc_value > s.Threshold_On)
     else true) &&
      samples_above c (detect_occupied_tracks hw s) rest

/-- A configuration with stability count 1. -/
def cv_one_sample : CV := { CV.default with Min_Samples := 1 }

/-- A call that runs only the 10 ms action. -/
def hw_count_down : AdcHw :=
  { T_Sample := 0, T_DelayOff := 10, ADCSRA := 0, ADCL := 0, ADCH := 0 }

/-- A call that runs only the 1 ms action and converts the value 1023. -/
def hw_sample_high : AdcHw :=
  { T_Sample := 2, T_DelayOff := 0, ADCSRA := 0, ADCL := 255, ADCH := 3 }

/-- A call that runs only the 1 ms action and converts the value 0. -/
def hw_sample_low : AdcHw :=
  { T_Sample := 2, T_DelayOff := 0, ADCSRA := 0, ADCL := 0, ADCH := 0 }

/-- The number of calls in `l` that run the 10 ms action. -/
def count_down_count : List AdcHw → Nat
  | [] => 0
  | hw :: rest => (if counts_down hw then 1 else 0) + count_down_count rest

/-- A configuration with stability count 1 and an off-delay of 5 steps on input 1. -/
def cv_one_sample_delay : CV := { CV.default with Min_Samples := 1, DelayIn1 := 5 }

/-- Eight 1 ms actions: channel 0 converts 1023 and is stable-on afterwards, channels
1 .. 7 convert 0. -/
def hw_round_on : List AdcHw := hw_sample_high :: List.replicate 7 hw_sample_low

/-- The countdown of channel `c` `j` 10 ms actions after its newest history bit was last
seen set: the bit is set again, or at most `j` of the `D` steps have elapsed; and `is_off`
is still 0 while fewer than `D` of these actions have run. -/
def OffDelayed (D c j : Nat) (s : AdcState) : Prop :=
  (s.adc_port c).max_delay_before_off = D ∧
  ((s.adc_port c).adc_history % 2 = 1 ∨ D ≤ (s.adc_port c).delay_before_off + j) ∧
  (1 ≤ j → j < D → (s.adc_result c).is_off = 0)

/-- After `k` consecutive samples above the threshold: the `k` newest history bits are set
and, below the stability count, the bit before them is clear; `is_on` is set from the
`N`-th such sample on. -/
def RisingAfter (N c k : Nat) (s : AdcState) : Prop :=
  (k < N → (s.adc_port c).adc_history % 2 ^ (k + 1) = 2 ^ k - 1) ∧
  (N ≤ k → (s.adc_port c).adc_history % 2 ^ N = 2 ^ N - 1) ∧
  (1 ≤ k → (s.adc_result c).is_on = if N ≤ k then 1 else 0)

/-! ## Auxiliary definitions for the statements about occupancy.c -/

/-- The effect of one pass of Step 2C of `analyse_track_occupation` on one feedback bit. -/
def staged (R : Nat) (x : Feedback) : Feedback :=
  if x.should_be_off ≠ 0 ∧ x.previous_transmitted ≠ 0 then
    { x with next_to_transmit := 0, number_of_transmissions := R }
  else if x.should_be_on ≠ 0 ∧ x.previous_transmitted = 0 then
    { x with next_to_transmit := 1, number_of_transmissions := R }
  else x

/-- The value `should_be_on` of feedback bit `b` after Step 2B. -/
def soll_on (adc_result : Nat → AdcResult) (map : Nat → Nat) (b : Nat) : Nat :=
  if ∃ i ∈ List.range 8, map i = b ∧ (adc_result i).is_on > 0 then 1 else 0

/-- The value `should_be_off` of feedback bit `b` after Step 2B. -/
def soll_off (adc_result : Nat → AdcResult) (map : Nat → Nat) (b : Nat) : Nat :=
  if ∃ i ∈ List.range 8, map i = b ∧ (adc_result i).is_off = 0 then 0 else 1

/-- The occupancy state of a reverser with the factory configuration, after
`init_occupancy`: the pins 0 .. 7 map to the feedback bits 0, 0, 1, 1, 1, 2, 2, 3. -/
def occ_reverser : OccState := init_occupancy CV.default (OccState.zero TYPE_REVERSER 1)

/-- The occupancy state of a plain occupancy decoder (type 0b00110000) with the factory
configuration and RS-bus address 1, after `init_occupancy`. -/
def occ_normal : OccState := init_occupancy CV.default (OccState.zero 0b00110000 1)

/-- Converter results in which exactly the pins listed in `on` report `is_on` and exactly
the pins listed in `off` report `is_off`. -/
def adc_of (pins_on pins_off : List Nat) : Nat → AdcResult :=
  fun i => { is_on := if i ∈ pins_on then 1 else 0, is_off := if i ∈ pins_off then 1 else 0 }

/-- The effect of `save_changes` on one feedback bit of the saved range. -/
def saved (x : Feedback) : Feedback :=
  { x with
    previous_transmitted := x.next_to_transmit,
    number_of_transmissions := x.number_of_transmissions - 1 }

/-- The operations on the variables of occupancy.c, with the inputs of each call; `link`
is the RS-bus layer writing `RS_Layer_2_connected`. -/
inductive OccAction where
  | analyse (cv : CV) (adc_result : Nat → AdcResult)
  | save (start last : Nat)
  | connect (hw : RsHw)
  | send (hw : RsHw)
  | handle (cv : CV) (adc_result : Nat → AdcResult) (hw : RsHw)
  | link (connected : Nat)

/-- The state after one operation. -/
def OccAction.apply : OccAction → OccState → OccState
  | .analyse cv adc_result, s => analyse_track_occupation cv adc_result s
  | .save start last, s => { s with feedback := save_changes start last s.feedback }
  | .connect hw, s => RS_connect hw s
  | .send hw, s => send_feedbacks hw s
  | .handle cv adc_result hw, s => handle_occupied_tracks cv adc_result hw s
  | .link connected, s => { s with RS_Layer_2_connected := connected }

/-- The state after a sequence of operations, oldest first. -/
def run_occ (s : OccState) : List OccAction → OccState
  | [] => s
  | a :: rest => run_occ (a.apply s) rest

/-- The feedback array at reset. -/
def ZeroFeedback (s : OccState) : Prop :=
  ∀ b, s.feedback b =
    { should_be_on := 0, should_be_off := 0, previous_transmitted := 0,
      next_to_transmit := 0, number_of_transmissions := 0 }

/-- Every staged change has a transmission pending. -/
def ChangePending (f : Nat → Feedback) : Prop :=
  ∀ b, (f b).next_to_transmit ≠ (f b).previous_transmitted → (f b).number_of_transmissions > 0

/-- Every staged value is 0 or 1. -/
def NextIsBit (f : Nat → Feedback) : Prop :=
  ∀ b, (f b).next_to_transmit ≤ 1

/-- The layout of the byte `x` of group `g`: bit `7 - k` is the staged value of feedback
bit `4 g + k`, bit 3 is `g`, and the bits 2 .. 0 are 0. -/
def WireFormat (f : Nat → Feedback) (g x : Nat) : Prop :=
  (∀ k, k < 4 → x / 2 ^ (7 - k) % 2 = (f (4 * g + k)).next_to_transmit) ∧
  x / 2 ^ 3 % 2 = g ∧ x % 2 ^ 3 = 0

/-- A call of `handle_occupied_tracks` with the feedback gate open, the start-up phase
over, the RS-bus active and the transmitter idle. -/
def hw_idle : RsHw :=
  { time_for_next_feedback := 1, start_up_phase := 0, RS_Layer_1_active := 1,
    RS_data2send_flag := 0 }

/-- As `hw_idle`, but the RS-bus is not active. -/
def hw_no_bus : RsHw :=
  { time_for_next_feedback := 1, start_up_phase := 0, RS_Layer_1_active := 0,
    RS_data2send_flag := 0 }

/-- As `hw_idle`, but the start-up phase is not over. -/
def hw_start_up : RsHw :=
  { time_for_next_feedback := 1, start_up_phase := 1, RS_Layer_1_active := 1,
    RS_data2send_flag := 0 }

/-- The configuration of an erased EEPROM cell for CV20. -/
def cv_retry_255 : CV := { CV.default with RSRetry := 255 }

/-- One feedback bit after `analyse_track_occupation`, for the values `so` and `sf` that
Step 2B gives `should_be_on` and `should_be_off`. -/
def analysed (R so sf : Nat) (x : Feedback) : Feedback :=
  staged R { x with should_be_on := so, should_be_off := sf }

/-- The staged value of a feedback bit contradicts what the inputs ask for. -/
def contradicts (y : Feedback) : Prop :=
  (y.should_be_on ≠ 0 ∧ y.next_to_transmit = 0) ∨
  (y.should_be_off ≠ 0 ∧ y.next_to_transmit ≠ 0)

instance (y : Feedback) : Decidable (contradicts y) := by
  unfold contradicts; infer_instance

/-- A bound on the number of sends a feedback bit can still cause under constant inputs:
its counter after the analysis, plus one further round if the staged value contradicts the
inputs. -/
def rank (R so sf : Nat) (x : Feedback) : Nat :=
  (analysed R so sf x).number_of_transmissions +
    (if contradicts (analysed R so sf x) then R + 1 else 0)

/-- The sum of `rank` over the low group. -/
def low_rank (adc_result : Nat → AdcResult) (s : OccState) : Nat :=
  rank s.RS_tranmissions (soll_on adc_result s.map 0) (soll_off adc_result s.map 0)
      (s.feedback 0) +
    rank s.RS_tranmissions (soll_on adc_result s.map 1) (soll_off adc_result s.map 1)
      (s.feedback 1) +
    rank s.RS_tranmissions (soll_on adc_result s.map 2) (soll_off adc_result s.map 2)
      (s.feedback 2) +
    rank s.RS_tranmissions (soll_on adc_result s.map 3) (soll_off adc_result s.map 3)
      (s.feedback 3)

/-- The number of bytes of group `g` in a list of bytes handed to the RS-bus layer. -/
def group_sends (g : Nat) (bytes : List Nat) : Nat :=
  bytes.countP (fun x => decide (x / 2 ^ 3 % 2 = g))

/-- The state after `n` calls of `handle_occupied_tracks` with the same inputs. -/
def handle_n (cv : CV) (adc_result : Nat → AdcResult) (hw : RsHw) : Nat → OccState → OccState
  | 0, s => s
  | n + 1, s => handle_n cv adc_result hw n (handle_occupied_tracks cv adc_result hw s)

/-- No input pin reports `is_on` and `is_off` together. -/
def ConsistentInputs (adc_result : Nat → AdcResult) : Prop :=
  ∀ i, i < 8 → ¬ ((adc_result i).is_on > 0 ∧ (adc_result i).is_off ≠ 0)

/-- A plain decoder with two retransmissions configured (retransmission count 3), after
`init_occupancy`. -/
def occ_retry : OccState :=
  init_occupancy { CV.default with RSRetry := 2 } (OccState.zero 0b00110000 1)

/-- The inputs under which every call of `handle_occupied_tracks` reaches
`send_feedbacks` with an idle transmitter: gate open, start-up phase over, transmitter not
busy, address assigned, link connected. -/
def Live (hw : RsHw) (s : OccState) : Prop :=
  hw.time_for_next_feedback ≠ 0 ∧ hw.start_up_phase = 0 ∧ hw.RS_data2send_flag = 0 ∧
  s.My_RS_Addr ≠ 0 ∧ s.RS_Layer_2_connected ≠ 0

/-- The progress of a staged change to the value `v` of a feedback bit `x` whose inputs
ask for `v`, after `m` sends of its group: before the first send `previous_transmitted`
still differs from `v`; afterwards the bit is acknowledged, still staged as `v`, and its
counter is `R - m`. -/
def Tracked (R v m so sf : Nat) (x : Feedback) : Prop :=
  ((v = 1 ∧ so ≠ 0 ∧ sf = 0) ∨ (v = 0 ∧ sf ≠ 0 ∧ so = 0)) ∧
  (if m = 0 then (x.previous_transmitted = 0 ↔ v = 1)
   else x.previous_transmitted = v ∧ x.next_to_transmit = v ∧
        x.number_of_transmissions = R - m)

/-- The state `y` is the state `x` after `analyse_track_occupation` for the inputs
`adc_result`, as far as the feedback bits below 8, the map, the retransmission count and
the bytes handed over are concerned. -/
def AnalysisOf (adc_result : Nat → AdcResult) (x y : OccState) : Prop :=
  (∀ i, i < 8 →
    y.feedback i =
      analysed x.RS_tranmissions (soll_on adc_result x.map i) (soll_off adc_result x.map i)
        (x.feedback i)) ∧
  y.map = x.map ∧ y.RS_tranmissions = x.RS_tranmissions ∧ y.sent = x.sent

/-! ## relays.c (the functions called from main.c) -/

/-- The red coil. -/
def RED : Nat := 0
/-- The green coil. -/
def GREEN : Nat := 1
/-- The gate position after start-up, before the first command. -/
def UNKNOWN : Nat := 2

/-- The statement `RELAYS_PORT &= ~(1<<k)` on the 8-bit port register. -/
def clear_port_bit (port k : Nat) : Nat := port &&& (0xFF ^^^ ((1 <<< k) % 256))

/-- The statement `RELAYS_PORT |= (1<<k)` on the 8-bit port register. -/
def set_port_bit (port k : Nat) : Nat := port ||| ((1 <<< k) % 256)

/-- The byte at `&CV.T_on_F1 + device`, for `device` in 0 .. 3. -/
def CV.T_on (cv : CV) (device : Nat) : Nat :=
  match device with
  | 0 => cv.T_on_F1
  | 1 => cv.T_on_F2
  | 2 => cv.T_on_F3
  | _ => cv.T_on_F4

/-- The function `init_relay`. -/
def init_relay (cv : CV) (device : Nat) (r : RelayState) : RelayState :=
  let device_record : Device :=
    { gate_pos := UNKNOWN, hold_time := my_eeprom_read_byte (cv.T_on device), rest_time := 0 }
  { r with devices := store r.devices device device_record }

/-- The function `init_relays`. -/
def init_relays (cv : CV) (r : RelayState) : RelayState :=
  let r := { r with RELAYS_PORT := 0x00 }
  let r := init_relay cv 0 r
  let r := init_relay cv 1 r
  let r := init_relay cv 2 r
  init_relay cv 3 r

/-- The function `set_relay`; the globals `TargetDevice`, `TargetGate` and `TargetActivate`
are set by the command decoder before the call (`relays_led` only drives the LED and is
left out). -/
def set_relay (TargetDevice TargetGate TargetActivate : Nat) (r : RelayState) : RelayState :=
  if TargetActivate ≠ 0 then
    if (r.devices TargetDevice).gate_pos ≠ TargetGate then
      let port := clear_port_bit r.RELAYS_PORT (2 * TargetDevice)
      let port := clear_port_bit port (2 * TargetDevice + 1)
      let devices := store r.devices TargetDevice
        { r.devices TargetDevice with gate_pos := TargetGate }
      let devices := store devices TargetDevice
        { devices TargetDevice with rest_time := (devices TargetDevice).hold_time }
      let port := set_port_bit port (2 * TargetDevice + TargetGate)
      { devices := devices, RELAYS_PORT := port }
    else r
  else r

/-- One pass of the loop of `check_relays_time_out` for device `i`. -/
def time_out_body (r : RelayState) (i : Nat) : RelayState :=
  let rest_ticks := (r.devices i).rest_time
  if rest_ticks ≠ 0 then
    let rest_ticks := rest_ticks - 1
    let port :=
      if rest_ticks = 0 then
        clear_port_bit (clear_port_bit r.RELAYS_PORT (2 * i)) (2 * i + 1)
      else r.RELAYS_PORT
    { devices := store r.devices i { r.devices i with rest_time := rest_ticks },
      RELAYS_PORT := port }
  else r

/-- The function `check_relays_time_out`. -/
def check_relays_time_out (r : RelayState) : RelayState :=
  (List.range 4).foldl time_out_body r

/-- The state after `n` calls of `check_relays_time_out`. -/
def time_out_n : Nat → RelayState → RelayState
  | 0, r => r
  | n + 1, r => time_out_n n (check_relays_time_out r)

/-- The operations on the relays, with the inputs of each call. -/
inductive RelayAction where
  | command (TargetDevice TargetGate TargetActivate : Nat)
  | all (cv : CV) (pos : Nat)
  | tick

/-- The state after one operation. -/
def RelayAction.apply : RelayAction → RelayState → RelayState
  | .command d g a, r => set_relay d g a r
  | .all cv pos, r => set_all_relays cv pos r
  | .tick, r => check_relays_time_out r

/-- Whether a command addresses one of the four devices and one of its two coils. -/
def RelayAction.valid : RelayAction → Bool
  | .command d g _ => decide (d < 4) && decide (g ≤ 1)
  | .all _ _ => true
  | .tick => true

/-- The state after a sequence of operations, oldest first. -/
def run_relays (r : RelayState) : List RelayAction → RelayState
  | [] => r
  | a :: rest => run_relays (a.apply r) rest

/-- No device has both of its port bits set. -/
def CoilsExclusive (port : Nat) : Prop :=
  ∀ d, d < 4 → ¬ (port.testBit (2 * d) = true ∧ port.testBit (2 * d + 1) = true)

/-- The position `set_all_relays` requests for the argument `pos`. -/
def adjusted_pos (cv : CV) (pos : Nat) : Nat :=
  if my_eeprom_read_byte cv.Polarization ≠ 0 then (if pos ≠ 0 then 0 else 1) else pos

/-- The relays at reset: all variables zero. -/
def RelayState.zero : RelayState :=
  { devices := fun _ => { gate_pos := 0, hold_time := 0, rest_time := 0 }, RELAYS_PORT := 0 }

/-- The relays after `init_relays` with the factory configuration (hold time 5 ticks). -/
def relays_default : RelayState := init_relays CV.default RelayState.zero

/-- A configuration in which the hold time of relays 1 is 0. -/
def cv_hold_zero : CV := { CV.default with T_on_F1 := 0 }

/-! ## speed.c -/

/-- Number of characters on the LCD display. -/
def LCD_SIZE : Nat := 16
/-- Number of 20 ms ticks the result is displayed. -/
def DISPLAY_TIME : Nat := 400
/-- The scale H0. -/
def SCALE : Nat := 87

/-- Track status: the CVs of the track are not usable. -/
def NOT_INITIALISED : Nat := 0
/-- Track status: waiting for a train. -/
def INACTIVE : Nat := 1
/-- Track status: a measurement is running. -/
def ACTIVE : Nat := 2
/-- Track status: the result is on the display. -/
def SHOW : Nat := 3
/-- Track status: the display time is over. -/
def DONE : Nat := 4
/-- Track status: the measurement track became free during the measurement. -/
def ERROR : Nat := 255

/-- One element of the array `tracks[2]`. -/
structure Track where
  length : Nat
  number : Nat
  next : Nat
  status : Nat
  time : Nat

/-- What `write_lcd_string_line` last put on a line of the display: the start-up text, 16
blanks, the text "Speed: v Km/h", or 16 blanks with a `*` at index `pos`. -/
inductive LcdLine where
  | banner
  | blank
  | speed (v : Nat)
  | progress (pos : Nat)
  deriving DecidableEq

/-- The variables of speed.c and the two lines of the display. -/
structure SpeedState where
  tracks : Nat → Track
  TA : Nat
  TB : Nat
  TC : Nat
  TN : Nat
  lcd : Nat → LcdLine

/-- The variables of speed.c at reset. -/
def SpeedState.zero : SpeedState :=
  { tracks := fun _ => { length := 0, number := 0, next := 0, status := 0, time := 0 },
    TA := 0, TB := 0, TC := 0, TN := 0, lcd := fun _ => LcdLine.banner }

/-- The sanity checks of `init_speed_track` for one track and its track-number CV. -/
def sanity_checks (cv_out : Nat) (t : Track) : Track :=
  let t := if cv_out = 0 then { t with status := NOT_INITIALISED } else t
  let t := if t.number ≤ 0 ∨ t.number ≥ 7 then { t with status := NOT_INITIALISED } else t
  if t.length < 100 ∨ t.length > 5000 then { t with status := NOT_INITIALISED } else t

/-- The function `init_speed_track`. -/
def init_speed_track (cv : CV) (s : SpeedState) : SpeedState :=
  let cv37 := my_eeprom_read_byte cv.Speed1_Out
  let cv38 := my_eeprom_read_byte cv.Speed1_LL
  let cv39 := my_eeprom_read_byte cv.Speed1_LH
  let cv40 := my_eeprom_read_byte cv.Speed2_Out
  let cv41 := my_eeprom_read_byte cv.Speed2_LL
  let cv42 := my_eeprom_read_byte cv.Speed2_LH
  let t0 : Track :=
    { s.tracks 0 with
      number := (cv37 + 256 - 1) % 256, length := ((cv39 <<< 8) + cv38) % 65536,
      status := INACTIVE }
  let t1 : Track :=
    { s.tracks 1 with
      number := (cv40 + 256 - 1) % 256, length := ((cv42 <<< 8) + cv41) % 65536,
      status := INACTIVE }
  let t0 := sanity_checks cv37 t0
  let t1 := sanity_checks cv40 t1
  { s with tracks := store (store s.tracks 0 t0) 1 t1, lcd := fun _ => LcdLine.banner }

/-- The product `l_speed = length * 18 * SCALE` (a `long long`). -/
def l_speed_product (length : Nat) : Nat := length * 18 * SCALE

/-- The product `l_time = time * 100` (a `long long`). -/
def l_time_product (time : Nat) : Nat := time * 100

/-- The value of `unsigned int speed = l_speed` after the division, for a divisor that is
not zero. -/
def speed_shown (length time : Nat) : Nat :=
  (l_speed_product length / l_time_product time) % 65536

/-- OPTION 1 of `check_speed_track`: the status is INACTIVE. -/
def step_inactive (adc_result : Nat → AdcResult) (TA TB TC : Nat) (t : Track) : Track :=
  let t :=
    if (adc_result TA).is_on ≠ 0 ∧ (adc_result TB).is_on ≠ 0 ∧ (adc_result TC).is_off ≠ 0 then
      { t with next := TC, status := ACTIVE, time := 0 }
    else t
  if (adc_result TA).is_off ≠ 0 ∧ (adc_result TB).is_on ≠ 0 ∧ (adc_result TC).is_on ≠ 0 then
    { t with next := TA, status := ACTIVE, time := 0 }
  else t

/-- The number of characters that `%u` prints for a 16-bit `unsigned int`. -/
def decimal_digits (n : Nat) : Nat :=
  if n < 10 then 1 else if n < 100 then 2 else if n < 1000 then 3 else if n < 10000 then 4
  else 5

/-- The number of bytes that `sprintf(lcd_string, "Speed: %u Km/h", speed)` writes: the 7
characters of "Speed: ", the digits of `speed`, the 5 characters of " Km/h" and the
terminating zero. -/
def speed_text_size (speed : Nat) : Nat := 7 + decimal_digits speed + 5 + 1

/-- The function `check_speed_track`.  The result is `none` when the call divides by
zero, and when `sprintf` writes more than the `LCD_SIZE` bytes of `lcd_string`. -/
def check_speed_track (adc_result : Nat → AdcResult) (i : Nat) (s : SpeedState) :
    Option SpeedState :=
  let TA := ((s.tracks i).number + 256 - 1) % 256
  let TB := (s.tracks i).number
  let TC := ((s.tracks i).number + 1) % 256
  let TN := (s.tracks i).next
  let s := { s with TA := TA, TB := TB, TC := TC, TN := TN }
  let t := s.tracks i
  if t.status = INACTIVE then
    some { s with tracks := store s.tracks i (step_inactive adc_result TA TB TC t) }
  else if t.status = ACTIVE then
    let t := { t with time := (t.time + 1) % 65536 }
    if (adc_result TB).is_off ≠ 0 then
      some { s with tracks := store s.tracks i { t with status := ERROR } }
    else if (adc_result TN).is_on ≠ 0 then
      let t := { t with status := SHOW }
      if l_time_product t.time = 0 then none
      else
        let speed := speed_shown t.length t.time
        if speed_text_size speed > LCD_SIZE then none
        else
          some { s with
            tracks := store s.tracks i { t with time := 0 },
            lcd := store s.lcd i (LcdLine.speed speed) }
    else
      let pos := (t.time / 25) % LCD_SIZE
      some { s with tracks := store s.tracks i t, lcd := store s.lcd i (LcdLine.progress pos) }
  else if t.status = SHOW then
    let t := { t with time := (t.time + 1) % 65536 }
    let t := if t.time > DISPLAY_TIME then { t with status := DONE } else t
    some { s with tracks := store s.tracks i t }
  else if t.status = DONE ∨ t.status = ERROR then
    if (adc_result TA).is_off ≠ 0 ∧ (adc_result TB).is_off ≠ 0 ∧ (adc_result TC).is_off ≠ 0 then
      some { s with
        tracks := store s.tracks i { t with status := INACTIVE },
        lcd := store s.lcd i LcdLine.blank }
    else some s
  else some s

/-- The function `check_speed_tracks`. -/
def check_speed_tracks (adc_result : Nat → AdcResult) (s : SpeedState) : Option SpeedState :=
  (check_speed_track adc_result 0 s).bind (check_speed_track adc_result 1)

/-- The state after a sequence of calls of `check_speed_track` for track 0, one converter
result per call. -/
def run_track0 (s : SpeedState) : List (Nat → AdcResult) → Option SpeedState
  | [] => some s
  | adc_result :: rest => (check_speed_track adc_result 0 s).bind (fun s => run_track0 s rest)

/-- A configuration whose first speed track is input 2 (pin 1) with a length of 5000 mm. -/
def cv_speed_5000 : CV :=
  { CV.default with Speed1_Out := 2, Speed1_LL := 0x88, Speed1_LH := 0x13 }

/-- A configuration whose first speed track is input 2 (pin 1) with a length of 4200 mm. -/
def cv_speed_4200 : CV :=
  { CV.default with Speed1_Out := 2, Speed1_LL := 0x68, Speed1_LH := 0x10 }

/-- A configuration whose first speed track is input 2 (pin 1) with a length of 4185 mm. -/
def cv_speed_4185 : CV :=
  { CV.default with Speed1_Out := 2, Speed1_LL := 0x59, Speed1_LH := 0x10 }

/-- A configuration whose first speed track is input 2 (pin 1) with a length of 1000 mm. -/
def cv_speed_1000 : CV :=
  { CV.default with Speed1_Out := 2, Speed1_LL := 0xE8, Speed1_LH := 0x03 }

/-- A reverser configuration whose CV43 (FB_A) holds 255, the value of an erased cell. -/
def cv_fb_255 : CV := { CV.default with FB_A := 255 }

/-- A state in which track 0 (pin 1, trigger pin 2) is ACTIVE with the given length and
tick count. -/
def speed_active (length time : Nat) : SpeedState :=
  { SpeedState.zero with
    tracks := store SpeedState.zero.tracks 0
      { length := length, number := 1, next := 2, status := ACTIVE, time := time } }


/-! ## Auxiliary definitions for the statements about the initialisation, the channel
selector and the speed tracks -/

/-- The byte at `&CV.DelayIn1 + i` (CV11 .. CV18), the delay CV of input pin `i` in
0 .. 7. -/
def CV.DelayIn (cv : CV) (i : Nat) : Nat :=
  match i with
  | 0 => cv.DelayIn1
  | 1 => cv.DelayIn2
  | 2 => cv.DelayIn3
  | 3 => cv.DelayIn4
  | 4 => cv.DelayIn5
  | 5 => cv.DelayIn6
  | 6 => cv.DelayIn7
  | _ => cv.DelayIn8

/-- The input pins sampled by the calls `l` of `detect_occupied_tracks` made from state
`s`, oldest call first: the value of `ADC_Input_Pin` at every call that runs the 1 ms
action. -/
def sampled_pins : AdcState → List AdcHw → List Nat
  | _, [] => []
  | s, hw :: rest =>
    (if samples hw then [s.ADC_Input_Pin] else [])
      ++ sampled_pins (detect_occupied_tracks hw s) rest

/-- A configuration whose off-threshold (CV36 = 30) exceeds the on-threshold (CV35 = 20). -/
def cv_thresholds_crossed : CV := { CV.default with Threshold_on := 20, Threshold_of := 30 }

/-- A call that runs only the 1 ms action and converts the value 25. -/
def hw_sample_25 : AdcHw :=
  { T_Sample := 2, T_DelayOff := 0, ADCSRA := 0, ADCL := 25, ADCH := 0 }

/-- A call that runs both the 1 ms action (converting 1023) and the 10 ms action. -/
def hw_sample_and_count : AdcHw :=
  { T_Sample := 2, T_DelayOff := 10, ADCSRA := 0, ADCL := 255, ADCH := 3 }

/-- The state after a sequence of calls of `check_speed_track`, each with its track index
and the converter results of that moment. -/
def run_speed (s : SpeedState) : List (Nat × (Nat → AdcResult)) → Option SpeedState
  | [] => some s
  | step :: rest => (check_speed_track step.2 step.1 s).bind (fun s => run_speed s rest)

/-- A state in which track 0 (pin 1, trigger pin 2, 1000 mm, 7 ticks) has the given
status. -/
def speed_with_status (status : Nat) : SpeedState :=
  { SpeedState.zero with
    tracks := store SpeedState.zero.tracks 0
      { length := 1000, number := 1, next := 2, status := status, time := 7 } }

/-! ## main.c: `init_global` -/

/-- The global variables that `init_global` writes.  Their declarations (global.h) are not
among the sources: the two addresses `My_Dec_Addr` and `My_Loco_Addr` are taken as
`unsigned int`, the others as `unsigned char`. -/
structure GlobalState where
  My_RS_Addr : Nat
  MyConfig : Nat
  MyType : Nat
  My_Dec_Addr : Nat
  My_Loco_Addr : Nat
  CmdType : Nat

/-- Step 4 of `init_global`, the two assignments to `My_Dec_Addr`: the basic formula for
`MyConfig != 1`, the extended formula otherwise. -/
def select_dec_addr (MyConfig cv1 cv9 : Nat) : Nat :=
  if MyConfig ≠ 1 then ((cv9 <<< 6) + cv1 + 65536 - 1) % 65536
  else ((cv9 <<< 8) + cv1 + 65536 - 1) % 65536

/-- The function `init_global`.  The constants `INVALID_DEC_ADR`, `LOCO_OFFSET` and
`IGNORE_CMD` are defined in files that are not among the sources and are parameters. -/
def init_global (INVALID_DEC_ADR LOCO_OFFSET IGNORE_CMD : Nat) (cv : CV) (g : GlobalState) :
    GlobalState :=
  let My_RS_Addr := my_eeprom_read_byte cv.MyRsAddr
  let My_RS_Addr := if My_RS_Addr > 128 then 0 else My_RS_Addr
  let MyConfig := my_eeprom_read_byte cv.Config &&& (1 <<< 6)
  let MyType := my_eeprom_read_byte cv.DecType
  let cv1 := my_eeprom_read_byte cv.myAddrL
  let cv9 := my_eeprom_read_byte cv.myAddrH
  let cv9 := cv9 &&& 0x07
  let My_Dec_Addr := select_dec_addr MyConfig cv1 cv9
  let My_Dec_Addr := if cv1 > 63 then INVALID_DEC_ADR % 65536 else My_Dec_Addr
  let My_Dec_Addr := if My_Dec_Addr > 511 then INVALID_DEC_ADR % 65536 else My_Dec_Addr
  let My_Dec_Addr :=
    if my_eeprom_read_byte cv.myAddrH &&& 0x80 ≠ 0 then INVALID_DEC_ADR % 65536
    else My_Dec_Addr
  let My_Loco_Addr := (My_RS_Addr + LOCO_OFFSET) % 65536
  let My_Loco_Addr := if My_Loco_Addr > 128 + LOCO_OFFSET then LOCO_OFFSET % 65536 else My_Loco_Addr
  { g with
    My_RS_Addr := My_RS_Addr, MyConfig := MyConfig, MyType := MyType,
    My_Dec_Addr := My_Dec_Addr, My_Loco_Addr := My_Loco_Addr, CmdType := IGNORE_CMD % 256 }

/-- The global variables before `init_global`. -/
def GlobalState.zero : GlobalState :=
  { My_RS_Addr := 0, MyConfig := 0, MyType := 0, My_Dec_Addr := 0, My_Loco_Addr := 0,
    CmdType := 0 }

/-- A configuration that asks for extended accessory addressing: bit 6 of CV29 is set
(with bit 7, "we are accessory"), CV1 = 1 and CV9 = 1. -/
def cv_config_extended : CV :=
  { CV.default with Config := 0b11000000, myAddrL := 1, myAddrH := 1 }

/-! ## Auxiliary definitions for the statements about the invariants -/

/-- The entries of `adc_result` that a call `check_speed_track(i)` made in state `s` can
read: the pins before, at and after the track for INACTIVE, DONE and ERROR, the pin of the
track and the trigger pin for ACTIVE, none for the other values of the status. -/
def indices_read (i : Nat) (s : SpeedState) : List Nat :=
  let TA := ((s.tracks i).number + 256 - 1) % 256
  let TB := (s.tracks i).number
  let TC := ((s.tracks i).number + 1) % 256
  let TN := (s.tracks i).next
  if (s.tracks i).status = INACTIVE then [TA, TB, TC]
  else if (s.tracks i).status = ACTIVE then [TB, TN]
  else if (s.tracks i).status = SHOW then []
  else if (s.tracks i).status = DONE ∨ (s.tracks i).status = ERROR then [TA, TB, TC]
  else []

/-- A track is either NOT_INITIALISED or has its pin in 1 .. 6 and, while ACTIVE, its
trigger pin next to its own pin. -/
def TrackInRange (t : Track) : Prop :=
  t.status = NOT_INITIALISED ∨
    (1 ≤ t.number ∧ t.number ≤ 6 ∧
      (t.status = ACTIVE → t.next + 1 = t.number ∨ t.next = t.number + 1))

/-- A channel reported on has its newest history bit and its stability flag set. -/
def OnImpliesStable (s : AdcState) : Prop :=
  ∀ c, (s.adc_result c).is_on ≠ 0 →
    (s.adc_result c).is_on = 1 ∧ (s.adc_port c).adc_history &&& 1 = 1 ∧
    (s.adc_port c).on_is_stable = 1
/-! ## Lemmas on arrays and on the 10 ms action -/

theorem store_same {α : Type} (a : Nat → α) (i : Nat) (v : α) : store a i v i = v := by
  simp [store]

theorem store_other {α : Type} (a : Nat → α) (i j : Nat) (v : α) (h : j ≠ i) :
    store a i v j = a j := by
  simp [store, h]

theorem delay_off_body_eq (s : AdcState) (i : Nat) :
    delay_off_body s i =
      { s with adc_port := store s.adc_port i (count_down_port (s.adc_port i)),
               adc_result := store s.adc_result i
                 (count_down_result (s.adc_port i) (s.adc_result i)) } := rfl

theorem foldl_delay_off_body (l : List Nat) (hl : l.Nodup) (s : AdcState) :
    l.foldl delay_off_body s =
      { s with
        adc_port := fun j => if j ∈ l then count_down_port (s.adc_port j) else s.adc_port j,
        adc_result := fun j =>
          if j ∈ l then count_down_result (s.adc_port j) (s.adc_result j)
          else s.adc_result j } := by
  induction l generalizing s with
  | nil => simp
  | cons i rest ih =>
    rw [List.nodup_cons] at hl
    rw [List.foldl_cons, ih hl.2, delay_off_body_eq]
    congr 1
    · funext j
      by_cases hj : j = i
      · subst hj; simp [store, hl.1]
      · simp [store, hj]
    · funext j
      by_cases hj : j = i
      · subst hj; simp [store, hl.1]
      · simp [store, hj]

theorem delay_off_step_eq (s : AdcState) :
    delay_off_step s =
      { s with
        T_DelayOff := 0,
        adc_port := fun j => if j < 8 then count_down_port (s.adc_port j) else s.adc_port j,
        adc_result := fun j =>
          if j < 8 then count_down_result (s.adc_port j) (s.adc_result j)
          else s.adc_result j } := by
  unfold delay_off_step
  rw [foldl_delay_off_body _ (List.nodup_range 8)]
  simp [List.mem_range]

theorem count_down_port_history (p : AdcPort) :
    (count_down_port p).adc_history = p.adc_history := by
  unfold count_down_port; split <;> rfl

theorem count_down_result_is_on (p : AdcPort) (r : AdcResult) :
    (count_down_result p r).is_on = r.is_on := by
  unfold count_down_result; simp only; split
  · split <;> rfl
  · rfl

theorem count_down_result_is_off (p : AdcPort) (r : AdcResult)
    (h : (count_down_result p r).is_off ≠ 0) : p.adc_history &&& 1 = 0 := by
  unfold count_down_result at h
  simp only [count_down_port_history] at h
  by_contra hne
  rw [if_neg hne] at h
  simp at h

theorem onImpliesOccupied_delay_off_step (s : AdcState) (h : OnImpliesOccupied s) :
    OnImpliesOccupied (delay_off_step s) := by
  intro c hc
  rw [delay_off_step_eq] at hc ⊢
  by_cases hc8 : c < 8
  · simp only [hc8, if_true, count_down_result_is_on, count_down_port_history] at hc ⊢
    exact h c hc
  · simp only [hc8, if_false] at hc ⊢
    exact h c hc

theorem onImpliesOccupied_sample_step (hw : AdcHw) (s : AdcState) (h : OnImpliesOccupied s) :
    OnImpliesOccupied (sample_step hw s) := by
  intro c hc
  by_cases hcp : c = s.ADC_Input_Pin
  · subst hcp
    simp only [sample_step, store, if_true] at hc ⊢
    by_contra hne
    simp [hne] at hc
  · simp only [sample_step, store, hcp, if_false] at hc ⊢
    exact h c hc

theorem sample_step_other (hw : AdcHw) (s : AdcState) (c : Nat) (hc : c ≠ s.ADC_Input_Pin) :
    (sample_step hw s).adc_result c = s.adc_result c ∧
    (sample_step hw s).adc_port c = s.adc_port c := by
  simp [sample_step, store, hc]

theorem delay_off_step_exclusive (s : AdcState) (h : OnImpliesOccupied s) (c : Nat)
    (hc : c < 8) :
    ¬ (((delay_off_step s).adc_result c).is_on = 1 ∧
       ((delay_off_step s).adc_result c).is_off = 1) := by
  rintro ⟨hon, hoff⟩
  rw [delay_off_step_eq] at hon hoff
  simp only [hc, if_true, count_down_result_is_on] at hon hoff
  have h0 := count_down_result_is_off (s.adc_port c) (s.adc_result c) (by omega)
  exact h c (by omega) h0

theorem detect_occupied_tracks_eq (hw : AdcHw) (s : AdcState) :
    detect_occupied_tracks hw s =
      if samples hw then
        (if counts_down hw then delay_off_step (sample_step hw (read_counters hw s))
         else sample_step hw (read_counters hw s))
      else
        (if counts_down hw then delay_off_step (read_counters hw s)
         else read_counters hw s) := by
  unfold detect_occupied_tracks samples counts_down
  by_cases h1 : hw.T_Sample ≥ 2 ∧ hw.ADCSRA &&& 0x40 = 0 <;>
    by_cases h2 : hw.T_DelayOff ≥ 10 <;>
    simp [h1, h2, read_counters, sample_step]

theorem detect_step_invariant (c : Nat) (hc : c < 8) (hw : AdcHw) (s : AdcState) (b : Bool)
    (hinv : OnImpliesOccupied s)
    (hb : b = true → ¬ ((s.adc_result c).is_on = 1 ∧ (s.adc_result c).is_off = 1)) :
    OnImpliesOccupied (detect_occupied_tracks hw s) ∧
    ((if counts_down hw then true
       else if samples hw && decide (s.ADC_Input_Pin = c) then false else b) = true →
      ¬ (((detect_occupied_tracks hw s).adc_result c).is_on = 1 ∧
         ((detect_occupied_tracks hw s).adc_result c).is_off = 1)) := by
  have hinv0 : OnImpliesOccupied (read_counters hw s) := hinv
  have hinv1 := onImpliesOccupied_sample_step hw _ hinv0
  rw [detect_occupied_tracks_eq]
  cases h1 : samples hw <;> cases h2 : counts_down hw <;>
    simp only [Bool.false_eq_true, if_false, if_true, Bool.false_and, Bool.true_and]
  · exact ⟨hinv0, hb⟩
  · exact ⟨onImpliesOccupied_delay_off_step _ hinv0,
      fun _ => delay_off_step_exclusive _ hinv0 c hc⟩
  · refine ⟨hinv1, ?_⟩
    by_cases hp : s.ADC_Input_Pin = c
    · simp [hp]
    · have ho := sample_step_other hw (read_counters hw s) c (fun h => hp h.symm)
      simp only [hp, decide_False, Bool.false_eq_true, if_false, ho.1]
      exact hb
  · exact ⟨onImpliesOccupied_delay_off_step _ hinv1,
      fun _ => delay_off_step_exclusive _ hinv1 c hc⟩

theorem run_adc_invariant (c : Nat) (hc : c < 8) (l : List AdcHw) :
    ∀ (s : AdcState) (b : Bool), OnImpliesOccupied s →
      (b = true → ¬ ((s.adc_result c).is_on = 1 ∧ (s.adc_result c).is_off = 1)) →
      off_is_current c s l b = true →
      ¬ (((run_adc s l).adc_result c).is_on = 1 ∧ ((run_adc s l).adc_result c).is_off = 1) := by
  induction l with
  | nil => intro s b _ hb hcur; exact hb hcur
  | cons hw rest ih =>
    intro s b hinv hb hcur
    have hstep := detect_step_invariant c hc hw s b hinv hb
    exact ih _ _ hstep.1 hstep.2 hcur

theorem adc_power_up_result (cv : CV) (c : Nat) :
    (adc_power_up cv).adc_result c = { is_on := 0, is_off := 0 } := rfl

theorem onImpliesOccupied_power_up (cv : CV) : OnImpliesOccupied (adc_power_up cv) := by
  intro c hc
  rw [adc_power_up_result] at hc
  exact absurd rfl hc

/-- C1 (as amended): in every state reached from power-up by calls of
`detect_occupied_tracks`, a channel that no 1 ms action has sampled since the last 10 ms
action (or since power-up) does not have `is_on = 1` and `is_off = 1` together. -/
theorem C1_on_off_exclusive_when_current (cv : CV) (l : List AdcHw) (c : Nat) (hc : c < 8)
    (hcur : off_is_current c (adc_power_up cv) l true = true) :
    ¬ (((run_adc (adc_power_up cv) l).adc_result c).is_on = 1 ∧
       ((run_adc (adc_power_up cv) l).adc_result c).is_off = 1) :=
  run_adc_invariant c hc l _ true (onImpliesOccupied_power_up cv)
    (fun _ => by rw [adc_power_up_result]; simp) hcur

/-- C1, witness: stability count 1, a countdown, a high sample of channel 0 and another
countdown. -/
theorem C1_on_off_exclusive_when_current_witness :
    ¬ (((run_adc (adc_power_up cv_one_sample)
          [hw_count_down, hw_sample_high, hw_count_down]).adc_result 0).is_on = 1 ∧
       ((run_adc (adc_power_up cv_one_sample)
          [hw_count_down, hw_sample_high, hw_count_down]).adc_result 0).is_off = 1) :=
  C1_on_off_exclusive_when_current cv_one_sample
    [hw_count_down, hw_sample_high, hw_count_down] 0 (by decide) (by decide)

/-- C1, counterexample: with stability count 1, a 10 ms action at power-up sets `is_off` of
channel 0 and the next 1 ms action, converting 1023, sets `is_on` of channel 0 while
`is_off` is still 1. -/
theorem C1_counterexample :
    ((run_adc (adc_power_up cv_one_sample) [hw_count_down, hw_sample_high]).adc_result 0).is_on
      = 1 ∧
    ((run_adc (adc_power_up cv_one_sample) [hw_count_down, hw_sample_high]).adc_result 0).is_off
      = 1 := by
  decide

/-! ## The stability filter -/

theorem shiftLeft_or_one (h : Nat) : ((h <<< 1) % 256) ||| 1 = (2 * h + 1) % 256 := by
  have e : (h <<< 1) % 256 = 2 * (h % 128) := by
    rw [Nat.shiftLeft_eq]; omega
  rw [e]
  have := Nat.mul_add_lt_is_or (i := 1) (b := 1) (by norm_num) (h % 128)
  simp only [pow_one] at this
  rw [← this]; omega

theorem shiftLeft_mod (h : Nat) : (h <<< 1) % 256 = (2 * h) % 256 := by
  rw [Nat.shiftLeft_eq]; omega

theorem history_step (N k h : Nat) (hN : 1 ≤ N) (hN8 : N ≤ 8)
    (hlt : k < N → h % 2 ^ (k + 1) = 2 ^ k - 1)
    (hge : N ≤ k → h % 2 ^ N = 2 ^ N - 1) :
    (k + 1 < N → ((2 * h + 1) % 256) % 2 ^ (k + 2) = 2 ^ (k + 1) - 1) ∧
    (N ≤ k + 1 → ((2 * h + 1) % 256) % 2 ^ N = 2 ^ N - 1) ∧
    (k + 1 < N → ((2 * h + 1) % 256) % 2 ^ N ≠ 2 ^ N - 1) := by
  by_cases hk : k < N
  · have h1 := hlt hk
    clear hlt hge
    interval_cases N <;> interval_cases k <;> simp at h1 ⊢ <;> omega
  · have h1 := hge (by omega)
    clear hlt hge
    refine ⟨fun h => by omega, fun _ => ?_, fun h => by omega⟩
    interval_cases N <;> simp at h1 ⊢ <;> omega

theorem sample_step_config (hw : AdcHw) (s : AdcState) :
    (sample_step hw s).Min_Samples_Mask = s.Min_Samples_Mask ∧
    (sample_step hw s).Threshold_On = s.Threshold_On ∧
    (sample_step hw s).Threshold_Off = s.Threshold_Off := ⟨rfl, rfl, rfl⟩

theorem delay_off_step_config (s : AdcState) :
    (delay_off_step s).Min_Samples_Mask = s.Min_Samples_Mask ∧
    (delay_off_step s).Threshold_On = s.Threshold_On ∧
    (delay_off_step s).Threshold_Off = s.Threshold_Off ∧
    (delay_off_step s).ADC_Input_Pin = s.ADC_Input_Pin := by
  rw [delay_off_step_eq]; exact ⟨rfl, rfl, rfl, rfl⟩

theorem detect_occupied_tracks_config (hw : AdcHw) (s : AdcState) :
    (detect_occupied_tracks hw s).Min_Samples_Mask = s.Min_Samples_Mask ∧
    (detect_occupied_tracks hw s).Threshold_On = s.Threshold_On ∧
    (detect_occupied_tracks hw s).Threshold_Off = s.Threshold_Off := by
  rw [detect_occupied_tracks_eq]
  cases samples hw <;> cases counts_down hw <;>
    simp only [Bool.false_eq_true, if_false, if_true, delay_off_step_config,
      sample_step_config, read_counters, and_self]

theorem risingAfter_delay_off_step (N c k : Nat) (s : AdcState) (h : RisingAfter N c k s) :
    RisingAfter N c k (delay_off_step s) := by
  unfold RisingAfter at h ⊢
  rw [delay_off_step_eq]
  by_cases hc : c < 8
  · simpa only [hc, if_true, count_down_port_history, count_down_result_is_on] using h
  · simpa only [hc, if_false] using h

theorem risingAfter_sample_other (N c k : Nat) (hw : AdcHw) (s : AdcState)
    (hp : s.ADC_Input_Pin ≠ c) (h : RisingAfter N c k s) :
    RisingAfter N c k (sample_step hw s) := by
  unfold RisingAfter at h ⊢
  have ho := sample_step_other hw s c (fun e => hp e.symm)
  rw [ho.1, ho.2]; exact h

theorem analyse_history_history (m : Nat) (p : AdcPort) :
    (analyse_history m p).adc_history = p.adc_history := by
  unfold analyse_history; simp only; split
  · rfl
  · split <;> rfl

theorem analyse_history_stable (m : Nat) (p : AdcPort) :
    (analyse_history m p).on_is_stable = if p.adc_history &&& m = m then 1 else 0 := by
  unfold analyse_history; simp only; split
  · rfl
  · split <;> rfl

/-- The history byte of the sampled channel after the 1 ms action. -/
theorem sample_step_history (hw : AdcHw) (s : AdcState) :
    ((sample_step hw s).adc_port s.ADC_Input_Pin).adc_history =
      shift_history s.Threshold_On s.Threshold_Off hw.adc_value
        (s.adc_port s.ADC_Input_Pin).adc_history := by
  simp only [sample_step, store_same, analyse_history_history, AdcHw.adc_value]

/-- The verdict `is_on` of the sampled channel after the 1 ms action. -/
theorem sample_step_is_on (hw : AdcHw) (s : AdcState) :
    ((sample_step hw s).adc_result s.ADC_Input_Pin).is_on =
      if ((sample_step hw s).adc_port s.ADC_Input_Pin).adc_history % 2 = 1 ∧
          ((sample_step hw s).adc_port s.ADC_Input_Pin).adc_history &&& s.Min_Samples_Mask
            = s.Min_Samples_Mask
      then 1 else 0 := by
  simp only [sample_step, store_same, analyse_history_history, analyse_history_stable,
    Nat.and_one_is_mod]
  split_ifs <;> simp_all

theorem risingAfter_sample_above (N c k : Nat) (hN : 1 ≤ N) (hN8 : N ≤ 8) (hw : AdcHw)
    (s : AdcState) (hmask : s.Min_Samples_Mask = 2 ^ N - 1) (hp : s.ADC_Input_Pin = c)
    (habove : hw.adc_value > s.Threshold_On) (h : RisingAfter N c k s) :
    RisingAfter N c (k + 1) (sample_step hw s) := by
  obtain ⟨h1, h2, _⟩ := h
  have hs := history_step N k (s.adc_port c).adc_history hN hN8 h1 h2
  subst hp
  have hh : ((sample_step hw s).adc_port s.ADC_Input_Pin).adc_history =
      (2 * (s.adc_port s.ADC_Input_Pin).adc_history + 1) % 256 := by
    rw [sample_step_history, shift_history, if_pos habove, shiftLeft_or_one]
  have hon := sample_step_is_on hw s
  rw [hmask, Nat.and_pow_two_sub_one_eq_mod, hh] at hon
  unfold RisingAfter
  rw [hh, hon]
  refine ⟨hs.1, hs.2.1, fun _ => ?_⟩
  have hodd : (2 * (s.adc_port s.ADC_Input_Pin).adc_history + 1) % 256 % 2 = 1 := by omega
  by_cases hk : N ≤ k + 1
  · rw [if_pos ⟨hodd, hs.2.1 hk⟩, if_pos hk]
  · rw [if_neg (fun hc => hs.2.2 (by omega) hc.2), if_neg hk]

theorem risingAfter_run_adc (N c : Nat) (hN : 1 ≤ N) (hN8 : N ≤ 8) (l : List AdcHw) :
    ∀ (s : AdcState) (k : Nat), s.Min_Samples_Mask = 2 ^ N - 1 → RisingAfter N c k s →
      samples_above c s l = true →
      RisingAfter N c (k + sample_count c s l) (run_adc s l) := by
  induction l with
  | nil => intro s k _ h _; exact h
  | cons hw rest ih =>
    intro s k hmask h habove
    simp only [samples_above, Bool.and_eq_true] at habove
    simp only [sample_count, run_adc]
    have hcfg := detect_occupied_tracks_config hw s
    have hstep : RisingAfter N c
        (k + if samples hw && decide (s.ADC_Input_Pin = c) then 1 else 0)
        (detect_occupied_tracks hw s) := by
      have h0 : RisingAfter N c k (read_counters hw s) := h
      rw [detect_occupied_tracks_eq]
      cases hsm : samples hw
      · simp only [Bool.false_and, Bool.false_eq_true, if_false, Nat.add_zero]
        cases counts_down hw
        · exact h0
        · exact risingAfter_delay_off_step N c k _ h0
      · by_cases hp : s.ADC_Input_Pin = c
        · have hab : hw.adc_value > s.Threshold_On := by
            simpa [hsm, hp] using habove.1
          have h1 := risingAfter_sample_above N c k hN hN8 hw (read_counters hw s) hmask hp
            hab h0
          simp only [hp, decide_True, Bool.and_self, if_true]
          cases counts_down hw
          · exact h1
          · exact risingAfter_delay_off_step N c _ _ h1
        · have h1 := risingAfter_sample_other N c k hw (read_counters hw s) hp h0
          simp only [hp, decide_False, Bool.and_false, Bool.false_eq_true, if_false,
            Nat.add_zero, if_true]
          cases counts_down hw
          · exact h1
          · exact risingAfter_delay_off_step N c _ _ h1
    have := ih (detect_occupied_tracks hw s) _ (hcfg.1.trans hmask) hstep habove.2
    rw [Nat.add_assoc] at this
    exact this

/-- C2: with stability count `N` in 1..8 (mask `2^N - 1`), from any state in which the
newest history bit of channel `c` is 0, after a sequence of calls in which every sample of
`c` is above `Threshold_On`, `is_on` of `c` is 0 while `c` has been sampled fewer than `N`
times (and at least once) and 1 once it has been sampled `N` times or more. -/
theorem C2_is_on_after_N_samples (N c : Nat) (hN : 1 ≤ N) (hN8 : N ≤ 8) (s : AdcState)
    (hmask : s.Min_Samples_Mask = 2 ^ N - 1)
    (hbit : (s.adc_port c).adc_history &&& 1 = 0)
    (l : List AdcHw) (habove : samples_above c s l = true)
    (hk : 1 ≤ sample_count c s l) :
    ((run_adc s l).adc_result c).is_on = if N ≤ sample_count c s l then 1 else 0 := by
  have h0 : RisingAfter N c 0 s := by
    refine ⟨fun _ => ?_, fun h => by omega, fun h => by omega⟩
    rw [Nat.and_one_is_mod] at hbit
    simpa using hbit
  have h := risingAfter_run_adc N c hN hN8 l s 0 hmask h0 habove
  rw [Nat.zero_add] at h
  exact h.2.2 hk

/-- C2, witness: the factory configuration (stability count 3) from power-up; channel 0 is
sampled for the third time by the 17th call. -/
theorem C2_is_on_after_N_samples_witness :
    ((run_adc (adc_power_up CV.default) (List.replicate 17 hw_sample_high)).adc_result 0).is_on
      = if 3 ≤ sample_count 0 (adc_power_up CV.default) (List.replicate 17 hw_sample_high)
        then 1 else 0 :=
  C2_is_on_after_N_samples 3 0 (by decide) (by decide) (adc_power_up CV.default)
    (by decide) (by decide) (List.replicate 17 hw_sample_high) (by decide) (by decide)

theorem make_mask_eq (N : Nat) (hN : 1 ≤ N) (hN8 : N ≤ 8) : make_mask N = 2 ^ N - 1 := by
  interval_cases N <;> decide

theorem clamp_Min_Samples_range (cv : CV) :
    1 ≤ clamp_Min_Samples cv ∧ clamp_Min_Samples cv ≤ 8 := by
  unfold clamp_Min_Samples
  simp only
  split_ifs <;> omega

/-- The mask loaded at power-up has the `clamp_Min_Samples` low-order bits set. -/
theorem adc_power_up_mask (cv : CV) :
    (adc_power_up cv).Min_Samples_Mask = 2 ^ clamp_Min_Samples cv - 1 :=
  make_mask_eq _ (clamp_Min_Samples_range cv).1 (clamp_Min_Samples_range cv).2

/-! ## The off-release countdown -/

theorem analyse_history_max_delay (m : Nat) (p : AdcPort) :
    (analyse_history m p).max_delay_before_off = p.max_delay_before_off := by
  unfold analyse_history; simp only; split
  · rfl
  · split <;> rfl

theorem analyse_history_delay (m : Nat) (p : AdcPort) :
    (analyse_history m p).delay_before_off =
      if p.adc_history &&& m = m ∨ p.adc_history &&& m = 0 then p.delay_before_off
      else p.max_delay_before_off := by
  unfold analyse_history; simp only
  by_cases h1 : p.adc_history &&& m = m
  · rw [if_pos h1, if_pos (Or.inl h1)]
  · by_cases h2 : p.adc_history &&& m = 0
    · rw [if_neg h1, if_pos h2, if_pos (Or.inr h2)]
    · rw [if_neg h1, if_neg h2, if_neg (by tauto)]

theorem sample_step_max_delay (hw : AdcHw) (s : AdcState) (c : Nat) :
    ((sample_step hw s).adc_port c).max_delay_before_off =
      (s.adc_port c).max_delay_before_off := by
  by_cases hc : c = s.ADC_Input_Pin
  · subst hc
    simp only [sample_step, store_same, analyse_history_max_delay]
  · rw [(sample_step_other hw s c hc).2]

theorem sample_step_is_off (hw : AdcHw) (s : AdcState) (c : Nat) :
    ((sample_step hw s).adc_result c).is_off = (s.adc_result c).is_off := by
  by_cases hc : c = s.ADC_Input_Pin
  · subst hc
    simp only [sample_step, store_same]
    split <;> rfl
  · rw [(sample_step_other hw s c hc).1]

/-- The countdown of the sampled channel after the 1 ms action. -/
theorem sample_step_delay (hw : AdcHw) (s : AdcState) :
    ((sample_step hw s).adc_port s.ADC_Input_Pin).delay_before_off =
      if ((sample_step hw s).adc_port s.ADC_Input_Pin).adc_history &&& s.Min_Samples_Mask
            = s.Min_Samples_Mask ∨
          ((sample_step hw s).adc_port s.ADC_Input_Pin).adc_history &&& s.Min_Samples_Mask = 0
      then (s.adc_port s.ADC_Input_Pin).delay_before_off
      else (s.adc_port s.ADC_Input_Pin).max_delay_before_off := by
  simp only [sample_step, store_same, analyse_history_delay, analyse_history_history]

theorem shift_history_cases (t1 t2 v h : Nat) :
    shift_history t1 t2 v h = (2 * h + 1) % 256 ∨ shift_history t1 t2 v h = (2 * h) % 256 ∨
      shift_history t1 t2 v h = h := by
  unfold shift_history
  split
  · left; exact shiftLeft_or_one h
  · split
    · right; left; exact shiftLeft_mod h
    · right; right; rfl

theorem mixed_of_falling (N x : Nat) (hN : 2 ≤ N) (hN8 : N ≤ 8) (hx : x % 4 = 2) :
    ¬ (x % 2 ^ N = 2 ^ N - 1 ∨ x % 2 ^ N = 0) := by
  interval_cases N <;> simp <;> omega

theorem offDelayed_sample_step (N D c j : Nat) (hN : 2 ≤ N) (hN8 : N ≤ 8) (hw : AdcHw)
    (s : AdcState) (hmask : s.Min_Samples_Mask = 2 ^ N - 1) (h : OffDelayed D c j s) :
    OffDelayed D c j (sample_step hw s) := by
  obtain ⟨hD, hd, hoff⟩ := h
  refine ⟨by rw [sample_step_max_delay]; exact hD, ?_, by rw [sample_step_is_off]; exact hoff⟩
  by_cases hc : c = s.ADC_Input_Pin
  · subst hc
    have hdel := sample_step_delay hw s
    have hh := sample_step_history hw s
    rw [hmask, Nat.and_pow_two_sub_one_eq_mod] at hdel
    rcases shift_history_cases s.Threshold_On s.Threshold_Off hw.adc_value
        (s.adc_port s.ADC_Input_Pin).adc_history with e | e | e
    · left; rw [hh, e]; omega
    · rw [e] at hh
      rcases hd with hodd | hle
      · right
        have hm := mixed_of_falling N _ hN hN8
          (show ((sample_step hw s).adc_port s.ADC_Input_Pin).adc_history % 4 = 2 by
            rw [hh]; omega)
        rw [hdel, if_neg hm, hD]; omega
      · right
        rw [hdel]; split <;> omega
    · rw [e] at hh
      rcases hd with hodd | hle
      · left; rw [hh]; exact hodd
      · right
        rw [hdel]; split <;> omega
  · rw [(sample_step_other hw s c hc).2]; exact hd

theorem offDelayed_delay_off_step (D c j : Nat) (hc : c < 8) (s : AdcState)
    (h : OffDelayed D c j s) : OffDelayed D c (j + 1) (delay_off_step s) := by
  obtain ⟨hD, hd, _⟩ := h
  unfold OffDelayed
  rw [delay_off_step_eq]
  simp only [hc, if_true]
  have hcd : (count_down_port (s.adc_port c)).delay_before_off =
      (s.adc_port c).delay_before_off - 1 := by
    unfold count_down_port; split
    · rfl
    · omega
  have hmax : (count_down_port (s.adc_port c)).max_delay_before_off =
      (s.adc_port c).max_delay_before_off := by
    unfold count_down_port; split <;> rfl
  refine ⟨hmax.trans hD, ?_, fun _ hj => ?_⟩
  · rw [count_down_port_history, hcd]
    rcases hd with hodd | hle
    · left; exact hodd
    · right; omega
  · unfold count_down_result
    simp only [count_down_port_history, hcd, Nat.and_one_is_mod]
    rcases hd with hodd | hle
    · rw [if_neg (show ¬ (s.adc_port c).adc_history % 2 = 0 by omega)]
      split <;> rfl
    · rw [if_neg (show ¬ (s.adc_port c).delay_before_off - 1 = 0 by omega)]

theorem offDelayed_run_adc (N D c : Nat) (hN : 2 ≤ N) (hN8 : N ≤ 8) (hc : c < 8)
    (l : List AdcHw) :
    ∀ (s : AdcState) (j : Nat), s.Min_Samples_Mask = 2 ^ N - 1 → OffDelayed D c j s →
      OffDelayed D c (j + count_down_count l) (run_adc s l) := by
  induction l with
  | nil => intro s j _ h; exact h
  | cons hw rest ih =>
    intro s j hmask h
    simp only [count_down_count, run_adc]
    have hcfg := detect_occupied_tracks_config hw s
    have h0 : OffDelayed D c j (read_counters hw s) := h
    have h1 := offDelayed_sample_step N D c j hN hN8 hw (read_counters hw s) hmask h0
    have hstep : OffDelayed D c (j + if counts_down hw then 1 else 0)
        (detect_occupied_tracks hw s) := by
      rw [detect_occupied_tracks_eq]
      cases samples hw <;> cases counts_down hw <;>
        simp only [Bool.false_eq_true, if_false, if_true, Nat.add_zero]
      · exact h0
      · exact offDelayed_delay_off_step D c j hc _ h0
      · exact h1
      · exact offDelayed_delay_off_step D c j hc _ h1
    have := ih (detect_occupied_tracks hw s) _ (hcfg.1.trans hmask) hstep
    rw [Nat.add_assoc] at this
    exact this

/-- The off-release delay for a stability count of 2 or more: from a state in which the
newest history bit of channel `c` is set (in particular a stable-on channel), whatever is
sampled afterwards, `is_off` of `c` is 0 after every call sequence that contains at least
one and fewer than `max_delay_before_off` 10 ms actions. -/
theorem off_delay_respected (N c : Nat) (hN : 2 ≤ N) (hN8 : N ≤ 8) (hc : c < 8)
    (s : AdcState) (hmask : s.Min_Samples_Mask = 2 ^ N - 1)
    (hbit : (s.adc_port c).adc_history &&& 1 = 1) (l : List AdcHw)
    (h1 : 1 ≤ count_down_count l)
    (hD : count_down_count l < (s.adc_port c).max_delay_before_off) :
    ((run_adc s l).adc_result c).is_off = 0 := by
  have h0 : OffDelayed (s.adc_port c).max_delay_before_off c 0 s :=
    ⟨rfl, Or.inl (by rw [← Nat.and_one_is_mod]; exact hbit), fun h => by omega⟩
  have h := offDelayed_run_adc N _ c hN hN8 hc l s 0 hmask h0
  rw [Nat.zero_add] at h
  exact h.2.2 h1 hD

/-- C3, the code at the failing input: stability count 1 and an off-delay of 5 steps on
channel 0.  After one round of samples channel 0 is stable-on with `is_off = 0`; its first
sample below `Threshold_Off` leaves `is_off = 0`, and the first 10 ms action after that
sample sets `is_off = 1`, although the configured delay is 5 such actions. -/
theorem C3_off_delay_skipped_for_one_sample :
    (adc_power_up cv_one_sample_delay).Min_Samples_Mask = 1 ∧
    ((run_adc (adc_power_up cv_one_sample_delay) hw_round_on).adc_port 0).max_delay_before_off
      = 5 ∧
    ((run_adc (adc_power_up cv_one_sample_delay) hw_round_on).adc_port 0).on_is_stable = 1 ∧
    ((run_adc (adc_power_up cv_one_sample_delay) hw_round_on).adc_result 0).is_on = 1 ∧
    ((run_adc (adc_power_up cv_one_sample_delay) hw_round_on).adc_result 0).is_off = 0 ∧
    (run_adc (adc_power_up cv_one_sample_delay) hw_round_on).ADC_Input_Pin = 0 ∧
    hw_sample_low.adc_value < (adc_power_up cv_one_sample_delay).Threshold_Off ∧
    ((run_adc (adc_power_up cv_one_sample_delay)
        (hw_round_on ++ [hw_sample_low])).adc_result 0).is_off = 0 ∧
    ((run_adc (adc_power_up cv_one_sample_delay)
        (hw_round_on ++ [hw_sample_low, hw_count_down])).adc_result 0).is_off = 1 := by
  decide

/-! ## The mapping of input pins to feedback bits -/

theorem foldl_init_soll (l : List Nat) (f : Nat → Feedback) (b : Nat) :
    (l.foldl init_soll f) b =
      if b ∈ l then { f b with should_be_on := 0, should_be_off := 1 } else f b := by
  induction l generalizing f with
  | nil => simp
  | cons i rest ih =>
    rw [List.foldl_cons, ih]
    by_cases hb : b = i
    · subst hb
      by_cases hr : b ∈ rest <;> simp [hr, init_soll, store]
    · by_cases hr : b ∈ rest <;> simp [hr, hb, init_soll, store]

theorem map_pin_should_be_on (adc : Nat → AdcResult) (map : Nat → Nat) (f : Nat → Feedback)
    (i b : Nat) :
    (map_pin adc map f i b).should_be_on =
      if map i = b ∧ (adc i).is_on > 0 then 1 else (f b).should_be_on := by
  unfold map_pin
  by_cases h1 : (adc i).is_on > 0 <;> by_cases h2 : (adc i).is_off = 0 <;>
    by_cases h3 : b = map i <;> simp [h1, h2, h3, store, eq_comm]

theorem map_pin_should_be_off (adc : Nat → AdcResult) (map : Nat → Nat) (f : Nat → Feedback)
    (i b : Nat) :
    (map_pin adc map f i b).should_be_off =
      if map i = b ∧ (adc i).is_off = 0 then 0 else (f b).should_be_off := by
  unfold map_pin
  by_cases h1 : (adc i).is_on > 0 <;> by_cases h2 : (adc i).is_off = 0 <;>
    by_cases h3 : b = map i <;> simp [h1, h2, h3, store, eq_comm]

theorem map_pin_transmit (adc : Nat → AdcResult) (map : Nat → Nat) (f : Nat → Feedback)
    (i b : Nat) :
    (map_pin adc map f i b).previous_transmitted = (f b).previous_transmitted ∧
    (map_pin adc map f i b).next_to_transmit = (f b).next_to_transmit ∧
    (map_pin adc map f i b).number_of_transmissions = (f b).number_of_transmissions := by
  unfold map_pin
  by_cases h1 : (adc i).is_on > 0 <;> by_cases h2 : (adc i).is_off = 0 <;>
    by_cases h3 : b = map i <;> simp [h1, h2, h3, store]

theorem foldl_map_pin_should_be_on (adc : Nat → AdcResult) (map : Nat → Nat) (l : List Nat)
    (f : Nat → Feedback) (b : Nat) :
    ((l.foldl (map_pin adc map) f) b).should_be_on =
      if ∃ i ∈ l, map i = b ∧ (adc i).is_on > 0 then 1 else (f b).should_be_on := by
  induction l generalizing f with
  | nil => simp
  | cons i rest ih =>
    rw [List.foldl_cons, ih, map_pin_should_be_on]
    by_cases hr : ∃ i ∈ rest, map i = b ∧ (adc i).is_on > 0
    · rw [if_pos hr, if_pos]
      obtain ⟨k, hk, hk2⟩ := hr
      exact ⟨k, List.mem_cons_of_mem _ hk, hk2⟩
    · rw [if_neg hr]
      by_cases hi : map i = b ∧ (adc i).is_on > 0
      · rw [if_pos hi, if_pos ⟨i, List.mem_cons_self _ _, hi⟩]
      · rw [if_neg hi, if_neg]
        rintro ⟨k, hk, hk2⟩
        rcases List.mem_cons.1 hk with e | e
        · subst e; exact hi hk2
        · exact hr ⟨k, e, hk2⟩

theorem foldl_map_pin_should_be_off (adc : Nat → AdcResult) (map : Nat → Nat) (l : List Nat)
    (f : Nat → Feedback) (b : Nat) :
    ((l.foldl (map_pin adc map) f) b).should_be_off =
      if ∃ i ∈ l, map i = b ∧ (adc i).is_off = 0 then 0 else (f b).should_be_off := by
  induction l generalizing f with
  | nil => simp
  | cons i rest ih =>
    rw [List.foldl_cons, ih, map_pin_should_be_off]
    by_cases hr : ∃ i ∈ rest, map i = b ∧ (adc i).is_off = 0
    · rw [if_pos hr, if_pos]
      obtain ⟨k, hk, hk2⟩ := hr
      exact ⟨k, List.mem_cons_of_mem _ hk, hk2⟩
    · rw [if_neg hr]
      by_cases hi : map i = b ∧ (adc i).is_off = 0
      · rw [if_pos hi, if_pos ⟨i, List.mem_cons_self _ _, hi⟩]
      · rw [if_neg hi, if_neg]
        rintro ⟨k, hk, hk2⟩
        rcases List.mem_cons.1 hk with e | e
        · subst e; exact hi hk2
        · exact hr ⟨k, e, hk2⟩

theorem foldl_map_pin_transmit (adc : Nat → AdcResult) (map : Nat → Nat) (l : List Nat)
    (f : Nat → Feedback) (b : Nat) :
    ((l.foldl (map_pin adc map) f) b).previous_transmitted = (f b).previous_transmitted ∧
    ((l.foldl (map_pin adc map) f) b).next_to_transmit = (f b).next_to_transmit ∧
    ((l.foldl (map_pin adc map) f) b).number_of_transmissions
      = (f b).number_of_transmissions := by
  induction l generalizing f with
  | nil => simp
  | cons i rest ih =>
    rw [List.foldl_cons]
    have h1 := ih (map_pin adc map f i)
    have h2 := map_pin_transmit adc map f i b
    exact ⟨h1.1.trans h2.1, h1.2.1.trans h2.2.1, h1.2.2.trans h2.2.2⟩

theorem check_change_eq (R : Nat) (f : Nat → Feedback) (i : Nat) :
    check_change R f i = store f i (staged R (f i)) := by
  unfold check_change staged
  funext j
  by_cases h1 : (f i).should_be_on ≠ 0 ∧ (f i).previous_transmitted = 0 <;>
    by_cases h2 : (f i).should_be_off ≠ 0 ∧ (f i).previous_transmitted ≠ 0 <;>
    by_cases h3 : j = i <;> simp [h1, h2, h3, store]

theorem foldl_check_change (R : Nat) (l : List Nat) (hl : l.Nodup) (f : Nat → Feedback)
    (b : Nat) :
    (l.foldl (check_change R) f) b = if b ∈ l then staged R (f b) else f b := by
  induction l generalizing f with
  | nil => simp
  | cons i rest ih =>
    rw [List.nodup_cons] at hl
    rw [List.foldl_cons, ih hl.2, check_change_eq]
    by_cases hb : b = i
    · subst hb; simp [hl.1, store]
    · by_cases hr : b ∈ rest <;> simp [hr, hb, store]

/-- The feedback bits below 8 after `analyse_track_occupation`. -/
theorem analyse_track_occupation_feedback (cv : CV) (adc_result : Nat → AdcResult)
    (s : OccState) (b : Nat) (hb : b < 8) :
    (analyse_track_occupation cv adc_result s).feedback b =
      staged s.RS_tranmissions
        { s.feedback b with
          should_be_on := soll_on adc_result s.map b,
          should_be_off := soll_off adc_result s.map b } := by
  have hmem : b ∈ List.range 8 := List.mem_range.2 hb
  simp only [analyse_track_occupation]
  rw [foldl_check_change _ _ (List.nodup_range 8), if_pos hmem]
  congr 1
  have h1 := foldl_map_pin_should_be_on adc_result s.map (List.range 8)
    ((List.range 8).foldl init_soll s.feedback) b
  have h2 := foldl_map_pin_should_be_off adc_result s.map (List.range 8)
    ((List.range 8).foldl init_soll s.feedback) b
  have h3 := foldl_map_pin_transmit adc_result s.map (List.range 8)
    ((List.range 8).foldl init_soll s.feedback) b
  rw [foldl_init_soll, if_pos hmem] at h1 h2 h3
  simp only at h1 h2 h3
  cases hx : (List.foldl (map_pin adc_result s.map)
    (List.foldl init_soll s.feedback (List.range 8)) (List.range 8)) b
  rw [hx] at h1 h2 h3
  simp only at h1 h2 h3
  simp only [soll_on, soll_off, Feedback.mk.injEq]
  exact ⟨h1, h2, h3.1, h3.2.1, h3.2.2⟩

theorem staged_soll (R : Nat) (x : Feedback) :
    (staged R x).should_be_on = x.should_be_on ∧
    (staged R x).should_be_off = x.should_be_off ∧
    (staged R x).previous_transmitted = x.previous_transmitted := by
  unfold staged
  split
  · exact ⟨rfl, rfl, rfl⟩
  · split <;> exact ⟨rfl, rfl, rfl⟩

/-- C4: for a map with all entries below 8 (so that every access `feedback[map[i]]` is
inside the array), after `analyse_track_occupation` a feedback bit `b` has
`should_be_on = 1` iff some input pin mapped to `b` has `is_on` set, and
`should_be_off = 1` iff every input pin mapped to `b` has `is_off` set. -/
theorem C4_soll_values (cv : CV) (adc_result : Nat → AdcResult) (s : OccState)
    (_hmap : ∀ i, i < 8 → s.map i < 8) (b : Nat) (hb : b < 8) :
    (((analyse_track_occupation cv adc_result s).feedback b).should_be_on = 1 ↔
      ∃ i, i < 8 ∧ s.map i = b ∧ (adc_result i).is_on > 0) ∧
    (((analyse_track_occupation cv adc_result s).feedback b).should_be_off = 1 ↔
      ∀ i, i < 8 → s.map i = b → (adc_result i).is_off ≠ 0) := by
  rw [analyse_track_occupation_feedback cv adc_result s b hb]
  rw [(staged_soll _ _).1, (staged_soll _ _).2.1]
  simp only [soll_on, soll_off, List.mem_range]
  constructor
  · constructor
    · intro h
      by_contra hne
      rw [if_neg hne] at h
      exact absurd h (by decide)
    · intro h
      rw [if_pos h]
  · constructor
    · intro h i hi hm hoff
      rw [if_pos ⟨i, hi, hm, hoff⟩] at h
      exact absurd h (by decide)
    · intro h
      rw [if_neg]
      rintro ⟨i, hi, hm, hoff⟩
      exact h i hi hm hoff

/-- C4, witness: the reverser map of the factory configuration (pins 0 and 1 on bit 0),
pin 1 on and pin 0 off. -/
theorem C4_soll_values_witness :
    (((analyse_track_occupation CV.default (adc_of [1] [0]) occ_reverser).feedback 0).should_be_on
        = 1 ↔
      ∃ i, i < 8 ∧ occ_reverser.map i = 0 ∧ ((adc_of [1] [0]) i).is_on > 0) ∧
    (((analyse_track_occupation CV.default (adc_of [1] [0]) occ_reverser).feedback 0).should_be_off
        = 1 ↔
      ∀ i, i < 8 → occ_reverser.map i = 0 → ((adc_of [1] [0]) i).is_off ≠ 0) :=
  C4_soll_values CV.default (adc_of [1] [0]) occ_reverser (by decide) 0 (by decide)

/-! ## The retransmission count -/

/-- The retransmission count for every retry byte below 255. -/
theorem init_occupancy_retransmissions (cv : CV) (s : OccState)
    (h : my_eeprom_read_byte cv.RSRetry < 255) :
    (init_occupancy cv s).RS_tranmissions = min (1 + my_eeprom_read_byte cv.RSRetry) 3 := by
  simp only [init_occupancy]
  split_ifs <;> omega

/-- C6, the code at the failing input: the retry byte 255 makes `1 + RSRetry` wrap to 0 in
the `unsigned char`, the test `> 3` fails, and the retransmission count is 0. -/
theorem C6_retransmissions_zero_at_255 (s : OccState) :
    (init_occupancy cv_retry_255 s).RS_tranmissions = 0 := by
  simp [init_occupancy, cv_retry_255, CV.default, my_eeprom_read_byte]

/-! ## Committing a group -/

theorem save_change_eq (f : Nat → Feedback) (i : Nat) :
    save_change f i = store f i (saved (f i)) := by
  unfold save_change saved
  funext j
  by_cases h3 : j = i
  · subst h3
    by_cases h1 : (f j).number_of_transmissions > 0
    · simp [store, h1]
    · simp [store, h1]
      omega
  · by_cases h1 : (f i).number_of_transmissions > 0 <;> simp [store, h1, h3]

theorem foldl_save_change (l : List Nat) (hl : l.Nodup) (f : Nat → Feedback) (b : Nat) :
    (l.foldl save_change f) b = if b ∈ l then saved (f b) else f b := by
  induction l generalizing f with
  | nil => simp
  | cons i rest ih =>
    rw [List.nodup_cons] at hl
    rw [List.foldl_cons, ih hl.2, save_change_eq]
    by_cases hb : b = i
    · subst hb; simp [hl.1, store]
    · by_cases hr : b ∈ rest <;> simp [hr, hb, store]

/-- The function `save_changes` bit by bit. -/
theorem save_changes_apply (start last : Nat) (f : Nat → Feedback) (b : Nat) :
    save_changes start last f b = if start ≤ b ∧ b ≤ last then saved (f b) else f b := by
  unfold save_changes
  rw [foldl_save_change _ (List.nodup_range' _ _)]
  have : b ∈ List.range' start (last + 1 - start) ↔ start ≤ b ∧ b ≤ last := by
    rw [List.mem_range'_1]; omega
  simp only [this]

/-! ## Invariants of the feedback array -/

/-- The transmission fields of the entries outside the array are not touched by
`analyse_track_occupation`. -/
theorem analyse_track_occupation_outside (cv : CV) (adc_result : Nat → AdcResult)
    (s : OccState) (b : Nat) (hb : ¬ b < 8) :
    ((analyse_track_occupation cv adc_result s).feedback b).previous_transmitted
      = (s.feedback b).previous_transmitted ∧
    ((analyse_track_occupation cv adc_result s).feedback b).next_to_transmit
      = (s.feedback b).next_to_transmit ∧
    ((analyse_track_occupation cv adc_result s).feedback b).number_of_transmissions
      = (s.feedback b).number_of_transmissions := by
  have hmem : b ∉ List.range 8 := fun h => hb (List.mem_range.1 h)
  simp only [analyse_track_occupation]
  rw [foldl_check_change _ _ (List.nodup_range 8), if_neg hmem]
  have h3 := foldl_map_pin_transmit adc_result s.map (List.range 8)
    ((List.range 8).foldl init_soll s.feedback) b
  rw [foldl_init_soll, if_neg hmem] at h3
  exact h3

theorem analyse_track_occupation_frame (cv : CV) (adc_result : Nat → AdcResult)
    (s : OccState) :
    (analyse_track_occupation cv adc_result s).map = s.map ∧
    (analyse_track_occupation cv adc_result s).RS_tranmissions = s.RS_tranmissions ∧
    (analyse_track_occupation cv adc_result s).MyType = s.MyType ∧
    (analyse_track_occupation cv adc_result s).My_RS_Addr = s.My_RS_Addr ∧
    (analyse_track_occupation cv adc_result s).RS_Layer_2_connected = s.RS_Layer_2_connected ∧
    (analyse_track_occupation cv adc_result s).sent = s.sent := by
  simp only [analyse_track_occupation, and_self]

/-- The function `analyse_track_occupation` never changes `previous_transmitted`. -/
theorem analyse_track_occupation_previous (cv : CV) (adc_result : Nat → AdcResult)
    (s : OccState) (b : Nat) :
    ((analyse_track_occupation cv adc_result s).feedback b).previous_transmitted
      = (s.feedback b).previous_transmitted := by
  by_cases hb : b < 8
  · rw [analyse_track_occupation_feedback cv adc_result s b hb, (staged_soll _ _).2.2]
  · exact (analyse_track_occupation_outside cv adc_result s b hb).1

theorem staged_pending (R : Nat) (hR : 1 ≤ R) (x : Feedback)
    (h : x.next_to_transmit ≠ x.previous_transmitted → x.number_of_transmissions > 0) :
    (staged R x).next_to_transmit ≠ (staged R x).previous_transmitted →
      (staged R x).number_of_transmissions > 0 := by
  unfold staged
  split
  · intro _; exact hR
  · split
    · intro _; exact hR
    · exact h

theorem staged_next_le (R : Nat) (x : Feedback) (h : x.next_to_transmit ≤ 1) :
    (staged R x).next_to_transmit ≤ 1 := by
  unfold staged
  split
  · exact Nat.zero_le _
  · split
    · exact Nat.le_refl _
    · exact h

theorem changePending_analyse (cv : CV) (adc_result : Nat → AdcResult) (s : OccState)
    (hR : 1 ≤ s.RS_tranmissions) (h : ChangePending s.feedback) :
    ChangePending (analyse_track_occupation cv adc_result s).feedback := by
  intro b
  by_cases hb : b < 8
  · rw [analyse_track_occupation_feedback cv adc_result s b hb]
    exact staged_pending _ hR _ (h b)
  · obtain ⟨h1, h2, h3⟩ := analyse_track_occupation_outside cv adc_result s b hb
    rw [h1, h2, h3]; exact h b

theorem nextIsBit_analyse (cv : CV) (adc_result : Nat → AdcResult) (s : OccState)
    (h : NextIsBit s.feedback) :
    NextIsBit (analyse_track_occupation cv adc_result s).feedback := by
  intro b
  by_cases hb : b < 8
  · rw [analyse_track_occupation_feedback cv adc_result s b hb]
    exact staged_next_le _ _ (h b)
  · rw [(analyse_track_occupation_outside cv adc_result s b hb).2.1]; exact h b

theorem changePending_save_changes (start last : Nat) (f : Nat → Feedback)
    (h : ChangePending f) : ChangePending (save_changes start last f) := by
  intro b
  rw [save_changes_apply]
  split
  · intro hne; exact absurd rfl hne
  · exact h b

theorem nextIsBit_save_changes (start last : Nat) (f : Nat → Feedback)
    (h : NextIsBit f) : NextIsBit (save_changes start last f) := by
  intro b
  rw [save_changes_apply]
  split
  · exact h b
  · exact h b

/-- The state after `RS_connect` when the RS-bus is active. -/
theorem RS_connect_active (hw : RsHw) (s : OccState) (h : hw.RS_Layer_1_active ≠ 0) :
    RS_connect hw s =
      { s with
        feedback := save_changes 4 7 (save_changes 0 3 s.feedback),
        sent := s.sent ++ [nibble s.feedback 0 0, nibble (save_changes 0 3 s.feedback) 4 1],
        RS_Layer_2_connected := 1 } := by
  simp [RS_connect, h, format_and_send_RS_data_nibble]

theorem RS_connect_inactive (hw : RsHw) (s : OccState) (h : hw.RS_Layer_1_active = 0) :
    RS_connect hw s = s := by
  simp [RS_connect, h]

/-- The feedback array after `RS_connect` and after `send_feedbacks` is the old one, the old
one with the low group saved, with the high group saved, or with both saved. -/
theorem RS_connect_feedback (hw : RsHw) (s : OccState) :
    (RS_connect hw s).feedback = s.feedback ∨
    (RS_connect hw s).feedback = save_changes 4 7 (save_changes 0 3 s.feedback) := by
  by_cases h : hw.RS_Layer_1_active = 0
  · left; rw [RS_connect_inactive hw s h]
  · right; rw [RS_connect_active hw s h]

theorem send_feedbacks_feedback (hw : RsHw) (s : OccState) :
    (send_feedbacks hw s).feedback = s.feedback ∨
    (send_feedbacks hw s).feedback = save_changes 0 3 s.feedback ∨
    (send_feedbacks hw s).feedback = save_changes 4 7 s.feedback := by
  unfold send_feedbacks
  split
  · split
    · right; left; rfl
    · split
      · right; right; rfl
      · left; rfl
  · left; rfl

theorem RS_connect_frame (hw : RsHw) (s : OccState) :
    (RS_connect hw s).RS_tranmissions = s.RS_tranmissions ∧
    (RS_connect hw s).map = s.map ∧
    (RS_connect hw s).My_RS_Addr = s.My_RS_Addr := by
  by_cases h : hw.RS_Layer_1_active = 0
  · rw [RS_connect_inactive hw s h]; exact ⟨rfl, rfl, rfl⟩
  · rw [RS_connect_active hw s h]; exact ⟨rfl, rfl, rfl⟩

theorem send_feedbacks_frame (hw : RsHw) (s : OccState) :
    (send_feedbacks hw s).RS_tranmissions = s.RS_tranmissions ∧
    (send_feedbacks hw s).map = s.map ∧
    (send_feedbacks hw s).My_RS_Addr = s.My_RS_Addr ∧
    (send_feedbacks hw s).RS_Layer_2_connected = s.RS_Layer_2_connected := by
  unfold send_feedbacks
  split
  · split
    · exact ⟨rfl, rfl, rfl, rfl⟩
    · split <;> exact ⟨rfl, rfl, rfl, rfl⟩
  · exact ⟨rfl, rfl, rfl, rfl⟩

/-- The function `handle_occupied_tracks` as a choice between its four exits. -/
theorem handle_occupied_tracks_eq (cv : CV) (adc_result : Nat → AdcResult) (hw : RsHw)
    (s : OccState) :
    handle_occupied_tracks cv adc_result hw s =
      if hw.time_for_next_feedback = 0 then s
      else if s.My_RS_Addr = 0 ∨ hw.start_up_phase ≠ 0 then
        analyse_track_occupation cv adc_result s
      else if s.RS_Layer_2_connected = 0 then
        RS_connect hw (analyse_track_occupation cv adc_result s)
      else send_feedbacks hw (analyse_track_occupation cv adc_result s) := by
  unfold handle_occupied_tracks
  have hf := analyse_track_occupation_frame cv adc_result s
  simp only [hf.2.2.2.1, hf.2.2.2.2.1]
  by_cases h0 : hw.time_for_next_feedback = 0
  · simp [h0]
  · by_cases h1 : s.My_RS_Addr = 0
    · simp [h0, h1]
    · by_cases h2 : hw.start_up_phase = 0 <;> simp [h0, h1, h2]

theorem apply_RS_tranmissions (a : OccAction) (s : OccState) :
    (a.apply s).RS_tranmissions = s.RS_tranmissions := by
  cases a with
  | analyse cv adc => exact (analyse_track_occupation_frame cv adc s).2.1
  | save start last => rfl
  | connect hw => exact (RS_connect_frame hw s).1
  | send hw => exact (send_feedbacks_frame hw s).1
  | handle cv adc hw =>
    simp only [OccAction.apply, handle_occupied_tracks_eq]
    split_ifs
    · rfl
    · exact (analyse_track_occupation_frame cv adc s).2.1
    · exact (RS_connect_frame hw _).1.trans (analyse_track_occupation_frame cv adc s).2.1
    · exact (send_feedbacks_frame hw _).1.trans (analyse_track_occupation_frame cv adc s).2.1
  | link v => rfl

/-- A property of the feedback array that `analyse_track_occupation` and `save_changes`
preserve holds after every operation. -/
theorem apply_preserves (P : (Nat → Feedback) → Prop) (a : OccAction) (s : OccState)
    (hana : ∀ cv adc, P (analyse_track_occupation cv adc s).feedback)
    (hsave : ∀ start last f, P f → P (save_changes start last f))
    (h : P s.feedback) : P (a.apply s).feedback := by
  have hconn : ∀ hw t, P t.feedback → P (RS_connect hw t).feedback := by
    intro hw t ht
    rcases RS_connect_feedback hw t with e | e <;> rw [e]
    · exact ht
    · exact hsave _ _ _ (hsave _ _ _ ht)
  have hsend : ∀ hw t, P t.feedback → P (send_feedbacks hw t).feedback := by
    intro hw t ht
    rcases send_feedbacks_feedback hw t with e | e | e <;> rw [e]
    · exact ht
    · exact hsave _ _ _ ht
    · exact hsave _ _ _ ht
  cases a with
  | analyse cv adc => exact hana cv adc
  | save start last => exact hsave _ _ _ h
  | connect hw => exact hconn hw s h
  | send hw => exact hsend hw s h
  | handle cv adc hw =>
    simp only [OccAction.apply, handle_occupied_tracks_eq]
    split_ifs
    · exact h
    · exact hana cv adc
    · exact hconn hw _ (hana cv adc)
    · exact hsend hw _ (hana cv adc)
  | link v => exact h

theorem changePending_run_occ (l : List OccAction) :
    ∀ s : OccState, 1 ≤ s.RS_tranmissions → ChangePending s.feedback →
      ChangePending (run_occ s l).feedback := by
  induction l with
  | nil => intro s _ h; exact h
  | cons a rest ih =>
    intro s hR h
    exact ih (a.apply s) (by rw [apply_RS_tranmissions]; exact hR)
      (apply_preserves ChangePending a s
        (fun cv adc => changePending_analyse cv adc s hR h)
        changePending_save_changes h)

theorem nextIsBit_run_occ (l : List OccAction) :
    ∀ s : OccState, NextIsBit s.feedback → NextIsBit (run_occ s l).feedback := by
  induction l with
  | nil => intro s h; exact h
  | cons a rest ih =>
    intro s h
    exact ih (a.apply s)
      (apply_preserves NextIsBit a s (fun cv adc => nextIsBit_analyse cv adc s h)
        nextIsBit_save_changes h)

theorem nibble_bits (a b c d g : Nat) (ha : a ≤ 1) (hb : b ≤ 1) (hc : c ≤ 1) (hd : d ≤ 1)
    (hg : g ≤ 1) :
    ((a <<< 7 ||| b <<< 6 ||| c <<< 5 ||| d <<< 4 ||| g <<< 3) % 256) / 2 ^ 7 % 2 = a ∧
    ((a <<< 7 ||| b <<< 6 ||| c <<< 5 ||| d <<< 4 ||| g <<< 3) % 256) / 2 ^ 6 % 2 = b ∧
    ((a <<< 7 ||| b <<< 6 ||| c <<< 5 ||| d <<< 4 ||| g <<< 3) % 256) / 2 ^ 5 % 2 = c ∧
    ((a <<< 7 ||| b <<< 6 ||| c <<< 5 ||| d <<< 4 ||| g <<< 3) % 256) / 2 ^ 4 % 2 = d ∧
    ((a <<< 7 ||| b <<< 6 ||| c <<< 5 ||| d <<< 4 ||| g <<< 3) % 256) / 2 ^ 3 % 2 = g ∧
    ((a <<< 7 ||| b <<< 6 ||| c <<< 5 ||| d <<< 4 ||| g <<< 3) % 256) % 2 ^ 3 = 0 := by
  interval_cases a <;> interval_cases b <;> interval_cases c <;> interval_cases d <;>
    interval_cases g <;> decide

theorem wireFormat_nibble (f : Nat → Feedback) (h : NextIsBit f) (g : Nat) (hg : g ≤ 1) :
    WireFormat f g (nibble f (4 * g) g) := by
  have hb := nibble_bits (f (4 * g)).next_to_transmit (f (4 * g + 1)).next_to_transmit
    (f (4 * g + 2)).next_to_transmit (f (4 * g + 3)).next_to_transmit g
    (h _) (h _) (h _) (h _) hg
  unfold WireFormat nibble DATA_0 DATA_1 DATA_2 DATA_3 NIBBLE
  refine ⟨fun k hk => ?_, hb.2.2.2.2.1, hb.2.2.2.2.2⟩
  interval_cases k
  · exact hb.1
  · exact hb.2.1
  · exact hb.2.2.1
  · exact hb.2.2.2.1

theorem saved_next (x : Feedback) : (saved x).next_to_transmit = x.next_to_transmit := rfl

theorem save_changes_next (start last : Nat) (f : Nat → Feedback) (b : Nat) :
    (save_changes start last f b).next_to_transmit = (f b).next_to_transmit := by
  rw [save_changes_apply]; split <;> rfl

theorem nibble_save_changes (start last : Nat) (f : Nat → Feedback) (i g : Nat) :
    nibble (save_changes start last f) i g = nibble f i g := by
  simp only [nibble, save_changes_next]

/-- The bytes handed over by `send_feedbacks`. -/
theorem send_feedbacks_sent (hw : RsHw) (s : OccState) :
    (send_feedbacks hw s).sent =
      if hw.RS_data2send_flag = 0 then
        if send_needed 0 3 s.feedback ≠ 0 then s.sent ++ [nibble s.feedback 0 0]
        else if send_needed 4 7 s.feedback ≠ 0 then s.sent ++ [nibble s.feedback 4 1]
        else s.sent
      else s.sent := by
  unfold send_feedbacks
  split
  · split
    · rfl
    · split <;> rfl
  · rfl

theorem analysed_fields (R so sf : Nat) (x : Feedback) :
    (analysed R so sf x).should_be_on = so ∧ (analysed R so sf x).should_be_off = sf ∧
    (analysed R so sf x).previous_transmitted = x.previous_transmitted := by
  unfold analysed
  exact staged_soll R _

theorem analysed_idem (R so sf : Nat) (x : Feedback) :
    analysed R so sf (analysed R so sf x) = analysed R so sf x := by
  unfold analysed staged
  split_ifs <;> simp_all

/-- The analysis of a bit whose staging condition holds. -/
theorem analysed_of_change (R so sf : Nat) (x : Feedback)
    (h : (so ≠ 0 ∧ x.previous_transmitted = 0) ∨ (sf ≠ 0 ∧ x.previous_transmitted ≠ 0)) :
    (analysed R so sf x).next_to_transmit = (if x.previous_transmitted = 0 then 1 else 0) ∧
    (analysed R so sf x).number_of_transmissions = R := by
  unfold analysed staged
  split_ifs <;> simp_all

/-- The analysis of a bit whose acknowledged value agrees with the inputs. -/
theorem analysed_of_settled (R so sf : Nat) (x : Feedback)
    (h : ¬ ((so ≠ 0 ∧ x.previous_transmitted = 0) ∨ (sf ≠ 0 ∧ x.previous_transmitted ≠ 0))) :
    (analysed R so sf x).next_to_transmit = x.next_to_transmit ∧
    (analysed R so sf x).number_of_transmissions = x.number_of_transmissions := by
  unfold analysed staged
  split_ifs <;> simp_all

theorem rank_analysed (R so sf : Nat) (x : Feedback) :
    rank R so sf (analysed R so sf x) = rank R so sf x := by
  unfold rank
  rw [analysed_idem]

theorem rank_saved (R so sf : Nat) (hc : ¬ (so ≠ 0 ∧ sf ≠ 0)) (x : Feedback) :
    rank R so sf (saved (analysed R so sf x)) ≤ rank R so sf x ∧
    ((analysed R so sf x).number_of_transmissions > 0 →
      rank R so sf (saved (analysed R so sf x)) < rank R so sf x) := by
  unfold rank contradicts analysed staged saved
  split_ifs <;> simp_all <;> omega

theorem tracked_analysed (R v m so sf : Nat) (x : Feedback) (h : Tracked R v m so sf x) :
    (analysed R so sf x).next_to_transmit = v ∧
    (analysed R so sf x).number_of_transmissions = R - m ∧
    (analysed R so sf x).previous_transmitted = x.previous_transmitted := by
  refine ⟨?_, ?_, (analysed_fields R so sf x).2.2⟩
  all_goals
    unfold Tracked at h
    unfold analysed staged
    split_ifs at h ⊢ <;> simp_all
    omega

/-- A tracked bit stays tracked by the analysis, and a send of its group counts one more. -/
theorem tracked_step (R v m so sf : Nat) (x : Feedback) (h : Tracked R v m so sf x) :
    Tracked R v m so sf (analysed R so sf x) ∧
    Tracked R v (m + 1) so sf (saved (analysed R so sf x)) ∧
    (saved (analysed R so sf x)).number_of_transmissions = R - (m + 1) := by
  have ha := tracked_analysed R v m so sf x h
  unfold Tracked at h ⊢
  refine ⟨⟨h.1, ?_⟩, ⟨h.1, ?_⟩, ?_⟩
  · by_cases hm : m = 0
    · rw [if_pos hm, ha.2.2]
      simpa [hm] using h.2
    · rw [if_neg hm]
      have h2 := h.2
      rw [if_neg hm] at h2
      exact ⟨ha.2.2.trans h2.1, ha.1, ha.2.1⟩
  · rw [if_neg (by omega)]
    simp only [saved]
    exact ⟨ha.1, ha.1, by rw [ha.2.1]; omega⟩
  · simp only [saved]
    rw [ha.2.1]; omega

/-! ### `send_needed` and the three exits of `send_feedbacks` -/

theorem foldl_send_needed_body (f : Nat → Feedback) (l : List Nat) (r : Nat) :
    l.foldl (send_needed_body f) r =
      if ∃ i ∈ l, (f i).number_of_transmissions > 0 then 1 else r := by
  induction l generalizing r with
  | nil => simp
  | cons i rest ih =>
    rw [List.foldl_cons, ih]
    unfold send_needed_body
    by_cases hr : ∃ i ∈ rest, (f i).number_of_transmissions > 0
    · rw [if_pos hr, if_pos]
      obtain ⟨k, hk, hk2⟩ := hr
      exact ⟨k, List.mem_cons_of_mem _ hk, hk2⟩
    · rw [if_neg hr]
      by_cases hi : (f i).number_of_transmissions > 0
      · rw [if_pos hi, if_pos ⟨i, List.mem_cons_self _ _, hi⟩]
      · rw [if_neg hi, if_neg]
        rintro ⟨k, hk, hk2⟩
        rcases List.mem_cons.1 hk with e | e
        · subst e; exact hi hk2
        · exact hr ⟨k, e, hk2⟩

/-- The function `send_needed` answers whether some counter in the range is not zero. -/
theorem send_needed_ne_zero (start last : Nat) (f : Nat → Feedback) :
    send_needed start last f ≠ 0 ↔
      ∃ i, start ≤ i ∧ i ≤ last ∧ (f i).number_of_transmissions > 0 := by
  unfold send_needed
  rw [foldl_send_needed_body]
  constructor
  · intro h
    by_contra hne
    rw [if_neg] at h
    · exact h rfl
    · rintro ⟨i, hi, hc⟩
      rw [List.mem_range'_1] at hi
      exact hne ⟨i, hi.1, by omega, hc⟩
  · rintro ⟨i, h1, h2, hc⟩
    rw [if_pos ⟨i, by rw [List.mem_range'_1]; omega, hc⟩]
    decide

/-- A call under `Live` inputs is the analysis followed by `send_feedbacks`. -/
theorem handle_occupied_tracks_live (cv : CV) (adc_result : Nat → AdcResult) (hw : RsHw)
    (s : OccState) (h : Live hw s) :
    handle_occupied_tracks cv adc_result hw s =
      send_feedbacks hw (analyse_track_occupation cv adc_result s) := by
  obtain ⟨h1, h2, _, h4, h5⟩ := h
  rw [handle_occupied_tracks_eq, if_neg h1, if_neg (by simp [h2, h4]), if_neg h5]

theorem live_handle_occupied_tracks (cv : CV) (adc_result : Nat → AdcResult) (hw : RsHw)
    (s : OccState) (h : Live hw s) :
    Live hw (handle_occupied_tracks cv adc_result hw s) ∧
    (handle_occupied_tracks cv adc_result hw s).map = s.map ∧
    (handle_occupied_tracks cv adc_result hw s).RS_tranmissions = s.RS_tranmissions := by
  rw [handle_occupied_tracks_live cv adc_result hw s h]
  have hs := send_feedbacks_frame hw (analyse_track_occupation cv adc_result s)
  have ha := analyse_track_occupation_frame cv adc_result s
  obtain ⟨h1, h2, h3, h4, h5⟩ := h
  refine ⟨⟨h1, h2, h3, ?_, ?_⟩, hs.2.1.trans ha.1, hs.1.trans ha.2.1⟩
  · rw [hs.2.2.1, ha.2.2.2.1]; exact h4
  · rw [hs.2.2.2, ha.2.2.2.2.1]; exact h5

/-- The three exits of `send_feedbacks` with an idle transmitter. -/
theorem send_feedbacks_idle (hw : RsHw) (y : OccState) (h : hw.RS_data2send_flag = 0) :
    (send_needed 0 3 y.feedback ≠ 0 →
      send_feedbacks hw y =
        { y with feedback := save_changes 0 3 y.feedback,
                 sent := y.sent ++ [nibble y.feedback 0 0] }) ∧
    (send_needed 0 3 y.feedback = 0 → send_needed 4 7 y.feedback ≠ 0 →
      send_feedbacks hw y =
        { y with feedback := save_changes 4 7 y.feedback,
                 sent := y.sent ++ [nibble y.feedback 4 1] }) ∧
    (send_needed 0 3 y.feedback = 0 → send_needed 4 7 y.feedback = 0 →
      send_feedbacks hw y = y) := by
  unfold send_feedbacks format_and_send_RS_data_nibble
  refine ⟨fun h1 => ?_, fun h1 h2 => ?_, fun h1 h2 => ?_⟩
  · rw [if_pos h, if_pos h1]
  · rw [if_pos h, if_neg (not_not.2 h1), if_pos h2]
  · rw [if_pos h, if_neg (not_not.2 h1), if_neg (not_not.2 h2)]

theorem group_sends_singleton (g x : Nat) :
    group_sends g [x] = if x / 2 ^ 3 % 2 = g then 1 else 0 := by
  unfold group_sends
  by_cases h : x / 2 ^ 3 % 2 = g <;> simp [List.countP_cons, h]

theorem soll_consistent (adc_result : Nat → AdcResult) (map : Nat → Nat)
    (hc : ConsistentInputs adc_result) (b : Nat) :
    ¬ (soll_on adc_result map b ≠ 0 ∧ soll_off adc_result map b ≠ 0) := by
  rintro ⟨h1, h2⟩
  unfold soll_on at h1
  unfold soll_off at h2
  by_cases hon : ∃ i ∈ List.range 8, map i = b ∧ (adc_result i).is_on > 0
  · obtain ⟨i, hi, hm, hpos⟩ := hon
    by_cases hoff : ∃ i ∈ List.range 8, map i = b ∧ (adc_result i).is_off = 0
    · rw [if_pos hoff] at h2; exact h2 rfl
    · exact hc i (List.mem_range.1 hi) ⟨hpos, fun h0 => hoff ⟨i, hi, hm, h0⟩⟩
  · rw [if_neg hon] at h1; exact h1 rfl

theorem analysisOf_analyse (cv : CV) (adc_result : Nat → AdcResult) (x : OccState) :
    AnalysisOf adc_result x (analyse_track_occupation cv adc_result x) := by
  have hf := analyse_track_occupation_frame cv adc_result x
  exact ⟨fun i hi => analyse_track_occupation_feedback cv adc_result x i hi,
    hf.1, hf.2.1, hf.2.2.2.2.2⟩

/-- The low group after a send of the low group: the sum of the ranks has decreased. -/
theorem low_rank_low_sent (adc_result : Nat → AdcResult) (x y z : OccState)
    (hA : AnalysisOf adc_result x y) (hc : ConsistentInputs adc_result)
    (hn : send_needed 0 3 y.feedback ≠ 0)
    (hz : z.feedback = save_changes 0 3 y.feedback) (hmapz : z.map = y.map)
    (hRz : z.RS_tranmissions = y.RS_tranmissions) :
    low_rank adc_result z < low_rank adc_result x := by
  obtain ⟨hfb, hmap, hR, _⟩ := hA
  rw [send_needed_ne_zero] at hn
  obtain ⟨i, _, hi3, hi⟩ := hn
  unfold low_rank
  simp only [hz, hmapz, hRz, hmap, hR, save_changes_apply]
  have r0 := rank_saved x.RS_tranmissions _ _ (soll_consistent adc_result x.map hc 0)
    (x.feedback 0)
  have r1 := rank_saved x.RS_tranmissions _ _ (soll_consistent adc_result x.map hc 1)
    (x.feedback 1)
  have r2 := rank_saved x.RS_tranmissions _ _ (soll_consistent adc_result x.map hc 2)
    (x.feedback 2)
  have r3 := rank_saved x.RS_tranmissions _ _ (soll_consistent adc_result x.map hc 3)
    (x.feedback 3)
  rw [if_pos (by omega), if_pos (by omega), if_pos (by omega), if_pos (by omega),
    hfb 0 (by omega), hfb 1 (by omega), hfb 2 (by omega), hfb 3 (by omega)]
  have hi' : i = 0 ∨ i = 1 ∨ i = 2 ∨ i = 3 := by omega
  rcases hi' with e | e | e | e <;> subst e <;> rw [hfb _ (by omega)] at hi
  · have := r0.2 hi; omega
  · have := r1.2 hi; omega
  · have := r2.2 hi; omega
  · have := r3.2 hi; omega

/-- The low group after a call that did not send it: the sum of the ranks is unchanged. -/
theorem low_rank_low_kept (adc_result : Nat → AdcResult) (x y z : OccState)
    (hA : AnalysisOf adc_result x y)
    (hz : ∀ i, i < 4 → z.feedback i = y.feedback i) (hmap : z.map = y.map)
    (hR : z.RS_tranmissions = y.RS_tranmissions) :
    low_rank adc_result z = low_rank adc_result x := by
  obtain ⟨hfb, hmap', hR', _⟩ := hA
  unfold low_rank
  rw [hmap, hR, hmap', hR', hz 0 (by omega), hz 1 (by omega), hz 2 (by omega),
    hz 3 (by omega), hfb 0 (by omega), hfb 1 (by omega), hfb 2 (by omega), hfb 3 (by omega)]
  simp only [rank_analysed]

theorem wireFormat_bit (f : Nat → Feedback) (g x b : Nat) (h : WireFormat f g x)
    (hg : b / 4 = g) :
    x / 2 ^ (7 - b % 4) % 2 = (f b).next_to_transmit := by
  have := h.1 (b % 4) (Nat.mod_lt _ (by decide))
  rw [this]
  congr 2
  omega

/-- One call of `send_feedbacks` with an idle transmitter, on the analysed state `y` of
`x`, for a tracked bit `b`: the bytes handed over, the progress of the bit, and the
decrease of the measure. -/
theorem send_step (adc_result : Nat → AdcResult) (hw : RsHw) (x y : OccState)
    (hA : AnalysisOf adc_result x y) (hidle : hw.RS_data2send_flag = 0)
    (hbits : NextIsBit y.feedback) (hc : ConsistentInputs adc_result)
    (b : Nat) (hb : b < 8) (v m : Nat)
    (htr : Tracked x.RS_tranmissions v m (soll_on adc_result x.map b)
      (soll_off adc_result x.map b) (x.feedback b)) :
    ∃ bytes,
      (send_feedbacks hw y).sent = x.sent ++ bytes ∧
      Tracked x.RS_tranmissions v (m + group_sends (b / 4) bytes)
        (soll_on adc_result x.map b) (soll_off adc_result x.map b)
        ((send_feedbacks hw y).feedback b) ∧
      ((send_feedbacks hw y).feedback b).next_to_transmit = v ∧
      ((send_feedbacks hw y).feedback b).number_of_transmissions
        = x.RS_tranmissions - (m + group_sends (b / 4) bytes) ∧
      (∀ byte ∈ bytes, byte / 2 ^ 3 % 2 = b / 4 → byte / 2 ^ (7 - b % 4) % 2 = v) ∧
      (m < x.RS_tranmissions →
        low_rank adc_result (send_feedbacks hw y)
            + (x.RS_tranmissions - (m + group_sends (b / 4) bytes))
          < low_rank adc_result x + (x.RS_tranmissions - m)) := by
  have hyb := hA.1 b hb
  have hta := tracked_analysed _ _ _ _ _ _ htr
  have hts := tracked_step _ _ _ _ _ _ htr
  rw [← hyb] at hta hts
  have hw0 := wireFormat_nibble y.feedback hbits 0 (by decide)
  have hw1 := wireFormat_nibble y.feedback hbits 1 (by decide)
  obtain ⟨hlow, hhigh, hnone⟩ := send_feedbacks_idle hw y hidle
  by_cases h03 : send_needed 0 3 y.feedback ≠ 0
  · -- the low group is sent
    refine ⟨[nibble y.feedback 0 0], ?_⟩
    have hlr := low_rank_low_sent adc_result x y
      { y with feedback := save_changes 0 3 y.feedback,
               sent := x.sent ++ [nibble y.feedback 0 0] } hA hc h03 rfl rfl rfl
    rw [hlow h03]
    simp only [group_sends_singleton, hw0.2.1, save_changes_apply, List.mem_singleton,
      forall_eq, hA.2.2.2]
    by_cases hb3 : b ≤ 3
    · have hg : b / 4 = 0 := by omega
      simp only [hg, if_true, if_pos (show 0 ≤ b ∧ b ≤ 3 by omega)]
      refine ⟨trivial, hts.2.1, hta.1, hts.2.2, fun _ => ?_, fun _ => by omega⟩
      rw [wireFormat_bit y.feedback 0 _ b hw0 hg]; exact hta.1
    · have hg : b / 4 = 1 := by omega
      simp only [hg, if_neg (show ¬ (0 ≤ b ∧ b ≤ 3) by omega), Nat.zero_ne_one, if_false,
        Nat.add_zero]
      exact ⟨trivial, hts.1, hta.1, hta.2.1, fun h => absurd h (by decide), fun _ => by omega⟩
  · have h03' : send_needed 0 3 y.feedback = 0 := not_not.1 h03
    have hb4 : m < x.RS_tranmissions → ¬ b ≤ 3 := by
      intro hm hb3
      apply h03
      rw [send_needed_ne_zero]
      exact ⟨b, Nat.zero_le _, hb3, by rw [hta.2.1]; omega⟩
    by_cases h47 : send_needed 4 7 y.feedback ≠ 0
    · -- the high group is sent
      refine ⟨[nibble y.feedback 4 1], ?_⟩
      have hlr := low_rank_low_kept adc_result x y
        { y with feedback := save_changes 4 7 y.feedback,
                 sent := x.sent ++ [nibble y.feedback 4 1] } hA
        (fun i hi => by
          simp only [save_changes_apply]
          rw [if_neg (by omega)]) rfl rfl
      rw [hhigh h03' h47]
      simp only [group_sends_singleton, hw1.2.1, save_changes_apply, List.mem_singleton,
        forall_eq, hA.2.2.2, hlr]
      by_cases hb3 : b ≤ 3
      · have hg : b / 4 = 0 := by omega
        simp only [hg, if_neg (show ¬ (4 ≤ b ∧ b ≤ 7) by omega), Nat.one_ne_zero, if_false,
          Nat.add_zero]
        exact ⟨trivial, hts.1, hta.1, hta.2.1, fun h => absurd h (by decide),
          fun hm => absurd hb3 (hb4 hm)⟩
      · have hg : b / 4 = 1 := by omega
        simp only [hg, if_true, if_pos (show 4 ≤ b ∧ b ≤ 7 by omega)]
        refine ⟨trivial, hts.2.1, hta.1, hts.2.2, fun _ => ?_, fun _ => by omega⟩
        rw [wireFormat_bit y.feedback 1 _ b hw1 hg]; exact hta.1
    · -- nothing is sent
      have h47' : send_needed 4 7 y.feedback = 0 := not_not.1 h47
      refine ⟨[], ?_⟩
      have hlr := low_rank_low_kept adc_result x y y hA (fun _ _ => rfl) rfl rfl
      rw [hnone h03' h47', hlr]
      simp only [group_sends, List.countP_nil, Nat.add_zero, List.append_nil, hA.2.2.2,
        List.not_mem_nil, false_implies, implies_true, true_and]
      refine ⟨hts.1, hta.1, hta.2.1, fun hm => ?_⟩
      exfalso
      apply h47
      rw [send_needed_ne_zero]
      exact ⟨b, by have := hb4 hm; omega, by omega, by rw [hta.2.1]; omega⟩

/-- One call of `handle_occupied_tracks` under `Live` inputs for a tracked bit. -/
theorem handle_step (cv : CV) (adc_result : Nat → AdcResult) (hw : RsHw) (x : OccState)
    (hlive : Live hw x) (hbits : NextIsBit x.feedback) (hc : ConsistentInputs adc_result)
    (b : Nat) (hb : b < 8) (v m : Nat)
    (htr : Tracked x.RS_tranmissions v m (soll_on adc_result x.map b)
      (soll_off adc_result x.map b) (x.feedback b)) :
    ∃ bytes,
      (handle_occupied_tracks cv adc_result hw x).sent = x.sent ++ bytes ∧
      Tracked x.RS_tranmissions v (m + group_sends (b / 4) bytes)
        (soll_on adc_result x.map b) (soll_off adc_result x.map b)
        ((handle_occupied_tracks cv adc_result hw x).feedback b) ∧
      ((handle_occupied_tracks cv adc_result hw x).feedback b).next_to_transmit = v ∧
      ((handle_occupied_tracks cv adc_result hw x).feedback b).number_of_transmissions
        = x.RS_tranmissions - (m + group_sends (b / 4) bytes) ∧
      (∀ byte ∈ bytes, byte / 2 ^ 3 % 2 = b / 4 → byte / 2 ^ (7 - b % 4) % 2 = v) ∧
      (m < x.RS_tranmissions →
        low_rank adc_result (handle_occupied_tracks cv adc_result hw x)
            + (x.RS_tranmissions - (m + group_sends (b / 4) bytes))
          < low_rank adc_result x + (x.RS_tranmissions - m)) := by
  rw [handle_occupied_tracks_live cv adc_result hw x hlive]
  exact send_step adc_result hw x _ (analysisOf_analyse cv adc_result x) hlive.2.2.1
    (nextIsBit_analyse cv adc_result x hbits) hc b hb v m htr

theorem nextIsBit_handle (cv : CV) (adc_result : Nat → AdcResult) (hw : RsHw) (x : OccState)
    (hbits : NextIsBit x.feedback) :
    NextIsBit (handle_occupied_tracks cv adc_result hw x).feedback :=
  nextIsBit_run_occ [OccAction.handle cv adc_result hw] x hbits

theorem group_sends_append (g : Nat) (l1 l2 : List Nat) :
    group_sends g (l1 ++ l2) = group_sends g l1 + group_sends g l2 := by
  unfold group_sends
  rw [List.countP_append]

/-- The progress of a tracked bit over `n` calls with the same inputs. -/
theorem handle_n_tracked (cv : CV) (adc_result : Nat → AdcResult) (hw : RsHw)
    (hc : ConsistentInputs adc_result) (b : Nat) (hb : b < 8) (v : Nat) (n : Nat) :
    ∀ (x : OccState) (m : Nat), Live hw x → NextIsBit x.feedback →
      Tracked x.RS_tranmissions v m (soll_on adc_result x.map b)
        (soll_off adc_result x.map b) (x.feedback b) →
      ∃ bytes,
        (handle_n cv adc_result hw n x).sent = x.sent ++ bytes ∧
        (1 ≤ n →
          ((handle_n cv adc_result hw n x).feedback b).next_to_transmit = v ∧
          ((handle_n cv adc_result hw n x).feedback b).number_of_transmissions
            = x.RS_tranmissions - (m + group_sends (b / 4) bytes)) ∧
        (∀ byte ∈ bytes, byte / 2 ^ 3 % 2 = b / 4 → byte / 2 ^ (7 - b % 4) % 2 = v) := by
  induction n with
  | zero =>
    intro x m _ _ _
    exact ⟨[], by simp [handle_n], fun h => absurd h (by decide), fun _ h => by simp at h⟩
  | succ n ih =>
    intro x m hlive hbits htr
    obtain ⟨bytes1, hs1, ht1, hn1, hc1, hv1, _⟩ :=
      handle_step cv adc_result hw x hlive hbits hc b hb v m htr
    obtain ⟨hl1, hmap1, hR1⟩ := live_handle_occupied_tracks cv adc_result hw x hlive
    have hb1 := nextIsBit_handle cv adc_result hw x hbits
    rw [← hmap1, ← hR1] at ht1
    obtain ⟨bytes2, hs2, ht2, hv2⟩ := ih _ _ hl1 hb1 ht1
    refine ⟨bytes1 ++ bytes2, ?_, fun _ => ?_, ?_⟩
    · simp only [handle_n]
      rw [hs2, hs1, List.append_assoc]
    · simp only [handle_n]
      rw [group_sends_append]
      by_cases hn : 1 ≤ n
      · have := ht2 hn
        rw [hR1, Nat.add_assoc] at this
        exact this
      · have hn0 : n = 0 := by omega
        subst hn0
        simp only [handle_n] at hs2 ⊢
        have hnil : bytes2 = [] := by
          have := congrArg List.length hs2
          simp at this
          exact this
        subst hnil
        simp only [group_sends, List.countP_nil, Nat.add_zero] at hc1 ⊢
        exact ⟨hn1, hc1⟩
    · intro byte hbyte
      rcases List.mem_append.1 hbyte with h | h
      · exact hv1 byte h
      · exact hv2 byte h

/-- A tracked bit is acknowledged and its counter reaches zero after finitely many calls. -/
theorem handle_n_drains (cv : CV) (adc_result : Nat → AdcResult) (hw : RsHw)
    (hc : ConsistentInputs adc_result) (b : Nat) (hb : b < 8) (v : Nat) (k : Nat) :
    ∀ (x : OccState) (m : Nat), Live hw x → NextIsBit x.feedback →
      Tracked x.RS_tranmissions v m (soll_on adc_result x.map b)
        (soll_off adc_result x.map b) (x.feedback b) →
      low_rank adc_result x + (x.RS_tranmissions - m) ≤ k →
      ∃ n, 1 ≤ n ∧
        ((handle_n cv adc_result hw n x).feedback b).number_of_transmissions = 0 := by
  induction k with
  | zero =>
    intro x m hlive hbits htr hk
    obtain ⟨bytes1, _, _, _, hc1, _, _⟩ :=
      handle_step cv adc_result hw x hlive hbits hc b hb v m htr
    refine ⟨1, Nat.le_refl _, ?_⟩
    simp only [handle_n]
    rw [hc1]; omega
  | succ k ih =>
    intro x m hlive hbits htr hk
    obtain ⟨bytes1, _, ht1, _, hc1, _, hdec⟩ :=
      handle_step cv adc_result hw x hlive hbits hc b hb v m htr
    obtain ⟨hl1, hmap1, hR1⟩ := live_handle_occupied_tracks cv adc_result hw x hlive
    have hb1 := nextIsBit_handle cv adc_result hw x hbits
    by_cases hm : x.RS_tranmissions ≤ m + group_sends (b / 4) bytes1
    · refine ⟨1, Nat.le_refl _, ?_⟩
      simp only [handle_n]
      rw [hc1]; omega
    · have hlt := hdec (by omega)
      rw [← hmap1, ← hR1] at ht1
      obtain ⟨n, _, hn⟩ := ih _ _ hl1 hb1 ht1 (by rw [hR1]; omega)
      exact ⟨n + 1, by omega, by simp only [handle_n]; exact hn⟩

/-- Retransmission of a staged change under constant, consistent inputs, from any state
whose staged values are 0 or 1. -/
theorem retransmission_of_bits (cv : CV) (adc_result : Nat → AdcResult) (hw : RsHw)
    (s : OccState) (b : Nat) (hb : b < 8) (hlive : Live hw s) (hbits : NextIsBit s.feedback)
    (hc : ConsistentInputs adc_result)
    (hstaged :
      (((analyse_track_occupation cv adc_result s).feedback b).should_be_on ≠ 0 ∧
        (s.feedback b).previous_transmitted = 0) ∨
      (((analyse_track_occupation cv adc_result s).feedback b).should_be_off ≠ 0 ∧
        (s.feedback b).previous_transmitted ≠ 0)) :
    (∀ n, 1 ≤ n →
      ∃ bytes,
        (handle_n cv adc_result hw n s).sent = s.sent ++ bytes ∧
        ((handle_n cv adc_result hw n s).feedback b).number_of_transmissions
          = s.RS_tranmissions - group_sends (b / 4) bytes ∧
        ((handle_n cv adc_result hw n s).feedback b).next_to_transmit
          = ((analyse_track_occupation cv adc_result s).feedback b).next_to_transmit ∧
        (∀ byte ∈ bytes, byte / 2 ^ 3 % 2 = b / 4 →
          byte / 2 ^ (7 - b % 4) % 2
            = ((analyse_track_occupation cv adc_result s).feedback b).next_to_transmit)) ∧
    (∃ n, 1 ≤ n ∧
      ((handle_n cv adc_result hw n s).feedback b).number_of_transmissions = 0) := by
  have hfb := analyse_track_occupation_feedback cv adc_result s b hb
  have hsc := soll_consistent adc_result s.map hc b
  have haf := analysed_fields s.RS_tranmissions (soll_on adc_result s.map b)
    (soll_off adc_result s.map b) (s.feedback b)
  rw [hfb] at hstaged ⊢
  change (((analysed _ _ _ _).should_be_on ≠ 0 ∧ _) ∨ ((analysed _ _ _ _).should_be_off ≠ 0 ∧ _))
    at hstaged
  rw [haf.1, haf.2.1] at hstaged
  have htr : Tracked s.RS_tranmissions (if (s.feedback b).previous_transmitted = 0 then 1 else 0)
      0 (soll_on adc_result s.map b) (soll_off adc_result s.map b) (s.feedback b) := by
    unfold Tracked
    rcases hstaged with ⟨h1, h2⟩ | ⟨h1, h2⟩
    · rw [if_pos h2]
      exact ⟨Or.inl ⟨rfl, h1, by_contra fun h => hsc ⟨h1, h⟩⟩, by simp [h2]⟩
    · rw [if_neg h2]
      exact ⟨Or.inr ⟨rfl, h1, by_contra fun h => hsc ⟨h, h1⟩⟩, by simp [h2]⟩
  have hv := (tracked_analysed _ _ _ _ _ _ htr).1
  change (analysed _ _ _ _).next_to_transmit = _ at hv
  constructor
  · intro n hn
    obtain ⟨bytes, h1, h2, h3⟩ :=
      handle_n_tracked cv adc_result hw hc b hb _ n s 0 hlive hbits htr
    refine ⟨bytes, h1, ?_, ?_, ?_⟩
    · rw [(h2 hn).2, Nat.zero_add]
    · exact (h2 hn).1.trans hv.symm
    · intro byte hbyte hg
      exact (h3 byte hbyte hg).trans hv.symm
  · exact handle_n_drains cv adc_result hw hc b hb _ _ s 0 hlive hbits htr (Nat.le_refl _)

/-- C11: `send_feedbacks` changes nothing when the transmit-busy flag is set.  Otherwise it
hands over the byte of the low group iff some bit 0 .. 3 has a non-zero counter; otherwise
the byte of the high group iff some bit 4 .. 7 has a non-zero counter; otherwise it changes
nothing.  After a send the four bits of the sent group are saved (`previous_transmitted`
becomes `next_to_transmit`, the counter is decremented with floor 0), every other bit is
unchanged, and so are all other variables. -/
theorem C11_send_feedbacks_one_group (hw : RsHw) (s : OccState) :
    (hw.RS_data2send_flag ≠ 0 → send_feedbacks hw s = s) ∧
    (hw.RS_data2send_flag = 0 →
      ((∃ i, i ≤ 3 ∧ (s.feedback i).number_of_transmissions > 0) →
        send_feedbacks hw s =
          { s with feedback := (send_feedbacks hw s).feedback,
                   sent := s.sent ++ [nibble s.feedback 0 0] } ∧
        (∀ b, b ≤ 3 → (send_feedbacks hw s).feedback b = saved (s.feedback b)) ∧
        (∀ b, 3 < b → (send_feedbacks hw s).feedback b = s.feedback b)) ∧
      ((¬ ∃ i, i ≤ 3 ∧ (s.feedback i).number_of_transmissions > 0) →
        (∃ i, 4 ≤ i ∧ i ≤ 7 ∧ (s.feedback i).number_of_transmissions > 0) →
        send_feedbacks hw s =
          { s with feedback := (send_feedbacks hw s).feedback,
                   sent := s.sent ++ [nibble s.feedback 4 1] } ∧
        (∀ b, 4 ≤ b → b ≤ 7 → (send_feedbacks hw s).feedback b = saved (s.feedback b)) ∧
        (∀ b, b < 4 ∨ 7 < b → (send_feedbacks hw s).feedback b = s.feedback b)) ∧
      ((¬ ∃ i, i ≤ 3 ∧ (s.feedback i).number_of_transmissions > 0) →
        (¬ ∃ i, 4 ≤ i ∧ i ≤ 7 ∧ (s.feedback i).number_of_transmissions > 0) →
        send_feedbacks hw s = s)) := by
  have hlow : send_needed 0 3 s.feedback ≠ 0 ↔
      ∃ i, i ≤ 3 ∧ (s.feedback i).number_of_transmissions > 0 := by
    rw [send_needed_ne_zero]
    constructor
    · rintro ⟨i, _, h2, h3⟩; exact ⟨i, h2, h3⟩
    · rintro ⟨i, h2, h3⟩; exact ⟨i, Nat.zero_le _, h2, h3⟩
  have hhigh := send_needed_ne_zero 4 7 s.feedback
  constructor
  · intro hbusy
    unfold send_feedbacks
    rw [if_neg hbusy]
  · intro hidle
    obtain ⟨h1, h2, h3⟩ := send_feedbacks_idle hw s hidle
    refine ⟨fun hl => ?_, fun hl hh => ?_, fun hl hh => ?_⟩
    · rw [h1 (hlow.2 hl)]
      refine ⟨rfl, fun b hb => ?_, fun b hb => ?_⟩
      · simp only [save_changes_apply]
        rw [if_pos ⟨Nat.zero_le _, hb⟩]
      · simp only [save_changes_apply]
        rw [if_neg (by omega)]
    · rw [h2 (not_not.1 (fun h => hl (hlow.1 h))) (hhigh.2 hh)]
      refine ⟨rfl, fun b hb4 hb7 => ?_, fun b hb => ?_⟩
      · simp only [save_changes_apply]
        rw [if_pos ⟨hb4, hb7⟩]
      · simp only [save_changes_apply]
        rw [if_neg (by omega)]
    · exact h3 (not_not.1 (fun h => hl (hlow.1 h))) (not_not.1 (fun h => hh (hhigh.1 h)))

/-- C11, witness: the plain occupancy decoder after pin 0 went on; bit 0 has a non-zero
counter, the transmitter is idle, and the call sends the low group. -/
theorem C11_send_feedbacks_one_group_witness :
    (∃ i, i ≤ 3 ∧
      ((analyse_track_occupation CV.default (adc_of [0] []) occ_normal).feedback
        i).number_of_transmissions > 0) ∧
    (send_feedbacks hw_idle (analyse_track_occupation CV.default (adc_of [0] []) occ_normal) =
        { analyse_track_occupation CV.default (adc_of [0] []) occ_normal with
          feedback := (send_feedbacks hw_idle
            (analyse_track_occupation CV.default (adc_of [0] []) occ_normal)).feedback,
          sent := (analyse_track_occupation CV.default (adc_of [0] []) occ_normal).sent ++
            [nibble (analyse_track_occupation CV.default (adc_of [0] []) occ_normal).feedback
              0 0] } ∧
      (∀ b, b ≤ 3 →
        (send_feedbacks hw_idle
          (analyse_track_occupation CV.default (adc_of [0] []) occ_normal)).feedback b
          = saved ((analyse_track_occupation CV.default (adc_of [0] []) occ_normal).feedback
              b)) ∧
      (∀ b, 3 < b →
        (send_feedbacks hw_idle
          (analyse_track_occupation CV.default (adc_of [0] []) occ_normal)).feedback b
          = (analyse_track_occupation CV.default (adc_of [0] []) occ_normal).feedback b)) :=
  ⟨⟨0, by decide, by decide⟩,
   ((C11_send_feedbacks_one_group hw_idle
      (analyse_track_occupation CV.default (adc_of [0] []) occ_normal)).2 (by decide)).1
      ⟨0, by decide, by decide⟩⟩

/-! ## The map of input pins to feedback bits after `init_occupancy` -/

/-- Every decoder type but the reverser gets the identity map. -/
theorem init_occupancy_map_direct (cv : CV) (s : OccState) (h : s.MyType ≠ TYPE_REVERSER)
    (i : Nat) (hi : i < 8) : (init_occupancy cv s).map i = i := by
  simp only [init_occupancy, if_neg h]
  interval_cases i <;> simp [store]

/-- The reverser gets the eight mapping CVs as they are stored. -/
theorem init_occupancy_map_reverser (cv : CV) (s : OccState) (h : s.MyType = TYPE_REVERSER) :
    (init_occupancy cv s).map 0 = my_eeprom_read_byte cv.FB_A ∧
    (init_occupancy cv s).map 1 = my_eeprom_read_byte cv.FB_S1 ∧
    (init_occupancy cv s).map 2 = my_eeprom_read_byte cv.FB_S2 ∧
    (init_occupancy cv s).map 3 = my_eeprom_read_byte cv.FB_B ∧
    (init_occupancy cv s).map 4 = my_eeprom_read_byte cv.FB_S3 ∧
    (init_occupancy cv s).map 5 = my_eeprom_read_byte cv.FB_S4 ∧
    (init_occupancy cv s).map 6 = my_eeprom_read_byte cv.FB_C ∧
    (init_occupancy cv s).map 7 = my_eeprom_read_byte cv.FB_D := by
  simp only [init_occupancy, if_pos h]
  simp [store]

/-- C12, the code at the failing input: a reverser whose CV43 (FB_A) holds 255.  After
`init_occupancy` the map entry of pin 0 is 255, and `analyse_track_occupation` with pin 0
occupied writes `should_be_on` of the entry with index 255, which lies outside
`feedback[8]`. -/
theorem C12_map_entry_out_of_range :
    (init_occupancy cv_fb_255 (OccState.zero TYPE_REVERSER 1)).map 0 = 255 ∧
    ((init_occupancy cv_fb_255 (OccState.zero TYPE_REVERSER 1)).feedback 255).should_be_on
      = 0 ∧
    ((analyse_track_occupation cv_fb_255 (adc_of [0] [])
      (init_occupancy cv_fb_255 (OccState.zero TYPE_REVERSER 1))).feedback 255).should_be_on
      = 1 :=
  ⟨by decide, by decide, by decide⟩


/-! ## The relays: single commands -/

theorem testBit_clear_port_bit (port k j : Nat) (hj : j < 8) :
    (clear_port_bit port k).testBit j = (port.testBit j && decide (j ≠ k)) := by
  have h255 : (255 : Nat) = 2 ^ 8 - 1 := by norm_num
  have h256 : (256 : Nat) = 2 ^ 8 := by norm_num
  unfold clear_port_bit
  rw [Nat.testBit_and, Nat.testBit_xor, h255, Nat.testBit_two_pow_sub_one, h256,
    Nat.testBit_mod_two_pow, Nat.one_shiftLeft, Nat.testBit_two_pow]
  by_cases h : k = j
  · subst h; simp [hj]
  · have h' : j ≠ k := fun e => h e.symm
    simp [hj, h, h']

theorem testBit_set_port_bit (port k j : Nat) :
    (set_port_bit port k).testBit j
      = (port.testBit j || (decide (j < 8) && decide (j = k))) := by
  have h256 : (256 : Nat) = 2 ^ 8 := by norm_num
  unfold set_port_bit
  rw [Nat.testBit_or, h256, Nat.testBit_mod_two_pow, Nat.one_shiftLeft, Nat.testBit_two_pow]
  by_cases h : k = j
  · subst h; simp
  · have h' : j ≠ k := fun e => h e.symm
    simp [h, h']

/-- The state after a command that is carried out. -/
theorem set_relay_active (d g a : Nat) (r : RelayState) (ha : a ≠ 0)
    (hne : (r.devices d).gate_pos ≠ g) :
    set_relay d g a r =
      { devices := store r.devices d
          { gate_pos := g, hold_time := (r.devices d).hold_time,
            rest_time := (r.devices d).hold_time },
        RELAYS_PORT :=
          set_port_bit (clear_port_bit (clear_port_bit r.RELAYS_PORT (2 * d)) (2 * d + 1))
            (2 * d + g) } := by
  unfold set_relay
  rw [if_pos ha, if_pos hne]
  simp only [RelayState.mk.injEq, and_true]
  funext j
  by_cases hj : j = d
  · subst hj; simp [store]
  · simp [store, hj]

/-- C13: `set_relay` returns the state unchanged when `TargetActivate` is 0, and when the
requested gate is the current gate position of the device (whatever its `rest_time`). -/
theorem C13_set_relay_no_change (d g a : Nat) (r : RelayState)
    (h : a = 0 ∨ (r.devices d).gate_pos = g) :
    set_relay d g a r = r := by
  unfold set_relay
  rcases h with h | h
  · rw [if_neg (not_not.2 h)]
  · rw [if_neg (not_not.2 h)]
    split <;> rfl

/-- C14: for a device `d` in 0 .. 3 and a requested position `p` in {0, 1} that differs
from the current one, `set_relay` with activation requested sets `gate_pos` of `d` to `p`
and its `rest_time` to its `hold_time`, sets port bit `2 d + p`, clears port bit
`2 d + (1 - p)`, and leaves every other device and every other port bit unchanged. -/
theorem C14_set_relay_switches (d p a : Nat) (r : RelayState) (hd : d < 4) (hp : p ≤ 1)
    (ha : a ≠ 0) (hne : (r.devices d).gate_pos ≠ p) :
    ((set_relay d p a r).devices d).gate_pos = p ∧
    ((set_relay d p a r).devices d).rest_time = (r.devices d).hold_time ∧
    ((set_relay d p a r).devices d).hold_time = (r.devices d).hold_time ∧
    (set_relay d p a r).RELAYS_PORT.testBit (2 * d + p) = true ∧
    (set_relay d p a r).RELAYS_PORT.testBit (2 * d + (1 - p)) = false ∧
    (∀ e, e ≠ d → (set_relay d p a r).devices e = r.devices e) ∧
    (∀ j, j < 8 → j ≠ 2 * d → j ≠ 2 * d + 1 →
      (set_relay d p a r).RELAYS_PORT.testBit j = r.RELAYS_PORT.testBit j) := by
  rw [set_relay_active d p a r ha hne]
  simp only [store_same]
  refine ⟨trivial, trivial, trivial, ?_, ?_, fun e he => store_other _ _ _ _ he,
    fun j hj h1 h2 => ?_⟩
  · rw [testBit_set_port_bit]
    simp
    omega
  · rw [testBit_set_port_bit, testBit_clear_port_bit _ _ _ (by omega),
      testBit_clear_port_bit _ _ _ (by omega)]
    have hp' : p = 0 ∨ p = 1 := by omega
    rcases hp' with e | e <;> subst e <;> simp
  · rw [testBit_set_port_bit, testBit_clear_port_bit _ _ _ hj,
      testBit_clear_port_bit _ _ _ hj]
    have : j ≠ 2 * d + p := by omega
    simp [h1, h2, this]

/-! ## The relays: time-out -/

theorem time_out_body_eq (r : RelayState) (i : Nat) :
    time_out_body r i =
      { devices := store r.devices i
          { r.devices i with rest_time := (r.devices i).rest_time - 1 },
        RELAYS_PORT :=
          if (r.devices i).rest_time = 1 then
            clear_port_bit (clear_port_bit r.RELAYS_PORT (2 * i)) (2 * i + 1)
          else r.RELAYS_PORT } := by
  unfold time_out_body
  by_cases h0 : (r.devices i).rest_time = 0
  · simp only [h0, ne_eq, not_true_eq_false, if_false, Nat.zero_sub, Nat.zero_ne_one]
    cases r with
    | mk devices port =>
      simp only [RelayState.mk.injEq, and_true]
      funext j
      by_cases hj : j = i
      · subst hj
        simp only [store_same]
        simp only at h0
        cases hd : devices j with
        | mk g h t =>
          rw [hd] at h0
          simp only at h0
          subst h0
          rfl
      · rw [store_other _ _ _ _ hj]
  · simp only [ne_eq, h0, not_false_eq_true, if_true]
    have e : ((r.devices i).rest_time - 1 = 0) ↔ ((r.devices i).rest_time = 1) := by omega
    simp only [e]

/-- The bits of the port after both coils of device `i` have been cleared. -/
theorem testBit_clear_device (port i j : Nat) (hj : j < 8) :
    (clear_port_bit (clear_port_bit port (2 * i)) (2 * i + 1)).testBit j
      = (port.testBit j && decide (j / 2 ≠ i)) := by
  rw [testBit_clear_port_bit _ _ _ hj, testBit_clear_port_bit _ _ _ hj]
  by_cases h : j / 2 = i
  · have hr : decide (j / 2 ≠ i) = false := by simp [h]
    have : j = 2 * i ∨ j = 2 * i + 1 := by omega
    rw [hr]
    rcases this with e | e
    · have : decide (j ≠ 2 * i) = false := by simp [e]
      rw [this]; simp
    · have : decide (j ≠ 2 * i + 1) = false := by simp [e]
      rw [this]; simp
  · have h1 : j ≠ 2 * i := by omega
    have h2 : j ≠ 2 * i + 1 := by omega
    simp [h, h1, h2]

theorem foldl_time_out_body (l : List Nat) (hl : l.Nodup) (r : RelayState) :
    (∀ i, (l.foldl time_out_body r).devices i =
      if i ∈ l then { r.devices i with rest_time := (r.devices i).rest_time - 1 }
      else r.devices i) ∧
    (∀ j, j < 8 →
      (l.foldl time_out_body r).RELAYS_PORT.testBit j =
        (r.RELAYS_PORT.testBit j &&
          !decide (j / 2 ∈ l ∧ (r.devices (j / 2)).rest_time = 1))) := by
  induction l generalizing r with
  | nil => simp
  | cons i rest ih =>
    rw [List.nodup_cons] at hl
    rw [List.foldl_cons]
    obtain ⟨ih1, ih2⟩ := ih hl.2 (time_out_body r i)
    constructor
    · intro k
      rw [ih1, time_out_body_eq]
      by_cases hk : k = i
      · subst hk; simp [hl.1, store]
      · by_cases hr : k ∈ rest <;> simp [hr, hk, store]
    · intro j hj
      rw [ih2 j hj, time_out_body_eq]
      simp only
      by_cases hji : j / 2 = i
      · have hnr : j / 2 ∉ rest := by rw [hji]; exact hl.1
        by_cases h1 : (r.devices i).rest_time = 1
        · rw [if_pos h1, testBit_clear_device _ _ _ hj]
          simp [hji, h1]
        · rw [if_neg h1]
          simp [hji, h1, hl.1]
      · simp only [store, if_neg hji]
        by_cases h1 : (r.devices i).rest_time = 1
        · rw [if_pos h1, testBit_clear_device _ _ _ hj]
          simp [hji]
        · rw [if_neg h1]
          simp [hji]

/-- One call of `check_relays_time_out`, device by device and port bit by port bit. -/
theorem check_relays_time_out_apply (r : RelayState) :
    (∀ i, (check_relays_time_out r).devices i =
      if i < 4 then { r.devices i with rest_time := (r.devices i).rest_time - 1 }
      else r.devices i) ∧
    (∀ j, j < 8 →
      (check_relays_time_out r).RELAYS_PORT.testBit j =
        (r.RELAYS_PORT.testBit j && !decide ((r.devices (j / 2)).rest_time = 1))) := by
  obtain ⟨h1, h2⟩ := foldl_time_out_body (List.range 4) (List.nodup_range 4) r
  unfold check_relays_time_out
  constructor
  · intro i
    rw [h1 i]
    simp only [List.mem_range]
  · intro j hj
    rw [h2 j hj]
    have : j / 2 ∈ List.range 4 := List.mem_range.2 (by omega)
    simp [this]

theorem time_out_n_succ (n : Nat) (r : RelayState) :
    time_out_n (n + 1) r = check_relays_time_out (time_out_n n r) := by
  induction n generalizing r with
  | zero => rfl
  | succ n ih =>
    show time_out_n (n + 1) (check_relays_time_out r) = _
    rw [ih (check_relays_time_out r)]
    rfl

/-- While the pulse of device `d` lasts, its counter goes down by one per call and its two
port bits keep their values. -/
theorem time_out_n_hold (d j : Nat) (hd : d < 4) (hj : j = 2 * d ∨ j = 2 * d + 1) (n : Nat) :
    ∀ r : RelayState, n < (r.devices d).rest_time →
      ((time_out_n n r).devices d).rest_time = (r.devices d).rest_time - n ∧
      (time_out_n n r).RELAYS_PORT.testBit j = r.RELAYS_PORT.testBit j := by
  induction n with
  | zero => intro r _; exact ⟨rfl, rfl⟩
  | succ n ih =>
    intro r hn
    obtain ⟨h1, h2⟩ := ih r (by omega)
    obtain ⟨c1, c2⟩ := check_relays_time_out_apply (time_out_n n r)
    have hjd : j / 2 = d := by omega
    rw [time_out_n_succ]
    constructor
    · rw [c1 d, if_pos hd]
      simp only
      rw [h1]; omega
    · rw [c2 j (by omega), hjd, h1, h2]
      have : ¬ (r.devices d).rest_time - n = 1 := by omega
      simp [this]

/-- Once the counter of device `d` is 0 it stays 0 and the two port bits keep their values. -/
theorem time_out_n_idle (d j : Nat) (hd : d < 4) (hj : j = 2 * d ∨ j = 2 * d + 1) (n : Nat) :
    ∀ r : RelayState, (r.devices d).rest_time = 0 →
      ((time_out_n n r).devices d).rest_time = 0 ∧
      (time_out_n n r).RELAYS_PORT.testBit j = r.RELAYS_PORT.testBit j := by
  induction n with
  | zero => intro r h; exact ⟨h, rfl⟩
  | succ n ih =>
    intro r h0
    obtain ⟨h1, h2⟩ := ih r h0
    obtain ⟨c1, c2⟩ := check_relays_time_out_apply (time_out_n n r)
    have hjd : j / 2 = d := by omega
    rw [time_out_n_succ]
    constructor
    · rw [c1 d, if_pos hd]
      simp only
      rw [h1]
    · rw [c2 j (by omega), hjd, h1, h2]
      simp

/-- The call that ends the pulse of device `d` clears both of its port bits. -/
theorem time_out_n_release (d j : Nat) (hd : d < 4) (hj : j = 2 * d ∨ j = 2 * d + 1)
    (r : RelayState) (h1 : 1 ≤ (r.devices d).rest_time) :
    ((time_out_n (r.devices d).rest_time r).devices d).rest_time = 0 ∧
    (time_out_n (r.devices d).rest_time r).RELAYS_PORT.testBit j = false := by
  obtain ⟨k, hk⟩ : ∃ k, (r.devices d).rest_time = k + 1 := ⟨(r.devices d).rest_time - 1, by omega⟩
  obtain ⟨e1, _⟩ := time_out_n_hold d j hd hj k r (by omega)
  obtain ⟨c1, c2⟩ := check_relays_time_out_apply (time_out_n k r)
  have hjd : j / 2 = d := by omega
  rw [hk, time_out_n_succ]
  constructor
  · rw [c1 d, if_pos hd]
    simp only
    rw [e1]; omega
  · rw [c2 j (by omega), hjd, e1]
    have : (r.devices d).rest_time - k = 1 := by omega
    simp [this]

theorem time_out_n_add (m n : Nat) (r : RelayState) :
    time_out_n (m + n) r = time_out_n n (time_out_n m r) := by
  induction m generalizing r with
  | zero => simp [time_out_n]
  | succ m ih =>
    have : m + 1 + n = (m + n) + 1 := by omega
    rw [this]
    show time_out_n (m + n) (check_relays_time_out r) = _
    rw [ih]
    rfl

/-- After a command that is carried out the counter of the device holds its hold time and
the requested coil is energised. -/
theorem set_relay_pulse (d p a : Nat) (r : RelayState) (hd : d < 4) (hp : p ≤ 1)
    (ha : a ≠ 0) (hne : (r.devices d).gate_pos ≠ p) :
    ((set_relay d p a r).devices d).rest_time = (r.devices d).hold_time ∧
    (set_relay d p a r).RELAYS_PORT.testBit (2 * d + p) = true := by
  rw [set_relay_active d p a r ha hne]
  simp only [store_same, true_and]
  rw [testBit_set_port_bit]
  simp
  omega

/-- C15 (as amended): after a `set_relay` command that energises coil `2 d + p` of device
`d`, with only calls of `check_relays_time_out` following: if the hold time `h` of the
device is at least 1, the coil is still energised after each of the first `h - 1` calls
and both coils of the device are de-energised after the `h`-th call and after every later
one; if the hold time is 0, the coil stays energised after every number of calls. -/
theorem C15_pulse_length (d p a : Nat) (r : RelayState) (hd : d < 4) (hp : p ≤ 1)
    (ha : a ≠ 0) (hne : (r.devices d).gate_pos ≠ p) :
    (1 ≤ (r.devices d).hold_time →
      (∀ n, n < (r.devices d).hold_time →
        (time_out_n n (set_relay d p a r)).RELAYS_PORT.testBit (2 * d + p) = true) ∧
      (∀ n, (r.devices d).hold_time ≤ n →
        (time_out_n n (set_relay d p a r)).RELAYS_PORT.testBit (2 * d) = false ∧
        (time_out_n n (set_relay d p a r)).RELAYS_PORT.testBit (2 * d + 1) = false)) ∧
    ((r.devices d).hold_time = 0 →
      ∀ n, (time_out_n n (set_relay d p a r)).RELAYS_PORT.testBit (2 * d + p) = true) := by
  obtain ⟨hrest, hbit⟩ := set_relay_pulse d p a r hd hp ha hne
  have hjp : 2 * d + p = 2 * d ∨ 2 * d + p = 2 * d + 1 := by omega
  refine ⟨fun h1 => ⟨fun n hn => ?_, fun n hn => ?_⟩, fun h0 n => ?_⟩
  · rw [(time_out_n_hold d _ hd hjp n _ (by rw [hrest]; exact hn)).2]
    exact hbit
  · obtain ⟨m, hm⟩ : ∃ m, n = (r.devices d).hold_time + m := ⟨n - (r.devices d).hold_time, by omega⟩
    have ra := time_out_n_release d (2 * d) hd (Or.inl rfl) (set_relay d p a r)
      (by rw [hrest]; exact h1)
    have rb := time_out_n_release d (2 * d + 1) hd (Or.inr rfl) (set_relay d p a r)
      (by rw [hrest]; exact h1)
    rw [hrest] at ra rb
    rw [hm, time_out_n_add]
    rw [(time_out_n_idle d (2 * d) hd (Or.inl rfl) m _ ra.1).2,
      (time_out_n_idle d (2 * d + 1) hd (Or.inr rfl) m _ ra.1).2]
    exact ⟨ra.2, rb.2⟩
  · rw [(time_out_n_idle d _ hd hjp n _ (by rw [hrest]; exact h0)).2]
    exact hbit

/-- C15, witness: device 0 of the factory configuration (hold time 5) switched to green. -/
theorem C15_pulse_length_witness :
    (1 ≤ (relays_default.devices 0).hold_time →
      (∀ n, n < (relays_default.devices 0).hold_time →
        (time_out_n n (set_relay 0 1 1 relays_default)).RELAYS_PORT.testBit (2 * 0 + 1) = true) ∧
      (∀ n, (relays_default.devices 0).hold_time ≤ n →
        (time_out_n n (set_relay 0 1 1 relays_default)).RELAYS_PORT.testBit (2 * 0) = false ∧
        (time_out_n n (set_relay 0 1 1 relays_default)).RELAYS_PORT.testBit (2 * 0 + 1)
          = false)) ∧
    ((relays_default.devices 0).hold_time = 0 →
      ∀ n, (time_out_n n (set_relay 0 1 1 relays_default)).RELAYS_PORT.testBit (2 * 0 + 1)
        = true) :=
  C15_pulse_length 0 1 1 relays_default (by decide) (by decide) (by decide) (by decide)

/-- C15, counterexample: hold time 0 (CV3 = 0).  The command energises the green coil of
device 0 (port bit 1); the bit is set after 0 calls of `check_relays_time_out` (the `h`-th
call for `h = 0`), and still after 1 and after 8 calls. -/
theorem C15_counterexample :
    ((init_relays cv_hold_zero RelayState.zero).devices 0).hold_time = 0 ∧
    (time_out_n 0 (set_relay 0 1 1
      (init_relays cv_hold_zero RelayState.zero))).RELAYS_PORT.testBit 1 = true ∧
    (time_out_n 1 (set_relay 0 1 1
      (init_relays cv_hold_zero RelayState.zero))).RELAYS_PORT.testBit 1 = true ∧
    (time_out_n 8 (set_relay 0 1 1
      (init_relays cv_hold_zero RelayState.zero))).RELAYS_PORT.testBit 1 = true :=
  ⟨by decide, by decide, by decide, by decide⟩

/-! ## The relays: the group command and the coil invariant -/

theorem foldl_set_all (p : Nat) (l : List Nat) (devices : Nat → Device) (j : Nat) :
    (l.foldl
        (fun d i => store d i { d i with gate_pos := p, rest_time := (d i).hold_time })
        devices) j =
      if j ∈ l then
        { gate_pos := p, hold_time := (devices j).hold_time, rest_time := (devices j).hold_time }
      else devices j := by
  induction l generalizing devices with
  | nil => simp
  | cons i rest ih =>
    rw [List.foldl_cons, ih]
    by_cases hj : j = i
    · subst hj
      by_cases hr : j ∈ rest <;> simp [hr, store]
    · by_cases hr : j ∈ rest <;> simp [hr, hj, store]

/-- The function `set_all_relays` in closed form. -/
theorem set_all_relays_eq (cv : CV) (pos : Nat) (r : RelayState) :
    set_all_relays cv pos r =
      if (r.devices 0).gate_pos ≠ adjusted_pos cv pos ∨
          (r.devices 1).gate_pos ≠ adjusted_pos cv pos ∨
          (r.devices 2).gate_pos ≠ adjusted_pos cv pos ∨
          (r.devices 3).gate_pos ≠ adjusted_pos cv pos then
        { devices := fun i =>
            if i < 4 then
              { gate_pos := adjusted_pos cv pos, hold_time := (r.devices i).hold_time,
                rest_time := (r.devices i).hold_time }
            else r.devices i,
          RELAYS_PORT := if adjusted_pos cv pos = 1 then 0b10101010 else 0b01010101 }
      else r := by
  have hfold : ∀ p : Nat,
      (List.range 4).foldl
        (fun d i => store d i { d i with gate_pos := p, rest_time := (d i).hold_time })
        r.devices =
      fun i =>
        if i < 4 then
          { gate_pos := p, hold_time := (r.devices i).hold_time,
            rest_time := (r.devices i).hold_time }
        else r.devices i := by
    intro p
    funext i
    rw [foldl_set_all]
    simp only [List.mem_range]
  unfold set_all_relays adjusted_pos
  simp only [hfold]

theorem coilsExclusive_group (p : Nat) :
    CoilsExclusive (if p = 1 then 0b10101010 else 0b01010101) := by
  intro d hd
  split <;> interval_cases d <;> decide

theorem coilsExclusive_set_all_relays (cv : CV) (pos : Nat) (r : RelayState)
    (h : CoilsExclusive r.RELAYS_PORT) :
    CoilsExclusive (set_all_relays cv pos r).RELAYS_PORT := by
  rw [set_all_relays_eq]
  split
  · exact coilsExclusive_group _
  · exact h

theorem coilsExclusive_set_relay (d g a : Nat) (r : RelayState) (hd : d < 4) (hg : g ≤ 1)
    (h : CoilsExclusive r.RELAYS_PORT) :
    CoilsExclusive (set_relay d g a r).RELAYS_PORT := by
  by_cases hact : a ≠ 0 ∧ (r.devices d).gate_pos ≠ g
  · rw [set_relay_active d g a r hact.1 hact.2]
    intro e he
    simp only
    rw [testBit_set_port_bit, testBit_set_port_bit,
      testBit_clear_port_bit _ _ _ (by omega), testBit_clear_port_bit _ _ _ (by omega),
      testBit_clear_port_bit _ _ _ (by omega), testBit_clear_port_bit _ _ _ (by omega)]
    by_cases hed : e = d
    · subst hed
      have hg' : g = 0 ∨ g = 1 := by omega
      rcases hg' with e0 | e0 <;> subst e0 <;> simp
    · have h1 : 2 * e ≠ 2 * d := by omega
      have h2 : 2 * e ≠ 2 * d + 1 := by omega
      have h3 : 2 * e + 1 ≠ 2 * d := by omega
      have h4 : 2 * e + 1 ≠ 2 * d + 1 := by omega
      have h5 : 2 * e ≠ 2 * d + g := by omega
      have h6 : 2 * e + 1 ≠ 2 * d + g := by omega
      have := h e he
      simp only [h1, h2, h3, h4, h5, h6, ne_eq, not_false_eq_true, decide_True,
        decide_False, Bool.and_true, Bool.and_false, Bool.or_false]
      exact this
  · have : set_relay d g a r = r := by
      unfold set_relay
      by_cases ha : a ≠ 0
      · rw [if_pos ha, if_neg (fun hne => hact ⟨ha, hne⟩)]
      · rw [if_neg ha]
    rw [this]; exact h

theorem coilsExclusive_check_relays_time_out (r : RelayState)
    (h : CoilsExclusive r.RELAYS_PORT) :
    CoilsExclusive (check_relays_time_out r).RELAYS_PORT := by
  intro d hd
  obtain ⟨_, c2⟩ := check_relays_time_out_apply r
  rw [c2 _ (by omega), c2 _ (by omega)]
  intro hb
  apply h d hd
  simp only [Bool.and_eq_true] at hb
  exact ⟨hb.1.1, hb.2.1⟩

theorem init_relays_port (cv : CV) (r : RelayState) : (init_relays cv r).RELAYS_PORT = 0 := rfl

theorem coilsExclusive_run_relays (l : List RelayAction) :
    ∀ r : RelayState, CoilsExclusive r.RELAYS_PORT → l.all RelayAction.valid = true →
      CoilsExclusive (run_relays r l).RELAYS_PORT := by
  induction l with
  | nil => intro r h _; exact h
  | cons a rest ih =>
    intro r h hv
    simp only [List.all_cons, Bool.and_eq_true] at hv
    refine ih _ ?_ hv.2
    cases a with
    | command d g act =>
      simp only [RelayAction.valid, Bool.and_eq_true, decide_eq_true_eq] at hv
      exact coilsExclusive_set_relay d g act r hv.1.1 hv.1.2 h
    | all cv pos => exact coilsExclusive_set_all_relays cv pos r h
    | tick => exact coilsExclusive_check_relays_time_out r h

/-- C16: in every state reached from `init_relays` by `set_relay` commands (device in
0 .. 3, gate in {0, 1}, any activation flag), `set_all_relays` calls (any argument, any
polarization byte) and `check_relays_time_out` calls, no device has both of its port bits
`2 d` and `2 d + 1` set. -/
theorem C16_coils_exclusive (cv : CV) (r : RelayState) (l : List RelayAction)
    (hvalid : l.all RelayAction.valid = true) (d : Nat) (hd : d < 4) :
    ¬ ((run_relays (init_relays cv r) l).RELAYS_PORT.testBit (2 * d) = true ∧
       (run_relays (init_relays cv r) l).RELAYS_PORT.testBit (2 * d + 1) = true) :=
  coilsExclusive_run_relays l (init_relays cv r)
    (by rw [init_relays_port]; intro e _; simp) hvalid d hd

theorem adjusted_pos_eq (cv : CV) (pos : Nat) (hpos : pos ≤ 1) :
    adjusted_pos cv pos = if my_eeprom_read_byte cv.Polarization = 0 then pos else 1 - pos := by
  unfold adjusted_pos
  have : pos = 0 ∨ pos = 1 := by omega
  by_cases h : my_eeprom_read_byte cv.Polarization = 0
  · simp [h]
  · rcases this with e | e <;> simp [h, e]

theorem set_all_relays_same (cv : CV) (pos : Nat) (r : RelayState)
    (h : ∀ e, e < 4 → (r.devices e).gate_pos = adjusted_pos cv pos) :
    set_all_relays cv pos r = r := by
  rw [set_all_relays_eq, if_neg]
  rintro (h0 | h1 | h2 | h3)
  · exact h0 (h 0 (by decide))
  · exact h1 (h 1 (by decide))
  · exact h2 (h 2 (by decide))
  · exact h3 (h 3 (by decide))

theorem set_all_relays_differs (cv : CV) (pos : Nat) (r : RelayState)
    (h : ∃ e, e < 4 ∧ (r.devices e).gate_pos ≠ adjusted_pos cv pos) :
    set_all_relays cv pos r =
      { devices := fun i =>
          if i < 4 then
            { gate_pos := adjusted_pos cv pos, hold_time := (r.devices i).hold_time,
              rest_time := (r.devices i).hold_time }
          else r.devices i,
        RELAYS_PORT := if adjusted_pos cv pos = 1 then 0b10101010 else 0b01010101 } := by
  rw [set_all_relays_eq, if_pos]
  obtain ⟨e, he, hne⟩ := h
  have : e = 0 ∨ e = 1 ∨ e = 2 ∨ e = 3 := by omega
  rcases this with x | x | x | x <;> subst x
  · exact Or.inl hne
  · exact Or.inr (Or.inl hne)
  · exact Or.inr (Or.inr (Or.inl hne))
  · exact Or.inr (Or.inr (Or.inr hne))

/-- C17 (as amended): `set_relay` returns the state unchanged when the addressed device is
already at the requested position.  `set_all_relays` returns the state unchanged only when
all four devices are already at the polarity-adjusted position; when at least one device
differs, every device, also one that is already at that position, gets its `rest_time`
re-armed to its `hold_time`, and the whole port is rewritten, which energises its coil
again. -/
theorem C17_device_in_position (cv : CV) (pos : Nat) (r : RelayState) (d g a : Nat)
    (hd : d < 4) :
    ((r.devices d).gate_pos = g → set_relay d g a r = r) ∧
    ((∀ e, e < 4 → (r.devices e).gate_pos = adjusted_pos cv pos) →
      set_all_relays cv pos r = r) ∧
    ((r.devices d).gate_pos = adjusted_pos cv pos →
      (∃ e, e < 4 ∧ (r.devices e).gate_pos ≠ adjusted_pos cv pos) →
      ((set_all_relays cv pos r).devices d).gate_pos = adjusted_pos cv pos ∧
      ((set_all_relays cv pos r).devices d).rest_time = (r.devices d).hold_time ∧
      (set_all_relays cv pos r).RELAYS_PORT
        = (if adjusted_pos cv pos = 1 then 0b10101010 else 0b01010101)) := by
  refine ⟨fun h => ?_, set_all_relays_same cv pos r, fun _ h => ?_⟩
  · unfold set_relay
    rw [if_neg (not_not.2 h)]
    split <;> rfl
  · rw [set_all_relays_differs cv pos r h]
    simp only [if_pos hd, and_self]

/-- C18: for an argument `pos` in {0, 1}, `set_all_relays` works with `p = pos` when the
Polarization byte is 0 and `p = 1 - pos` otherwise.  If all four devices are at `p` the
state is unchanged; otherwise every device gets `gate_pos = p` and `rest_time` equal to its
own `hold_time`, and the port becomes 0b10101010 for `p = 1` and 0b01010101 for `p = 0`,
that is, for every device `d` bit `2 d + p` set and bit `2 d + (1 - p)` clear. -/
theorem C18_set_all_relays (cv : CV) (pos : Nat) (r : RelayState) (hpos : pos ≤ 1)
    (p : Nat) (hp : p = if my_eeprom_read_byte cv.Polarization = 0 then pos else 1 - pos) :
    ((∀ d, d < 4 → (r.devices d).gate_pos = p) → set_all_relays cv pos r = r) ∧
    ((∃ d, d < 4 ∧ (r.devices d).gate_pos ≠ p) →
      (∀ d, d < 4 →
        (set_all_relays cv pos r).devices d =
          { gate_pos := p, hold_time := (r.devices d).hold_time,
            rest_time := (r.devices d).hold_time }) ∧
      (∀ d, 4 ≤ d → (set_all_relays cv pos r).devices d = r.devices d) ∧
      (set_all_relays cv pos r).RELAYS_PORT = (if p = 1 then 0b10101010 else 0b01010101) ∧
      (∀ d, d < 4 →
        (set_all_relays cv pos r).RELAYS_PORT.testBit (2 * d + p) = true ∧
        (set_all_relays cv pos r).RELAYS_PORT.testBit (2 * d + (1 - p)) = false)) := by
  have hadj := adjusted_pos_eq cv pos hpos
  rw [← hp] at hadj
  have hp1 : p = 0 ∨ p = 1 := by
    rw [hp]; split <;> omega
  constructor
  · intro h
    exact set_all_relays_same cv pos r (by rw [hadj]; exact h)
  · intro h
    rw [set_all_relays_differs cv pos r (by rw [hadj]; exact h), hadj]
    refine ⟨fun d hd => by simp only [if_pos hd], fun d hd => by simp only [if_neg (by omega : ¬ d < 4)],
      rfl, fun d hd => ?_⟩
    simp only
    rcases hp1 with e | e <;> subst e <;> interval_cases d <;> decide

/-- C13, witness: device 0 commanded to GREEN twice; the second command changes nothing. -/
theorem C13_set_relay_no_change_witness :
    set_relay 0 GREEN 1 (set_relay 0 GREEN 1 relays_default)
      = set_relay 0 GREEN 1 relays_default :=
  C13_set_relay_no_change 0 GREEN 1 (set_relay 0 GREEN 1 relays_default)
    (Or.inr (by decide))

/-- C14, witness: device 0 of the default configuration, at RED, commanded to GREEN. -/
theorem C14_set_relay_switches_witness :
    ((set_relay 0 1 1 relays_default).devices 0).gate_pos = 1 ∧
    ((set_relay 0 1 1 relays_default).devices 0).rest_time
      = (relays_default.devices 0).hold_time ∧
    ((set_relay 0 1 1 relays_default).devices 0).hold_time
      = (relays_default.devices 0).hold_time ∧
    (set_relay 0 1 1 relays_default).RELAYS_PORT.testBit (2 * 0 + 1) = true ∧
    (set_relay 0 1 1 relays_default).RELAYS_PORT.testBit (2 * 0 + (1 - 1)) = false ∧
    (∀ e, e ≠ 0 → (set_relay 0 1 1 relays_default).devices e = relays_default.devices e) ∧
    (∀ j, j < 8 → j ≠ 2 * 0 → j ≠ 2 * 0 + 1 →
      (set_relay 0 1 1 relays_default).RELAYS_PORT.testBit j
        = relays_default.RELAYS_PORT.testBit j) :=
  C14_set_relay_switches 0 1 1 relays_default (by decide) (by decide) (by decide) (by decide)

/-- C16, witness: a command, a group command, a tick and another command after
`init_relays`. -/
theorem C16_coils_exclusive_witness :
    ¬ ((run_relays (init_relays CV.default RelayState.zero)
          [RelayAction.command 0 1 1, RelayAction.all CV.default 0, RelayAction.tick,
           RelayAction.command 3 0 1]).RELAYS_PORT.testBit (2 * 0) = true ∧
       (run_relays (init_relays CV.default RelayState.zero)
          [RelayAction.command 0 1 1, RelayAction.all CV.default 0, RelayAction.tick,
           RelayAction.command 3 0 1]).RELAYS_PORT.testBit (2 * 0 + 1) = true) :=
  C16_coils_exclusive CV.default RelayState.zero
    [RelayAction.command 0 1 1, RelayAction.all CV.default 0, RelayAction.tick,
     RelayAction.command 3 0 1] (by decide) 0 (by decide)

/-- C17, witness: device 0 at GREEN after its pulse, the others at RED, and a group command
to GREEN. -/
theorem C17_device_in_position_witness :
    (((time_out_n 5 (set_relay 0 1 1 relays_default)).devices 0).gate_pos = 1 →
      set_relay 0 1 1 (time_out_n 5 (set_relay 0 1 1 relays_default))
        = time_out_n 5 (set_relay 0 1 1 relays_default)) ∧
    ((∀ e, e < 4 → ((time_out_n 5 (set_relay 0 1 1 relays_default)).devices e).gate_pos
        = adjusted_pos CV.default 1) →
      set_all_relays CV.default 1 (time_out_n 5 (set_relay 0 1 1 relays_default))
        = time_out_n 5 (set_relay 0 1 1 relays_default)) ∧
    (((time_out_n 5 (set_relay 0 1 1 relays_default)).devices 0).gate_pos
        = adjusted_pos CV.default 1 →
      (∃ e, e < 4 ∧ ((time_out_n 5 (set_relay 0 1 1 relays_default)).devices e).gate_pos
        ≠ adjusted_pos CV.default 1) →
      ((set_all_relays CV.default 1
          (time_out_n 5 (set_relay 0 1 1 relays_default))).devices 0).gate_pos
        = adjusted_pos CV.default 1 ∧
      ((set_all_relays CV.default 1
          (time_out_n 5 (set_relay 0 1 1 relays_default))).devices 0).rest_time
        = ((time_out_n 5 (set_relay 0 1 1 relays_default)).devices 0).hold_time ∧
      (set_all_relays CV.default 1
          (time_out_n 5 (set_relay 0 1 1 relays_default))).RELAYS_PORT
        = (if adjusted_pos CV.default 1 = 1 then 0b10101010 else 0b01010101)) :=
  C17_device_in_position CV.default 1 (time_out_n 5 (set_relay 0 1 1 relays_default)) 0 1 1
    (by decide)

/-- C17, counterexample: device 0 is at GREEN with its pulse expired (rest_time 0, both
coils off), the other devices are at RED.  The group command to GREEN finds device 0 in the
requested position, yet arms its rest_time to 5 and sets its port bit 1. -/
theorem C17_counterexample :
    ((time_out_n 5 (set_relay 0 1 1 relays_default)).devices 0).gate_pos
      = adjusted_pos CV.default 1 ∧
    ((time_out_n 5 (set_relay 0 1 1 relays_default)).devices 0).rest_time = 0 ∧
    (time_out_n 5 (set_relay 0 1 1 relays_default)).RELAYS_PORT = 0 ∧
    ((set_all_relays CV.default 1
        (time_out_n 5 (set_relay 0 1 1 relays_default))).devices 0).rest_time = 5 ∧
    (set_all_relays CV.default 1
        (time_out_n 5 (set_relay 0 1 1 relays_default))).RELAYS_PORT = 0b10101010 ∧
    (set_all_relays CV.default 1
        (time_out_n 5 (set_relay 0 1 1 relays_default))).RELAYS_PORT.testBit 1 = true :=
  ⟨by decide, by decide, by decide, by decide, by decide, by decide⟩

/-- C18, witness: the default configuration (Polarization 0) and a group command to
GREEN. -/
theorem C18_set_all_relays_witness :
    ((∀ d, d < 4 → (relays_default.devices d).gate_pos = 1) →
      set_all_relays CV.default 1 relays_default = relays_default) ∧
    ((∃ d, d < 4 ∧ (relays_default.devices d).gate_pos ≠ 1) →
      (∀ d, d < 4 →
        (set_all_relays CV.default 1 relays_default).devices d =
          { gate_pos := 1, hold_time := (relays_default.devices d).hold_time,
            rest_time := (relays_default.devices d).hold_time }) ∧
      (∀ d, 4 ≤ d → (set_all_relays CV.default 1 relays_default).devices d
        = relays_default.devices d) ∧
      (set_all_relays CV.default 1 relays_default).RELAYS_PORT
        = (if 1 = 1 then 0b10101010 else 0b01010101) ∧
      (∀ d, d < 4 →
        (set_all_relays CV.default 1 relays_default).RELAYS_PORT.testBit (2 * d + 1) = true ∧
        (set_all_relays CV.default 1 relays_default).RELAYS_PORT.testBit (2 * d + (1 - 1))
          = false)) :=
  C18_set_all_relays CV.default 1 relays_default (by decide) 1 (by decide)

/-! ## The speed computation -/

/-- The text "Speed: v Km/h" with its terminating zero fits the 16 bytes of `lcd_string`
exactly when `v` has at most three digits. -/
theorem speed_text_size_le (v : Nat) : speed_text_size v ≤ LCD_SIZE ↔ v < 1000 := by
  unfold speed_text_size decimal_digits LCD_SIZE
  split_ifs <;> omega

/-- The step of an ACTIVE track whose trigger pin is reached, for a tick count that does
not wrap to 0 and a speed whose text fits the display buffer. -/
theorem check_speed_track_show (adc_result : Nat → AdcResult) (i : Nat) (s : SpeedState)
    (hact : (s.tracks i).status = ACTIVE)
    (hTB : (adc_result (s.tracks i).number).is_off = 0)
    (hTN : (adc_result (s.tracks i).next).is_on ≠ 0)
    (ht0 : ((s.tracks i).time + 1) % 65536 ≠ 0)
    (hfit : speed_shown (s.tracks i).length (((s.tracks i).time + 1) % 65536) < 1000) :
    check_speed_track adc_result i s =
      some
        { tracks := store s.tracks i
            { s.tracks i with status := SHOW, time := 0 },
          TA := ((s.tracks i).number + 256 - 1) % 256,
          TB := (s.tracks i).number,
          TC := ((s.tracks i).number + 1) % 256,
          TN := (s.tracks i).next,
          lcd := store s.lcd i
            (LcdLine.speed
              (speed_shown (s.tracks i).length (((s.tracks i).time + 1) % 65536))) } := by
  unfold check_speed_track
  have h1 : ¬ ACTIVE = INACTIVE := by decide
  have h2 : ¬ l_time_product (((s.tracks i).time + 1) % 65536) = 0 := by
    unfold l_time_product; omega
  have h3 : ¬ speed_text_size
      (speed_shown (s.tracks i).length (((s.tracks i).time + 1) % 65536)) > LCD_SIZE := by
    have := (speed_text_size_le _).2 hfit
    omega
  simp only [hact, h1, if_false, if_true, hTB, ne_eq, not_true_eq_false, hTN, not_false_eq_true,
    h2, h3]

/-- The step of an ACTIVE track whose trigger pin is reached with a speed of four or five
digits: `sprintf` writes past the end of `lcd_string`. -/
theorem check_speed_track_overrun (adc_result : Nat → AdcResult) (i : Nat) (s : SpeedState)
    (hact : (s.tracks i).status = ACTIVE)
    (hTB : (adc_result (s.tracks i).number).is_off = 0)
    (hTN : (adc_result (s.tracks i).next).is_on ≠ 0)
    (hbig : 1000 ≤ speed_shown (s.tracks i).length (((s.tracks i).time + 1) % 65536)) :
    check_speed_track adc_result i s = none := by
  unfold check_speed_track
  have h1 : ¬ ACTIVE = INACTIVE := by decide
  have h3 : speed_text_size
      (speed_shown (s.tracks i).length (((s.tracks i).time + 1) % 65536)) > LCD_SIZE := by
    have := (speed_text_size_le
      (speed_shown (s.tracks i).length (((s.tracks i).time + 1) % 65536))).not
    omega
  simp only [hact, h1, if_false, if_true, hTB, ne_eq, not_true_eq_false, hTN, not_false_eq_true,
    h3, ite_self]

/-- The valid length 5000 mm with a trigger after one tick: the speed to print is 12764 and
the call writes past the end of `lcd_string`. -/
theorem check_speed_track_overrun_5000 :
    (run_track0 (init_speed_track cv_speed_5000 SpeedState.zero) [adc_of [0, 1] [2]]).map
        (fun s => ((s.tracks 0).status, (s.tracks 0).time, (s.tracks 0).length))
      = some (ACTIVE, 0, 5000) ∧
    speed_shown 5000 1 = 12764 ∧ speed_text_size 12764 = 18 ∧
    (run_track0 (init_speed_track cv_speed_5000 SpeedState.zero)
        [adc_of [0, 1] [2], adc_of [0, 1, 2] []]).map (fun s => s.lcd 0) = none :=
  ⟨by decide, by decide, by decide, by decide⟩

theorem speed_shown_eq (L t : Nat) : speed_shown L t = (L * 18 * 87 / (t * 100)) % 65536 := rfl

/-- C19 (as amended): for an ACTIVE track with length `L` whose measurement pin is not
`is_off` and whose trigger pin `is_on`, whose incremented 16-bit tick count `t` is not 0,
and for which the speed `L * 18 * 87 / (t * 100)` reduced modulo 65536 is below 1000 (its
text fits the 16 bytes of the display buffer), `check_speed_track` returns, displays that
reduced speed (the quotient itself when that is below 65536), moves the track to SHOW and
resets its tick count to 0; `L = 1000` and `t = 180` give 87. -/
theorem C19_speed_reported (adc_result : Nat → AdcResult) (i : Nat) (s : SpeedState)
    (hact : (s.tracks i).status = ACTIVE)
    (hTB : (adc_result (s.tracks i).number).is_off = 0)
    (hTN : (adc_result (s.tracks i).next).is_on ≠ 0)
    (t : Nat) (ht : t = ((s.tracks i).time + 1) % 65536) (ht0 : t ≠ 0)
    (hfit : ((s.tracks i).length * 18 * 87 / (t * 100)) % 65536 < 1000) :
    ∃ s', check_speed_track adc_result i s = some s' ∧
      s'.lcd i = LcdLine.speed (((s.tracks i).length * 18 * 87 / (t * 100)) % 65536) ∧
      speed_text_size (((s.tracks i).length * 18 * 87 / (t * 100)) % 65536) ≤ LCD_SIZE ∧
      ((s.tracks i).length * 18 * 87 / (t * 100) < 65536 →
        s'.lcd i = LcdLine.speed ((s.tracks i).length * 18 * 87 / (t * 100))) ∧
      (s'.tracks i).status = SHOW ∧ (s'.tracks i).time = 0 ∧
      ((s.tracks i).length = 1000 → t = 180 → s'.lcd i = LcdLine.speed 87) := by
  subst ht
  refine ⟨_, check_speed_track_show adc_result i s hact hTB hTN ht0 hfit, ?_,
    (speed_text_size_le _).2 hfit, ?_, ?_, ?_, ?_⟩
  · simp only [store_same, speed_shown_eq]
  · intro hlt
    simp only [store_same, speed_shown_eq, Nat.mod_eq_of_lt hlt]
  · simp only [store_same]
  · simp only [store_same]
  · intro hL h180
    simp only [store_same, speed_shown_eq, hL, h180]

/-- C19, witness: a track of 1000 mm that has been ACTIVE for 179 ticks. -/
theorem C19_speed_reported_witness :
    ∃ s', check_speed_track (adc_of [1, 2] []) 0 (speed_active 1000 179) = some s' ∧
      s'.lcd 0 = LcdLine.speed
        ((((speed_active 1000 179).tracks 0).length * 18 * 87 / (180 * 100)) % 65536) ∧
      speed_text_size
        ((((speed_active 1000 179).tracks 0).length * 18 * 87 / (180 * 100)) % 65536)
          ≤ LCD_SIZE ∧
      (((speed_active 1000 179).tracks 0).length * 18 * 87 / (180 * 100) < 65536 →
        s'.lcd 0 = LcdLine.speed
          (((speed_active 1000 179).tracks 0).length * 18 * 87 / (180 * 100))) ∧
      (s'.tracks 0).status = SHOW ∧ (s'.tracks 0).time = 0 ∧
      (((speed_active 1000 179).tracks 0).length = 1000 → 180 = 180 →
        s'.lcd 0 = LcdLine.speed 87) :=
  C19_speed_reported (adc_of [1, 2] []) 0 (speed_active 1000 179) (by decide) (by decide)
    (by decide) 180 (by decide) (by decide) (by decide)

/-- C19, counterexample: track 0 on pin 1 with the valid length 4200 mm.  A train on the
pins 0 and 1 makes the track ACTIVE with tick count 0; at the next call pin 2 is on, the
tick count is 1, and the display shows 236 (a text of 15 bytes) while
`4200 * 18 * 87 / (1 * 100)` is 65772. -/
theorem C19_counterexample :
    (run_track0 (init_speed_track cv_speed_4200 SpeedState.zero) [adc_of [0, 1] [2]]).map
        (fun s => ((s.tracks 0).status, (s.tracks 0).time, (s.tracks 0).length,
          (s.tracks 0).number, (s.tracks 0).next))
      = some (ACTIVE, 0, 4200, 1, 2) ∧
    ((adc_of [0, 1, 2] []) 1).is_off = 0 ∧ ((adc_of [0, 1, 2] []) 2).is_on ≠ 0 ∧
    (run_track0 (init_speed_track cv_speed_4200 SpeedState.zero)
        [adc_of [0, 1] [2], adc_of [0, 1, 2] []]).map (fun s => s.lcd 0)
      = some (LcdLine.speed 236) ∧
    speed_text_size 236 = 16 ∧
    4200 * 18 * 87 / (1 * 100) = 65772 :=
  ⟨by decide, by decide, by decide, by decide, by decide, by decide⟩

/-- C20 (as amended): for an ACTIVE track with a valid length `L` in 100 .. 5000 whose
trigger pin is reached at a tick count `t >= 1`: the two products fit a signed 64-bit
integer and the divisor is not zero; the value stored in the 16-bit variable `speed` equals
the exact quotient `L * 18 * 87 / (t * 100)` exactly when `t >= 2` or `L <= 4184`; when the
quotient is below 1000 the step returns and displays the exact quotient; and for `t = 1`
and `L` in 4185 .. 4248 the step returns and displays the quotient minus 65536. -/
theorem C20_speed_fits (adc_result : Nat → AdcResult) (i : Nat) (s : SpeedState)
    (hact : (s.tracks i).status = ACTIVE)
    (hTB : (adc_result (s.tracks i).number).is_off = 0)
    (hTN : (adc_result (s.tracks i).next).is_on ≠ 0)
    (L t : Nat) (hL : L = (s.tracks i).length) (ht : t = ((s.tracks i).time + 1) % 65536)
    (hLr : 100 ≤ L ∧ L ≤ 5000) (ht1 : 1 ≤ t) :
    l_speed_product L < 2 ^ 63 ∧ l_time_product t < 2 ^ 63 ∧ l_time_product t ≠ 0 ∧
    (speed_shown L t = L * 18 * 87 / (t * 100) ↔ (2 ≤ t ∨ L ≤ 4184)) ∧
    (L * 18 * 87 / (t * 100) < 1000 →
      ∃ s', check_speed_track adc_result i s = some s' ∧
        s'.lcd i = LcdLine.speed (L * 18 * 87 / (t * 100))) ∧
    (t = 1 → 4185 ≤ L → L ≤ 4248 →
      ∃ s', check_speed_track adc_result i s = some s' ∧
        s'.lcd i = LcdLine.speed (L * 18 * 87 / (t * 100) - 65536)) := by
  have ht65 : t < 65536 := by rw [ht]; exact Nat.mod_lt _ (by norm_num)
  have hpos : 0 < t * 100 := by omega
  have ht0 : ((s.tracks i).time + 1) % 65536 ≠ 0 := by rw [← ht]; omega
  refine ⟨by unfold l_speed_product SCALE; omega, by unfold l_time_product; omega,
    by unfold l_time_product; omega, ?_, ?_, ?_⟩
  · rw [speed_shown_eq]
    constructor
    · intro h
      by_contra hc
      have ht1 : t = 1 := by omega
      subst ht1
      have hq : 65536 ≤ L * 18 * 87 / (1 * 100) := by
        rw [Nat.le_div_iff_mul_le (by norm_num)]; omega
      have := Nat.mod_lt (L * 18 * 87 / (1 * 100)) (show 0 < 65536 by norm_num)
      omega
    · intro h
      apply Nat.mod_eq_of_lt
      rw [Nat.div_lt_iff_lt_mul hpos]
      rcases h with h | h <;> nlinarith
  · intro hq
    have hs : speed_shown (s.tracks i).length (((s.tracks i).time + 1) % 65536)
        = L * 18 * 87 / (t * 100) := by
      rw [← hL, ← ht, speed_shown_eq]
      exact Nat.mod_eq_of_lt (by omega)
    refine ⟨_, check_speed_track_show adc_result i s hact hTB hTN ht0 (by rw [hs]; exact hq),
      ?_⟩
    simp only [store_same, hs]
  · intro h1 h4185 h4248
    have hq1 : 65536 ≤ L * 18 * 87 / (t * 100) := by
      rw [h1, Nat.le_div_iff_mul_le (by norm_num)]; omega
    have hq2 : L * 18 * 87 / (t * 100) < 66536 := by
      rw [h1, Nat.div_lt_iff_lt_mul (by norm_num)]; omega
    have hs : speed_shown (s.tracks i).length (((s.tracks i).time + 1) % 65536)
        = L * 18 * 87 / (t * 100) - 65536 := by
      rw [← hL, ← ht, speed_shown_eq]
      omega
    refine ⟨_, check_speed_track_show adc_result i s hact hTB hTN ht0 (by rw [hs]; omega),
      ?_⟩
    simp only [store_same, hs]

/-- C20, witness: a track of 1000 mm that has been ACTIVE for 179 ticks; the quotient is
87. -/
theorem C20_speed_fits_witness :
    l_speed_product 1000 < 2 ^ 63 ∧ l_time_product 180 < 2 ^ 63 ∧ l_time_product 180 ≠ 0 ∧
    (speed_shown 1000 180 = 1000 * 18 * 87 / (180 * 100) ↔ (2 ≤ 180 ∨ 1000 ≤ 4184)) ∧
    (1000 * 18 * 87 / (180 * 100) < 1000 →
      ∃ s', check_speed_track (adc_of [1, 2] []) 0 (speed_active 1000 179) = some s' ∧
        s'.lcd 0 = LcdLine.speed (1000 * 18 * 87 / (180 * 100))) ∧
    (180 = 1 → 4185 ≤ 1000 → 1000 ≤ 4248 →
      ∃ s', check_speed_track (adc_of [1, 2] []) 0 (speed_active 1000 179) = some s' ∧
        s'.lcd 0 = LcdLine.speed (1000 * 18 * 87 / (180 * 100) - 65536)) :=
  C20_speed_fits (adc_of [1, 2] []) 0 (speed_active 1000 179) (by decide) (by decide)
    (by decide) 1000 180 (by decide) (by decide) ⟨by decide, by decide⟩ (by decide)

/-- C20, counterexample: track 0 on pin 1 with the valid length 4185 mm and a trigger after
one tick.  The exact quotient `4185 * 18 * 87 / (1 * 100)` is 65537; the display shows 1. -/
theorem C20_counterexample :
    (run_track0 (init_speed_track cv_speed_4185 SpeedState.zero) [adc_of [0, 1] [2]]).map
        (fun s => ((s.tracks 0).status, (s.tracks 0).time, (s.tracks 0).length))
      = some (ACTIVE, 0, 4185) ∧
    (run_track0 (init_speed_track cv_speed_4185 SpeedState.zero)
        [adc_of [0, 1] [2], adc_of [0, 1, 2] []]).map (fun s => s.lcd 0)
      = some (LcdLine.speed 1) ∧
    4185 * 18 * 87 / (1 * 100) = 65537 ∧ speed_shown 4185 1 = 1 :=
  ⟨by decide, by decide, by decide, by decide⟩


/-! ## The speed tracks: error, recovery and initialisation -/

/-- The step of a track that is neither INACTIVE, ACTIVE, SHOW, DONE nor ERROR. -/
theorem check_speed_track_not_initialised (adc_result : Nat → AdcResult) (i : Nat)
    (s : SpeedState) (h : (s.tracks i).status = NOT_INITIALISED) :
    check_speed_track adc_result i s =
      some { s with TA := ((s.tracks i).number + 256 - 1) % 256, TB := (s.tracks i).number,
                    TC := ((s.tracks i).number + 1) % 256, TN := (s.tracks i).next } := by
  unfold check_speed_track
  have h1 : ¬ NOT_INITIALISED = INACTIVE := by decide
  have h2 : ¬ NOT_INITIALISED = ACTIVE := by decide
  have h3 : ¬ NOT_INITIALISED = SHOW := by decide
  have h4 : ¬ (NOT_INITIALISED = DONE ∨ NOT_INITIALISED = ERROR) := by decide
  simp only [h, h1, h2, h3, h4, if_false]

/-- A step for track `j` leaves every other track as it is. -/
theorem check_speed_track_other (adc_result : Nat → AdcResult) (i j : Nat) (s s' : SpeedState)
    (hij : i ≠ j) (h : check_speed_track adc_result j s = some s') :
    s'.tracks i = s.tracks i := by
  unfold check_speed_track at h
  simp only at h
  split_ifs at h <;> simp only [Option.some.injEq] at h <;> subst h <;>
    simp only [store_other _ _ _ _ hij]

/-- The step of an ACTIVE track whose measurement pin reports `is_off`. -/
theorem check_speed_track_error (adc_result : Nat → AdcResult) (i : Nat) (s : SpeedState)
    (hact : (s.tracks i).status = ACTIVE)
    (hTB : (adc_result (s.tracks i).number).is_off ≠ 0) :
    check_speed_track adc_result i s =
      some { tracks := store s.tracks i
               { s.tracks i with time := ((s.tracks i).time + 1) % 65536, status := ERROR },
             TA := ((s.tracks i).number + 256 - 1) % 256, TB := (s.tracks i).number,
             TC := ((s.tracks i).number + 1) % 256, TN := (s.tracks i).next,
             lcd := s.lcd } := by
  unfold check_speed_track
  have h1 : ¬ ACTIVE = INACTIVE := by decide
  simp only [hact, h1, if_false, if_true, hTB, ne_eq, not_false_eq_true]

/-- The step of a track that is DONE or in ERROR. -/
theorem check_speed_track_done (adc_result : Nat → AdcResult) (i : Nat) (s : SpeedState)
    (hst : (s.tracks i).status = DONE ∨ (s.tracks i).status = ERROR) :
    check_speed_track adc_result i s =
      if (adc_result (((s.tracks i).number + 256 - 1) % 256)).is_off ≠ 0 ∧
          (adc_result (s.tracks i).number).is_off ≠ 0 ∧
          (adc_result (((s.tracks i).number + 1) % 256)).is_off ≠ 0 then
        some { tracks := store s.tracks i { s.tracks i with status := INACTIVE },
               TA := ((s.tracks i).number + 256 - 1) % 256, TB := (s.tracks i).number,
               TC := ((s.tracks i).number + 1) % 256, TN := (s.tracks i).next,
               lcd := store s.lcd i LcdLine.blank }
      else
        some { s with TA := ((s.tracks i).number + 256 - 1) % 256, TB := (s.tracks i).number,
                      TC := ((s.tracks i).number + 1) % 256, TN := (s.tracks i).next } := by
  unfold check_speed_track
  have h1 : ¬ (s.tracks i).status = INACTIVE := by
    rcases hst with h | h <;> rw [h] <;> decide
  have h2 : ¬ (s.tracks i).status = ACTIVE := by
    rcases hst with h | h <;> rw [h] <;> decide
  have h3 : ¬ (s.tracks i).status = SHOW := by
    rcases hst with h | h <;> rw [h] <;> decide
  simp only [h1, h2, h3, hst, if_false, if_true]

/-- C21: for a track on a pin 1 .. 6, a step in ACTIVE with the measurement pin reporting
`is_off` returns with status ERROR, whatever the other pins report; a step in DONE or ERROR
returns with status INACTIVE iff the pins before, at and after the track all report
`is_off`, and with the status unchanged otherwise. -/
theorem C21_error_and_recovery (adc_result : Nat → AdcResult) (i : Nat) (s : SpeedState)
    (hnum : 1 ≤ (s.tracks i).number ∧ (s.tracks i).number ≤ 6) :
    ((s.tracks i).status = ACTIVE → (adc_result (s.tracks i).number).is_off ≠ 0 →
      ∃ s', check_speed_track adc_result i s = some s' ∧ (s'.tracks i).status = ERROR) ∧
    ((s.tracks i).status = DONE ∨ (s.tracks i).status = ERROR →
      ∃ s', check_speed_track adc_result i s = some s' ∧
        ((s'.tracks i).status = INACTIVE ↔
          ((adc_result ((s.tracks i).number - 1)).is_off ≠ 0 ∧
           (adc_result (s.tracks i).number).is_off ≠ 0 ∧
           (adc_result ((s.tracks i).number + 1)).is_off ≠ 0)) ∧
        (¬ ((adc_result ((s.tracks i).number - 1)).is_off ≠ 0 ∧
            (adc_result (s.tracks i).number).is_off ≠ 0 ∧
            (adc_result ((s.tracks i).number + 1)).is_off ≠ 0) →
          (s'.tracks i).status = (s.tracks i).status)) := by
  have eA : ((s.tracks i).number + 256 - 1) % 256 = (s.tracks i).number - 1 := by omega
  have eC : ((s.tracks i).number + 1) % 256 = (s.tracks i).number + 1 := by omega
  refine ⟨fun hact hTB => ⟨_, check_speed_track_error adc_result i s hact hTB, ?_⟩,
    fun hst => ?_⟩
  · simp only [store_same]
  · rw [check_speed_track_done adc_result i s hst, eA, eC]
    by_cases hoff : (adc_result ((s.tracks i).number - 1)).is_off ≠ 0 ∧
        (adc_result (s.tracks i).number).is_off ≠ 0 ∧
        (adc_result ((s.tracks i).number + 1)).is_off ≠ 0
    · rw [if_pos hoff]
      refine ⟨_, rfl, ?_, fun hn => absurd hoff hn⟩
      simp only [store_same, true_iff]
      exact hoff
    · rw [if_neg hoff]
      refine ⟨_, rfl, ?_, fun _ => rfl⟩
      constructor
      · intro h
        rcases hst with h' | h' <;> rw [h'] at h <;> exact absurd h (by decide)
      · intro h; exact absurd h hoff

/-- C21, witness: track 0 on pin 1 in ERROR, with the pins 0, 1 and 2 off. -/
theorem C21_error_and_recovery_witness :
    (((speed_with_status ERROR).tracks 0).status = ACTIVE →
      ((adc_of [] [0, 1, 2]) ((speed_with_status ERROR).tracks 0).number).is_off ≠ 0 →
      ∃ s', check_speed_track (adc_of [] [0, 1, 2]) 0 (speed_with_status ERROR) = some s' ∧
        (s'.tracks 0).status = ERROR) ∧
    (((speed_with_status ERROR).tracks 0).status = DONE ∨
        ((speed_with_status ERROR).tracks 0).status = ERROR →
      ∃ s', check_speed_track (adc_of [] [0, 1, 2]) 0 (speed_with_status ERROR) = some s' ∧
        ((s'.tracks 0).status = INACTIVE ↔
          (((adc_of [] [0, 1, 2]) (((speed_with_status ERROR).tracks 0).number - 1)).is_off ≠ 0 ∧
           ((adc_of [] [0, 1, 2]) ((speed_with_status ERROR).tracks 0).number).is_off ≠ 0 ∧
           ((adc_of [] [0, 1, 2]) (((speed_with_status ERROR).tracks 0).number + 1)).is_off
             ≠ 0)) ∧
        (¬ (((adc_of [] [0, 1, 2]) (((speed_with_status ERROR).tracks 0).number - 1)).is_off
              ≠ 0 ∧
            ((adc_of [] [0, 1, 2]) ((speed_with_status ERROR).tracks 0).number).is_off ≠ 0 ∧
            ((adc_of [] [0, 1, 2]) (((speed_with_status ERROR).tracks 0).number + 1)).is_off
              ≠ 0) →
          (s'.tracks 0).status = ((speed_with_status ERROR).tracks 0).status)) :=
  C21_error_and_recovery (adc_of [] [0, 1, 2]) 0 (speed_with_status ERROR)
    ⟨by decide, by decide⟩

/-- The sanity checks in closed form. -/
theorem sanity_checks_status (cv_out : Nat) (t : Track) (h : t.status = INACTIVE) :
    (sanity_checks cv_out t).status =
      if cv_out ≠ 0 ∧ 1 ≤ t.number ∧ t.number ≤ 6 ∧ 100 ≤ t.length ∧ t.length ≤ 5000
      then INACTIVE else NOT_INITIALISED := by
  unfold sanity_checks
  simp only
  split_ifs <;> first | rfl | exact h | omega

/-- C22: for every content of the six configuration bytes, `init_speed_track` leaves a
track INACTIVE iff its track-number byte is in 2 .. 7 and its length `LL + 256 * LH` is in
100 .. 5000, and NOT_INITIALISED otherwise. -/
theorem C22_init_speed_track_status (cv : CV) (s : SpeedState) :
    (((init_speed_track cv s).tracks 0).status =
      if 2 ≤ my_eeprom_read_byte cv.Speed1_Out ∧ my_eeprom_read_byte cv.Speed1_Out ≤ 7 ∧
          100 ≤ my_eeprom_read_byte cv.Speed1_LL + 256 * my_eeprom_read_byte cv.Speed1_LH ∧
          my_eeprom_read_byte cv.Speed1_LL + 256 * my_eeprom_read_byte cv.Speed1_LH ≤ 5000
      then INACTIVE else NOT_INITIALISED) ∧
    (((init_speed_track cv s).tracks 1).status =
      if 2 ≤ my_eeprom_read_byte cv.Speed2_Out ∧ my_eeprom_read_byte cv.Speed2_Out ≤ 7 ∧
          100 ≤ my_eeprom_read_byte cv.Speed2_LL + 256 * my_eeprom_read_byte cv.Speed2_LH ∧
          my_eeprom_read_byte cv.Speed2_LL + 256 * my_eeprom_read_byte cv.Speed2_LH ≤ 5000
      then INACTIVE else NOT_INITIALISED) ∧
    (((init_speed_track cv s).tracks 0).status = INACTIVE ↔
      (2 ≤ my_eeprom_read_byte cv.Speed1_Out ∧ my_eeprom_read_byte cv.Speed1_Out ≤ 7 ∧
        100 ≤ my_eeprom_read_byte cv.Speed1_LL + 256 * my_eeprom_read_byte cv.Speed1_LH ∧
        my_eeprom_read_byte cv.Speed1_LL + 256 * my_eeprom_read_byte cv.Speed1_LH ≤ 5000)) ∧
    (((init_speed_track cv s).tracks 1).status = INACTIVE ↔
      (2 ≤ my_eeprom_read_byte cv.Speed2_Out ∧ my_eeprom_read_byte cv.Speed2_Out ≤ 7 ∧
        100 ≤ my_eeprom_read_byte cv.Speed2_LL + 256 * my_eeprom_read_byte cv.Speed2_LH ∧
        my_eeprom_read_byte cv.Speed2_LL + 256 * my_eeprom_read_byte cv.Speed2_LH ≤ 5000)) := by
  have hb : ∀ x, my_eeprom_read_byte x < 256 := fun x => Nat.mod_lt _ (by norm_num)
  have key : ∀ (o l h : Nat) (t : Track), o < 256 → l < 256 → h < 256 →
      (sanity_checks o
          { t with
            number := (o + 256 - 1) % 256, length := ((h <<< 8) + l) % 65536,
            status := INACTIVE }).status =
        if 2 ≤ o ∧ o ≤ 7 ∧ 100 ≤ l + 256 * h ∧ l + 256 * h ≤ 5000
        then INACTIVE else NOT_INITIALISED := by
    intro o l h t ho hl hh
    rw [sanity_checks_status _ _ rfl]
    simp only [Nat.shiftLeft_eq]
    have e1 : (h * 2 ^ 8 + l) % 65536 = l + 256 * h := by omega
    rw [e1]
    by_cases c : 2 ≤ o ∧ o ≤ 7 ∧ 100 ≤ l + 256 * h ∧ l + 256 * h ≤ 5000
    · rw [if_pos c, if_pos (by omega)]
    · rw [if_neg c, if_neg (by omega)]
  have h0 := key _ _ _ (s.tracks 0) (hb cv.Speed1_Out) (hb cv.Speed1_LL) (hb cv.Speed1_LH)
  have h1 := key _ _ _ (s.tracks 1) (hb cv.Speed2_Out) (hb cv.Speed2_LL) (hb cv.Speed2_LH)
  have e0 : ((init_speed_track cv s).tracks 0).status = _ := h0
  have e1 : ((init_speed_track cv s).tracks 1).status = _ := h1
  refine ⟨e0, e1, ?_, ?_⟩
  · rw [e0]
    split_ifs with c
    · exact ⟨fun _ => c, fun _ => rfl⟩
    · exact ⟨fun h => absurd h (by decide), fun h => absurd h c⟩
  · rw [e1]
    split_ifs with c
    · exact ⟨fun _ => c, fun _ => rfl⟩
    · exact ⟨fun h => absurd h (by decide), fun h => absurd h c⟩

/-- A run that starts with track `i` NOT_INITIALISED never changes track `i`. -/
theorem run_speed_not_initialised (i : Nat) (l : List (Nat × (Nat → AdcResult))) :
    ∀ s s' : SpeedState, (s.tracks i).status = NOT_INITIALISED → run_speed s l = some s' →
      s'.tracks i = s.tracks i := by
  induction l with
  | nil =>
    intro s s' _ h
    simp only [run_speed, Option.some.injEq] at h
    rw [h]
  | cons step rest ih =>
    intro s s' hs h
    simp only [run_speed] at h
    cases hstep : check_speed_track step.2 step.1 s with
    | none => rw [hstep] at h; simp at h
    | some s1 =>
      rw [hstep] at h
      simp only [Option.some_bind] at h
      have e : s1.tracks i = s.tracks i := by
        by_cases hi : i = step.1
        · subst hi
          rw [check_speed_track_not_initialised _ _ _ hs] at hstep
          simp only [Option.some.injEq] at hstep
          rw [← hstep]
        · exact check_speed_track_other _ i step.1 s s1 hi hstep
      rw [ih s1 s' (by rw [e]; exact hs) h, e]

/-- A run of steps for a NOT_INITIALISED track alone always returns. -/
theorem run_speed_not_initialised_total (i : Nat) (l : List (Nat → AdcResult)) :
    ∀ s : SpeedState, (s.tracks i).status = NOT_INITIALISED →
      ∃ s', run_speed s (l.map (fun a => (i, a))) = some s' := by
  induction l with
  | nil => intro s _; exact ⟨s, rfl⟩
  | cons a rest ih =>
    intro s hs
    simp only [List.map_cons, run_speed]
    rw [check_speed_track_not_initialised _ _ _ hs]
    simp only [Option.some_bind]
    exact ih _ hs

/-- C23: a step for a track whose status is NOT_INITIALISED returns, leaves the array
`tracks` and the display unchanged, and does not depend on the converter results; so after
every sequence of steps (for either track) that returns, the track still has the status
NOT_INITIALISED and its trigger pin and tick count are unchanged, and every sequence of
steps for this track alone returns. -/
theorem C23_not_initialised_stays (i : Nat) (s : SpeedState)
    (h : (s.tracks i).status = NOT_INITIALISED) :
    (∀ adc_result, ∃ s', check_speed_track adc_result i s = some s' ∧
      s'.tracks = s.tracks ∧ s'.lcd = s.lcd) ∧
    (∀ adc_result adc_result',
      check_speed_track adc_result i s = check_speed_track adc_result' i s) ∧
    (∀ l s', run_speed s l = some s' →
      (s'.tracks i).status = NOT_INITIALISED ∧ (s'.tracks i).next = (s.tracks i).next ∧
      (s'.tracks i).time = (s.tracks i).time) ∧
    (∀ l : List (Nat → AdcResult), ∃ s', run_speed s (l.map (fun a => (i, a))) = some s' ∧
      (s'.tracks i).status = NOT_INITIALISED) := by
  refine ⟨fun a => ⟨_, check_speed_track_not_initialised a i s h, rfl, rfl⟩, fun a a' => ?_,
    fun l s' hrun => ?_, fun l => ?_⟩
  · rw [check_speed_track_not_initialised a i s h, check_speed_track_not_initialised a' i s h]
  · rw [run_speed_not_initialised i l s s' h hrun]
    exact ⟨h, rfl, rfl⟩
  · obtain ⟨s', hs'⟩ := run_speed_not_initialised_total i l s h
    refine ⟨s', hs', ?_⟩
    rw [run_speed_not_initialised i _ s s' h hs']
    exact h

/-- C23, witness: track 0 of the factory configuration (CV37 = 0), which
`init_speed_track` rejects. -/
theorem C23_not_initialised_stays_witness :
    ((init_speed_track CV.default SpeedState.zero).tracks 0).status = NOT_INITIALISED ∧
    (∀ l : List (Nat → AdcResult),
      ∃ s', run_speed (init_speed_track CV.default SpeedState.zero)
          (l.map (fun a => (0, a))) = some s' ∧
        (s'.tracks 0).status = NOT_INITIALISED) :=
  ⟨by decide,
   (C23_not_initialised_stays 0 (init_speed_track CV.default SpeedState.zero)
      (by decide)).2.2.2⟩


/-! ## The 1 ms action: history and stability verdict -/

theorem shiftLeft_or_one_mod (h : Nat) : ((h <<< 1) % 256) ||| 1 = ((h <<< 1) ||| 1) % 256 := by
  have e : (h <<< 1) ||| 1 = 2 * h + 1 := by
    have := Nat.mul_add_lt_is_or (i := 1) (b := 1) (by norm_num) h
    simp only [pow_one] at this
    rw [Nat.shiftLeft_eq, pow_one, Nat.mul_comm h 2]
    exact this.symm
  rw [shiftLeft_or_one, e]

/-- The stability flag of the sampled channel after the 1 ms action. -/
theorem sample_step_stable (hw : AdcHw) (s : AdcState) :
    ((sample_step hw s).adc_port s.ADC_Input_Pin).on_is_stable =
      if ((sample_step hw s).adc_port s.ADC_Input_Pin).adc_history &&& s.Min_Samples_Mask
            = s.Min_Samples_Mask
      then 1 else 0 := by
  simp only [sample_step, store_same, analyse_history_stable, analyse_history_history]

/-- C24 (as amended): in the 1 ms action, with the history of the sampled channel as STEP 1B
leaves it: if the masked history equals the mask, stable-on becomes 1 and the countdown is
unchanged; if the masked history is zero (and the mask is not), stable-on becomes 0 and the
countdown is unchanged; for any other masked pattern stable-on becomes 0 and the countdown
is re-armed to `max_delay_before_off`. -/
theorem C24_stability_verdict (hw : AdcHw) (s : AdcState) :
    (((sample_step hw s).adc_port s.ADC_Input_Pin).adc_history &&& s.Min_Samples_Mask
        = s.Min_Samples_Mask →
      ((sample_step hw s).adc_port s.ADC_Input_Pin).on_is_stable = 1 ∧
      ((sample_step hw s).adc_port s.ADC_Input_Pin).delay_before_off
        = (s.adc_port s.ADC_Input_Pin).delay_before_off) ∧
    (((sample_step hw s).adc_port s.ADC_Input_Pin).adc_history &&& s.Min_Samples_Mask
        ≠ s.Min_Samples_Mask →
      ((sample_step hw s).adc_port s.ADC_Input_Pin).adc_history &&& s.Min_Samples_Mask = 0 →
      ((sample_step hw s).adc_port s.ADC_Input_Pin).on_is_stable = 0 ∧
      ((sample_step hw s).adc_port s.ADC_Input_Pin).delay_before_off
        = (s.adc_port s.ADC_Input_Pin).delay_before_off) ∧
    (((sample_step hw s).adc_port s.ADC_Input_Pin).adc_history &&& s.Min_Samples_Mask
        ≠ s.Min_Samples_Mask →
      ((sample_step hw s).adc_port s.ADC_Input_Pin).adc_history &&& s.Min_Samples_Mask ≠ 0 →
      ((sample_step hw s).adc_port s.ADC_Input_Pin).on_is_stable = 0 ∧
      ((sample_step hw s).adc_port s.ADC_Input_Pin).delay_before_off
        = (s.adc_port s.ADC_Input_Pin).max_delay_before_off) := by
  refine ⟨fun h => ?_, fun h1 h2 => ?_, fun h1 h2 => ?_⟩
  · rw [sample_step_stable, sample_step_delay, if_pos h, if_pos (Or.inl h)]
    exact ⟨rfl, rfl⟩
  · rw [sample_step_stable, sample_step_delay, if_neg h1, if_pos (Or.inr h2)]
    exact ⟨rfl, rfl⟩
  · rw [sample_step_stable, sample_step_delay, if_neg h1, if_neg (by tauto)]
    exact ⟨rfl, rfl⟩

/-- C24, witness: the first sample of channel 0 after power-up with the factory
configuration, a value of 1023: the masked history is 1, the mask is 7, and the countdown
is armed to 150. -/
theorem C24_stability_verdict_witness :
    ((sample_step hw_sample_high (adc_power_up CV.default)).adc_port
        (adc_power_up CV.default).ADC_Input_Pin).on_is_stable = 0 ∧
    ((sample_step hw_sample_high (adc_power_up CV.default)).adc_port
        (adc_power_up CV.default).ADC_Input_Pin).delay_before_off
      = ((adc_power_up CV.default).adc_port
          (adc_power_up CV.default).ADC_Input_Pin).max_delay_before_off :=
  (C24_stability_verdict hw_sample_high (adc_power_up CV.default)).2.2 (by decide) (by decide)

/-- C24, counterexample: the first sample of channel 0 after power-up with the factory
configuration, a value of 0.  The masked history is zero and the configured maximum is 150,
but the countdown is not re-armed: it keeps its value 0. -/
theorem C24_counterexample :
    (adc_power_up CV.default).ADC_Input_Pin = 0 ∧
    (adc_power_up CV.default).Min_Samples_Mask = 7 ∧
    ((adc_power_up CV.default).adc_port 0).max_delay_before_off = 150 ∧
    ((adc_power_up CV.default).adc_port 0).delay_before_off = 0 ∧
    ((detect_occupied_tracks hw_sample_low (adc_power_up CV.default)).adc_port 0).adc_history
      &&& 7 = 0 ∧
    ((detect_occupied_tracks hw_sample_low (adc_power_up CV.default)).adc_port 0).on_is_stable
      = 0 ∧
    ((detect_occupied_tracks hw_sample_low
      (adc_power_up CV.default)).adc_port 0).delay_before_off = 0 :=
  ⟨by decide, by decide, by decide, by decide, by decide, by decide, by decide⟩

/-- C25: in the 1 ms action, for the converted value `v` and the history `h` of the sampled
channel: if `v > Threshold_On` the new history is `((h << 1) | 1) mod 256`; else if
`v < Threshold_Off` it is `(h << 1) mod 256`; otherwise it is `h`. -/
theorem C25_history_update (hw : AdcHw) (s : AdcState) :
    (hw.adc_value > s.Threshold_On →
      ((sample_step hw s).adc_port s.ADC_Input_Pin).adc_history
        = (((s.adc_port s.ADC_Input_Pin).adc_history <<< 1) ||| 1) % 256) ∧
    (hw.adc_value ≤ s.Threshold_On → hw.adc_value < s.Threshold_Off →
      ((sample_step hw s).adc_port s.ADC_Input_Pin).adc_history
        = ((s.adc_port s.ADC_Input_Pin).adc_history <<< 1) % 256) ∧
    (hw.adc_value ≤ s.Threshold_On → s.Threshold_Off ≤ hw.adc_value →
      ((sample_step hw s).adc_port s.ADC_Input_Pin).adc_history
        = (s.adc_port s.ADC_Input_Pin).adc_history) := by
  rw [sample_step_history]
  unfold shift_history
  refine ⟨fun h => ?_, fun h1 h2 => ?_, fun h1 h2 => ?_⟩
  · rw [if_pos h, shiftLeft_or_one_mod]
  · rw [if_neg (by omega), if_pos h2]
  · rw [if_neg (by omega), if_neg (by omega)]

/-- C25, witness: the value 25 lies above the on-threshold 20 of the factory
configuration. -/
theorem C25_history_update_witness :
    ((sample_step hw_sample_25 (adc_power_up CV.default)).adc_port
        (adc_power_up CV.default).ADC_Input_Pin).adc_history
      = ((((adc_power_up CV.default).adc_port
          (adc_power_up CV.default).ADC_Input_Pin).adc_history <<< 1) ||| 1) % 256 :=
  (C25_history_update hw_sample_25 (adc_power_up CV.default)).1 (by decide)

/-! ## The 10 ms action -/

/-- C26: the 10 ms action, for every channel `i` in 0 .. 7: the countdown becomes `c - 1`
if it was `c > 0` and stays 0 if it was 0; `is_off` becomes 1 if the countdown after that
is 0 and the lowest history bit is 0, and 0 otherwise; the history, the stability flag,
`is_on` and the configured maximum are unchanged. -/
theorem C26_ten_ms_action (s : AdcState) (i : Nat) (hi : i < 8) :
    (0 < (s.adc_port i).delay_before_off →
      ((delay_off_step s).adc_port i).delay_before_off = (s.adc_port i).delay_before_off - 1) ∧
    ((s.adc_port i).delay_before_off = 0 →
      ((delay_off_step s).adc_port i).delay_before_off = 0) ∧
    ((delay_off_step s).adc_result i).is_off =
      (if ((delay_off_step s).adc_port i).delay_before_off = 0 ∧
          (s.adc_port i).adc_history &&& 1 = 0 then 1 else 0) ∧
    ((delay_off_step s).adc_port i).adc_history = (s.adc_port i).adc_history ∧
    ((delay_off_step s).adc_port i).on_is_stable = (s.adc_port i).on_is_stable ∧
    ((delay_off_step s).adc_port i).max_delay_before_off
      = (s.adc_port i).max_delay_before_off ∧
    ((delay_off_step s).adc_result i).is_on = (s.adc_result i).is_on := by
  rw [delay_off_step_eq]
  simp only [if_pos hi]
  unfold count_down_result count_down_port
  refine ⟨fun h => ?_, fun h => ?_, ?_, ?_, ?_, ?_, ?_⟩
  · rw [if_pos h]
  · rw [if_neg (by omega)]; exact h
  · simp only
    split_ifs <;> simp_all
  · split <;> rfl
  · split <;> rfl
  · split <;> rfl
  · simp only
    split_ifs <;> rfl

/-- C26, witness: channel 0 after power-up with the factory configuration. -/
theorem C26_ten_ms_action_witness :
    ((delay_off_step (adc_power_up CV.default)).adc_port 0).delay_before_off = 0 ∧
    ((delay_off_step (adc_power_up CV.default)).adc_result 0).is_off = 1 :=
  ⟨(C26_ten_ms_action (adc_power_up CV.default) 0 (by decide)).2.1 (by decide),
   (C26_ten_ms_action (adc_power_up CV.default) 0 (by decide)).2.2.1.trans (by decide)⟩

/-! ## The initialisation of adc_hardware.c -/

theorem clamp_Min_Samples_eq (cv : CV) :
    clamp_Min_Samples cv = min (max (my_eeprom_read_byte cv.Min_Samples) 1) 8 := by
  unfold clamp_Min_Samples
  simp only
  split_ifs <;> omega

/-- The mask loop never leaves the range of an `unsigned char`: it gives the same value
without the reduction modulo 256. -/
theorem make_mask_exact (N : Nat) (hN : 1 ≤ N) (hN8 : N ≤ 8) :
    make_mask N = (List.range' 1 (N - 1)).foldl (fun mask _ => mask * 2 + 1) 1 := by
  interval_cases N <;> decide

/-- C27: for every value `v` of the Min_Samples byte, `init_occupied_tracks` sets
`Min_Samples_Mask` to `2 ^ N - 1` with `N = min (max v 1) 8`: exactly the `N` low-order
bits are set, the mask is 255 for `v >= 8` and 1 for `v <= 1`, and the loop that builds it
gives the same value without the reduction to 8 bits. -/
theorem C27_min_samples_mask (cv : CV) (s : AdcState) :
    (init_occupied_tracks cv s).Min_Samples_Mask
      = 2 ^ (min (max (my_eeprom_read_byte cv.Min_Samples) 1) 8) - 1 ∧
    (∀ j, (init_occupied_tracks cv s).Min_Samples_Mask.testBit j
      = decide (j < min (max (my_eeprom_read_byte cv.Min_Samples) 1) 8)) ∧
    (8 ≤ my_eeprom_read_byte cv.Min_Samples →
      (init_occupied_tracks cv s).Min_Samples_Mask = 255) ∧
    (my_eeprom_read_byte cv.Min_Samples ≤ 1 →
      (init_occupied_tracks cv s).Min_Samples_Mask = 1) ∧
    (init_occupied_tracks cv s).Min_Samples_Mask
      = (List.range' 1 (min (max (my_eeprom_read_byte cv.Min_Samples) 1) 8 - 1)).foldl
          (fun mask _ => mask * 2 + 1) 1 := by
  have hr := clamp_Min_Samples_range cv
  have hm : (init_occupied_tracks cv s).Min_Samples_Mask = 2 ^ clamp_Min_Samples cv - 1 :=
    make_mask_eq _ hr.1 hr.2
  have hx : (init_occupied_tracks cv s).Min_Samples_Mask
      = (List.range' 1 (clamp_Min_Samples cv - 1)).foldl (fun mask _ => mask * 2 + 1) 1 :=
    make_mask_exact _ hr.1 hr.2
  rw [clamp_Min_Samples_eq] at hm hx
  refine ⟨hm, fun j => ?_, fun h8 => ?_, fun h1 => ?_, hx⟩
  · rw [hm, Nat.testBit_two_pow_sub_one]
  · rw [hm, show min (max (my_eeprom_read_byte cv.Min_Samples) 1) 8 = 8 by omega]
    rfl
  · rw [hm, show min (max (my_eeprom_read_byte cv.Min_Samples) 1) 8 = 1 by omega]
    rfl

theorem foldl_init_delay_body (cv : CV) (l : List Nat) (hl : l.Nodup) (port : Nat → AdcPort)
    (j : Nat) :
    (l.foldl (init_delay_body cv) port) j =
      if j ∈ l ∧ (port j).max_delay_before_off = 0 then
        { port j with max_delay_before_off := (my_eeprom_read_byte cv.Delay_off * 10) % 65536 }
      else port j := by
  induction l generalizing port with
  | nil => simp
  | cons i rest ih =>
    rw [List.nodup_cons] at hl
    rw [List.foldl_cons, ih hl.2]
    unfold init_delay_body
    by_cases hj : j = i
    · subst hj
      by_cases h0 : (port j).max_delay_before_off = 0
      · simp [h0, store, hl.1]
      · simp [h0, hl.1]
    · by_cases h0 : (port i).max_delay_before_off = 0
      · simp [h0, store, hj]
      · simp [h0, hj]

/-- The configured maximum of the countdown of channel `i` after `init_occupied_tracks`. -/
theorem init_occupied_tracks_max_delay (cv : CV) (s : AdcState) (i : Nat) (hi : i < 8) :
    ((init_occupied_tracks cv s).adc_port i).max_delay_before_off =
      if my_eeprom_read_byte (cv.DelayIn i) = 0 then
        (my_eeprom_read_byte cv.Delay_off * 10) % 65536
      else my_eeprom_read_byte (cv.DelayIn i) := by
  unfold init_occupied_tracks
  simp only
  rw [foldl_init_delay_body _ _ (List.nodup_range 8)]
  have hmem : i ∈ List.range 8 := List.mem_range.2 hi
  interval_cases i <;>
    simp only [set_max_delay, store, CV.DelayIn, hmem, true_and] <;>
    simp <;> split_ifs <;> rfl

/-- C28: for every channel `i` in 0 .. 7, `init_occupied_tracks` sets
`max_delay_before_off[i]` to the channel's own delay CV when that is non-zero and to
`10 * Delay_off` when it is zero; the product is at most 2550 and is not reduced by the
16-bit store; so the configured maximum is 0 iff both CVs are 0. -/
theorem C28_max_delay (cv : CV) (s : AdcState) (i : Nat) (hi : i < 8) :
    (my_eeprom_read_byte (cv.DelayIn i) ≠ 0 →
      ((init_occupied_tracks cv s).adc_port i).max_delay_before_off
        = my_eeprom_read_byte (cv.DelayIn i)) ∧
    (my_eeprom_read_byte (cv.DelayIn i) = 0 →
      ((init_occupied_tracks cv s).adc_port i).max_delay_before_off
        = 10 * my_eeprom_read_byte cv.Delay_off) ∧
    10 * my_eeprom_read_byte cv.Delay_off ≤ 2550 ∧
    (((init_occupied_tracks cv s).adc_port i).max_delay_before_off = 0 ↔
      (my_eeprom_read_byte (cv.DelayIn i) = 0 ∧ my_eeprom_read_byte cv.Delay_off = 0)) := by
  have hb : my_eeprom_read_byte cv.Delay_off < 256 := Nat.mod_lt _ (by norm_num)
  rw [init_occupied_tracks_max_delay cv s i hi]
  refine ⟨fun h => by rw [if_neg h], fun h => by rw [if_pos h]; omega, by omega, ?_⟩
  split_ifs with h <;> omega

/-- C28, witness: channel 0 of the factory configuration (CV11 = 0, CV34 = 15). -/
theorem C28_max_delay_witness :
    ((init_occupied_tracks CV.default AdcState.zero).adc_port 0).max_delay_before_off
      = 10 * my_eeprom_read_byte CV.default.Delay_off :=
  (C28_max_delay CV.default AdcState.zero 0 (by decide)).2.1 (by decide)

/-! ## Crossed thresholds -/

theorem shift_history_crossed (t_on t_off v h : Nat) (hT : t_off > t_on) :
    shift_history t_on t_off v h =
      if v > t_on then ((h <<< 1) % 256) ||| 1 else (h <<< 1) % 256 := by
  unfold shift_history
  split_ifs <;> first | rfl | omega

/-- C29: when `Threshold_Off > Threshold_On`, the 1 ms action always shifts the history of
the sampled channel, with new low bit 1 iff the converted value exceeds `Threshold_On`; and
the channel records, the results and the selector after the action are the same for any
two values of `Threshold_Off` that both exceed `Threshold_On`. -/
theorem C29_crossed_thresholds (hw : AdcHw) (s : AdcState)
    (hT : s.Threshold_Off > s.Threshold_On) :
    ((sample_step hw s).adc_port s.ADC_Input_Pin).adc_history
      = (2 * (s.adc_port s.ADC_Input_Pin).adc_history
          + (if hw.adc_value > s.Threshold_On then 1 else 0)) % 256 ∧
    (((sample_step hw s).adc_port s.ADC_Input_Pin).adc_history % 2 = 1
      ↔ hw.adc_value > s.Threshold_On) ∧
    (∀ t1 t2, t1 > s.Threshold_On → t2 > s.Threshold_On →
      (sample_step hw { s with Threshold_Off := t1 }).adc_port
        = (sample_step hw { s with Threshold_Off := t2 }).adc_port ∧
      (sample_step hw { s with Threshold_Off := t1 }).adc_result
        = (sample_step hw { s with Threshold_Off := t2 }).adc_result ∧
      (sample_step hw { s with Threshold_Off := t1 }).ADC_Input_Pin
        = (sample_step hw { s with Threshold_Off := t2 }).ADC_Input_Pin) := by
  have e : ((sample_step hw s).adc_port s.ADC_Input_Pin).adc_history
      = (2 * (s.adc_port s.ADC_Input_Pin).adc_history
          + (if hw.adc_value > s.Threshold_On then 1 else 0)) % 256 := by
    rw [sample_step_history, shift_history_crossed _ _ _ _ hT]
    split_ifs
    · exact shiftLeft_or_one _
    · rw [shiftLeft_mod]; rfl
  refine ⟨e, ?_, fun t1 t2 h1 h2 => ?_⟩
  · rw [e]
    split_ifs with h
    · exact ⟨fun _ => h, fun _ => by omega⟩
    · exact ⟨fun h' => by omega, fun h' => absurd h' h⟩
  · simp only [sample_step, shift_history_crossed _ _ _ _ h1,
      shift_history_crossed _ _ _ _ h2, and_self]

/-- C29, witness: power-up with CV35 = 20 and CV36 = 30, and a converted value of 25. -/
theorem C29_crossed_thresholds_witness :
    (adc_power_up cv_thresholds_crossed).Threshold_Off
      > (adc_power_up cv_thresholds_crossed).Threshold_On ∧
    (((sample_step hw_sample_25 (adc_power_up cv_thresholds_crossed)).adc_port
        (adc_power_up cv_thresholds_crossed).ADC_Input_Pin).adc_history % 2 = 1
      ↔ hw_sample_25.adc_value > (adc_power_up cv_thresholds_crossed).Threshold_On) :=
  ⟨by decide,
   (C29_crossed_thresholds hw_sample_25 (adc_power_up cv_thresholds_crossed) (by decide)).2.1⟩

/-! ## The channel selector and the frame of the 1 ms action -/

/-- The selector after one call of `detect_occupied_tracks`. -/
theorem detect_occupied_tracks_pin (hw : AdcHw) (s : AdcState) :
    (detect_occupied_tracks hw s).ADC_Input_Pin =
      if samples hw then (s.ADC_Input_Pin + 1) % 8 else s.ADC_Input_Pin := by
  rw [detect_occupied_tracks_eq]
  cases samples hw <;> cases counts_down hw <;>
    simp only [Bool.false_eq_true, if_false, if_true, delay_off_step_config] <;> rfl

theorem detect_occupied_tracks_pin_lt (hw : AdcHw) (s : AdcState) (h : s.ADC_Input_Pin < 8) :
    (detect_occupied_tracks hw s).ADC_Input_Pin < 8 := by
  rw [detect_occupied_tracks_pin]
  split_ifs
  · exact Nat.mod_lt _ (by norm_num)
  · exact h

theorem run_adc_pin_lt (l : List AdcHw) :
    ∀ s : AdcState, s.ADC_Input_Pin < 8 → (run_adc s l).ADC_Input_Pin < 8 := by
  induction l with
  | nil => intro s h; exact h
  | cons hw rest ih =>
    intro s h
    exact ih _ (detect_occupied_tracks_pin_lt hw s h)

/-- The pins sampled by a sequence of calls are consecutive modulo 8. -/
theorem sampled_pins_eq (l : List AdcHw) :
    ∀ s : AdcState, s.ADC_Input_Pin < 8 →
      sampled_pins s l =
        (List.range (l.filter samples).length).map (fun j => (s.ADC_Input_Pin + j) % 8) := by
  induction l with
  | nil => intro s _; rfl
  | cons hw rest ih =>
    intro s h
    rw [sampled_pins, ih _ (detect_occupied_tracks_pin_lt hw s h), detect_occupied_tracks_pin]
    by_cases hs : samples hw = true
    · rw [if_pos hs, if_pos hs, List.filter_cons_of_pos hs, List.length_cons,
        List.range_succ_eq_map, List.map_cons, List.map_map]
      simp only [List.singleton_append, Nat.add_zero, Nat.mod_eq_of_lt h, List.cons.injEq,
        true_and]
      apply List.map_congr_left
      intro j _
      simp only [Function.comp, Nat.succ_eq_add_one]
      omega
    · rw [if_neg hs, if_neg hs, List.filter_cons_of_neg hs, List.nil_append]

theorem count_consecutive_pins (p c : Nat) (hp : p < 8) (hc : c < 8) :
    ((List.range 8).map (fun j => (p + j) % 8)).count c = 1 := by
  interval_cases p <;> interval_cases c <;> decide

/-- C30 (as amended): in every state reached from power-up the selector `ADC_Input_Pin` is
in 0 .. 7; a call advances it from `p` to `(p + 1) mod 8` when it runs the 1 ms action and
leaves it alone otherwise; any calls that hold 8 sampling actions sample each of the 8
channels exactly once; and a sampling action on channel `p` leaves the record and the
results of every other channel, every `is_off` and the configured maximum of `p`
unchanged, while it stores the converted value in `adc_value` of `p`. -/
theorem C30_selector_and_frame (cv : CV) (l : List AdcHw) :
    (run_adc (adc_power_up cv) l).ADC_Input_Pin < 8 ∧
    (∀ hw, (detect_occupied_tracks hw (run_adc (adc_power_up cv) l)).ADC_Input_Pin =
      if samples hw then ((run_adc (adc_power_up cv) l).ADC_Input_Pin + 1) % 8
      else (run_adc (adc_power_up cv) l).ADC_Input_Pin) ∧
    (∀ l2, (l2.filter samples).length = 8 → ∀ c, c < 8 →
      (sampled_pins (run_adc (adc_power_up cv) l) l2).count c = 1) ∧
    (∀ hw (s : AdcState),
      (∀ c, c ≠ s.ADC_Input_Pin →
        (sample_step hw s).adc_port c = s.adc_port c ∧
        (sample_step hw s).adc_result c = s.adc_result c) ∧
      (∀ c, ((sample_step hw s).adc_result c).is_off = (s.adc_result c).is_off) ∧
      ((sample_step hw s).adc_port s.ADC_Input_Pin).max_delay_before_off
        = (s.adc_port s.ADC_Input_Pin).max_delay_before_off ∧
      ((sample_step hw s).adc_port s.ADC_Input_Pin).adc_value = hw.adc_value) := by
  have hp : (run_adc (adc_power_up cv) l).ADC_Input_Pin < 8 :=
    run_adc_pin_lt l _ (show (0 : Nat) < 8 by norm_num)
  refine ⟨hp, fun hw => detect_occupied_tracks_pin hw _, fun l2 h8 c hc => ?_,
    fun hw s => ⟨fun c hc => ?_, fun c => sample_step_is_off hw s c,
      sample_step_max_delay hw s _, ?_⟩⟩
  · rw [sampled_pins_eq l2 _ hp, h8]
    exact count_consecutive_pins _ c hp hc
  · exact ⟨(sample_step_other hw s c hc).2, (sample_step_other hw s c hc).1⟩
  · simp only [sample_step, store_same, AdcHw.adc_value]
    unfold analyse_history
    simp only
    split_ifs <;> rfl

/-- C30, witness: power-up with the factory configuration, then eight sampling calls. -/
theorem C30_selector_and_frame_witness :
    (run_adc (adc_power_up CV.default) hw_round_on).ADC_Input_Pin < 8 ∧
    (∀ c, c < 8 →
      (sampled_pins (run_adc (adc_power_up CV.default) hw_round_on) hw_round_on).count c
        = 1) :=
  ⟨(C30_selector_and_frame CV.default hw_round_on).1,
   (C30_selector_and_frame CV.default hw_round_on).2.2.1 hw_round_on (by decide)⟩

/-- C30, counterexample: the first sampling action after power-up samples channel 0 and
changes the field `adc_value` of channel 0 from 0 to 1023. -/
theorem C30_counterexample :
    (adc_power_up CV.default).ADC_Input_Pin = 0 ∧
    samples hw_sample_high = true ∧
    ((adc_power_up CV.default).adc_port 0).adc_value = 0 ∧
    ((detect_occupied_tracks hw_sample_high (adc_power_up CV.default)).adc_port 0).adc_value
      = 1023 :=
  ⟨by decide, by decide, by decide, by decide⟩


/-! ## Step 2C of `analyse_track_occupation` -/

/-- C33: `check_relays_time_out`, for every device `d` in 0 .. 3: if `rest_time` is 0 the
device and its two port bits are unchanged; if it is `r > 0` it becomes `r - 1`, and both
port bits of the device are cleared if `r - 1 = 0` and unchanged otherwise; `gate_pos` and
`hold_time` do not change, and no port bit is set. -/
theorem C33_time_out_per_device (r : RelayState) (d : Nat) (hd : d < 4) :
    ((r.devices d).rest_time = 0 →
      (check_relays_time_out r).devices d = r.devices d ∧
      (check_relays_time_out r).RELAYS_PORT.testBit (2 * d) = r.RELAYS_PORT.testBit (2 * d) ∧
      (check_relays_time_out r).RELAYS_PORT.testBit (2 * d + 1)
        = r.RELAYS_PORT.testBit (2 * d + 1)) ∧
    (0 < (r.devices d).rest_time →
      ((check_relays_time_out r).devices d).rest_time = (r.devices d).rest_time - 1 ∧
      ((r.devices d).rest_time - 1 = 0 →
        (check_relays_time_out r).RELAYS_PORT.testBit (2 * d) = false ∧
        (check_relays_time_out r).RELAYS_PORT.testBit (2 * d + 1) = false) ∧
      ((r.devices d).rest_time - 1 ≠ 0 →
        (check_relays_time_out r).RELAYS_PORT.testBit (2 * d)
          = r.RELAYS_PORT.testBit (2 * d) ∧
        (check_relays_time_out r).RELAYS_PORT.testBit (2 * d + 1)
          = r.RELAYS_PORT.testBit (2 * d + 1))) ∧
    ((check_relays_time_out r).devices d).gate_pos = (r.devices d).gate_pos ∧
    ((check_relays_time_out r).devices d).hold_time = (r.devices d).hold_time ∧
    (∀ j, j < 8 → (check_relays_time_out r).RELAYS_PORT.testBit j = true →
      r.RELAYS_PORT.testBit j = true) := by
  obtain ⟨hdev, hport⟩ := check_relays_time_out_apply r
  have e0 : (2 * d) / 2 = d := by omega
  have e1 : (2 * d + 1) / 2 = d := by omega
  have hp0 := hport (2 * d) (by omega)
  have hp1 := hport (2 * d + 1) (by omega)
  rw [e0] at hp0
  rw [e1] at hp1
  rw [hdev d, if_pos hd]
  refine ⟨fun h0 => ?_, fun hpos => ⟨rfl, fun h1 => ?_, fun h1 => ?_⟩, rfl, rfl,
    fun j hj hset => ?_⟩
  · have hne : ¬ (r.devices d).rest_time = 1 := by omega
    rw [hp0, hp1]
    simp only [hne, decide_False, Bool.not_false, Bool.and_true, and_self, and_true]
    cases hx : r.devices d with
    | mk g h t =>
      rw [hx] at h0
      simp only at h0
      simp only [h0]
  · have he : (r.devices d).rest_time = 1 := by omega
    rw [hp0, hp1]
    simp only [he, decide_True, Bool.not_true, Bool.and_false, and_self]
  · have hne : ¬ (r.devices d).rest_time = 1 := by omega
    rw [hp0, hp1]
    simp only [hne, decide_False, Bool.not_false, Bool.and_true, and_self]
  · rw [hport j hj] at hset
    simp only [Bool.and_eq_true] at hset
    exact hset.1

/-- C33, witness: device 0 one tick after it was switched to green with hold time 5. -/
theorem C33_time_out_per_device_witness :
    ((check_relays_time_out (set_relay 0 1 1 relays_default)).devices 0).rest_time
      = ((set_relay 0 1 1 relays_default).devices 0).rest_time - 1 :=
  ((C33_time_out_per_device (set_relay 0 1 1 relays_default) 0 (by decide)).2.1
    (by decide)).1

/-! ## The reverser -/

/-- After `set_all_relays` all four devices are at the polarity-adjusted position. -/
theorem set_all_relays_gate_pos (cv : CV) (pos : Nat) (r : RelayState) (d : Nat)
    (hd : d < 4) :
    ((set_all_relays cv pos r).devices d).gate_pos = adjusted_pos cv pos := by
  by_cases h : ∃ e, e < 4 ∧ (r.devices e).gate_pos ≠ adjusted_pos cv pos
  · rw [set_all_relays_differs cv pos r h]
    simp only [if_pos hd]
  · have hall : ∀ e, e < 4 → (r.devices e).gate_pos = adjusted_pos cv pos := by
      intro e he
      by_contra hne
      exact h ⟨e, he, hne⟩
    rw [set_all_relays_same cv pos r hall]
    exact hall d hd

theorem analyse_track_occupation_relays (cv : CV) (adc_result : Nat → AdcResult)
    (s : OccState) :
    (analyse_track_occupation cv adc_result s).relays
      = reverser_actions cv adc_result s.MyType s.relays := by
  simp only [analyse_track_occupation]

/-- The step of an INACTIVE track. -/
theorem check_speed_track_inactive (adc_result : Nat → AdcResult) (i : Nat) (s : SpeedState)
    (hst : (s.tracks i).status = INACTIVE) :
    check_speed_track adc_result i s =
      some { tracks := store s.tracks i
               (step_inactive adc_result (((s.tracks i).number + 256 - 1) % 256)
                 (s.tracks i).number (((s.tracks i).number + 1) % 256) (s.tracks i)),
             TA := ((s.tracks i).number + 256 - 1) % 256, TB := (s.tracks i).number,
             TC := ((s.tracks i).number + 1) % 256, TN := (s.tracks i).next,
             lcd := s.lcd } := by
  unfold check_speed_track
  simp only [hst, if_true]

/-- The step of an ACTIVE track whose pin is not off and whose trigger pin is not on. -/
theorem check_speed_track_progress (adc_result : Nat → AdcResult) (i : Nat) (s : SpeedState)
    (hact : (s.tracks i).status = ACTIVE)
    (hTB : (adc_result (s.tracks i).number).is_off = 0)
    (hTN : (adc_result (s.tracks i).next).is_on = 0) :
    check_speed_track adc_result i s =
      some { tracks := store s.tracks i
               { s.tracks i with time := ((s.tracks i).time + 1) % 65536 },
             TA := ((s.tracks i).number + 256 - 1) % 256, TB := (s.tracks i).number,
             TC := ((s.tracks i).number + 1) % 256, TN := (s.tracks i).next,
             lcd := store s.lcd i
               (LcdLine.progress ((((s.tracks i).time + 1) % 65536 / 25) % LCD_SIZE)) } := by
  unfold check_speed_track
  have h1 : ¬ ACTIVE = INACTIVE := by decide
  simp only [hact, h1, if_false, if_true, hTB, hTN, ne_eq, not_true_eq_false]

/-- C34 (as amended): for an INACTIVE track on pin `B` in 1 .. 6 the step returns, and: if
`B - 1` is_off, `B` is_on and `B + 1` is_on, the track is ACTIVE with trigger `B - 1` and
tick count 0 (also when the other pattern holds as well); otherwise, if `B - 1` is_on, `B`
is_on and `B + 1` is_off, it is ACTIVE with trigger `B + 1` and tick count 0; for every
other input the status, the trigger and the tick count are unchanged. -/
theorem C34_inactive_step (adc_result : Nat → AdcResult) (i : Nat) (s : SpeedState)
    (hst : (s.tracks i).status = INACTIVE)
    (hnum : 1 ≤ (s.tracks i).number ∧ (s.tracks i).number ≤ 6) :
    ∃ s', check_speed_track adc_result i s = some s' ∧
      (((adc_result ((s.tracks i).number - 1)).is_off ≠ 0 ∧
          (adc_result (s.tracks i).number).is_on ≠ 0 ∧
          (adc_result ((s.tracks i).number + 1)).is_on ≠ 0) →
        (s'.tracks i).status = ACTIVE ∧ (s'.tracks i).next = (s.tracks i).number - 1 ∧
        (s'.tracks i).time = 0) ∧
      (¬ ((adc_result ((s.tracks i).number - 1)).is_off ≠ 0 ∧
          (adc_result (s.tracks i).number).is_on ≠ 0 ∧
          (adc_result ((s.tracks i).number + 1)).is_on ≠ 0) →
        ((adc_result ((s.tracks i).number - 1)).is_on ≠ 0 ∧
          (adc_result (s.tracks i).number).is_on ≠ 0 ∧
          (adc_result ((s.tracks i).number + 1)).is_off ≠ 0) →
        (s'.tracks i).status = ACTIVE ∧ (s'.tracks i).next = (s.tracks i).number + 1 ∧
        (s'.tracks i).time = 0) ∧
      (¬ ((adc_result ((s.tracks i).number - 1)).is_off ≠ 0 ∧
          (adc_result (s.tracks i).number).is_on ≠ 0 ∧
          (adc_result ((s.tracks i).number + 1)).is_on ≠ 0) →
        ¬ ((adc_result ((s.tracks i).number - 1)).is_on ≠ 0 ∧
          (adc_result (s.tracks i).number).is_on ≠ 0 ∧
          (adc_result ((s.tracks i).number + 1)).is_off ≠ 0) →
        (s'.tracks i).status = (s.tracks i).status ∧ (s'.tracks i).next = (s.tracks i).next ∧
        (s'.tracks i).time = (s.tracks i).time) := by
  have eA : ((s.tracks i).number + 256 - 1) % 256 = (s.tracks i).number - 1 := by omega
  have eC : ((s.tracks i).number + 1) % 256 = (s.tracks i).number + 1 := by omega
  refine ⟨_, check_speed_track_inactive adc_result i s hst, ?_⟩
  simp only [store_same, eA, eC]
  unfold step_inactive
  simp only
  refine ⟨fun h2 => ?_, fun h2 h1 => ?_, fun h2 h1 => ?_⟩
  · rw [if_pos h2]
    exact ⟨rfl, rfl, rfl⟩
  · rw [if_neg h2, if_pos h1]
    exact ⟨rfl, rfl, rfl⟩
  · rw [if_neg h2, if_neg h1]
    exact ⟨rfl, rfl, rfl⟩

/-- C34, witness: track 0 on pin 1, with the pins 0 and 1 on and pin 2 off. -/
theorem C34_inactive_step_witness :
    ∃ s', check_speed_track (adc_of [0, 1] [2]) 0 (speed_with_status INACTIVE) = some s' ∧
      (s'.tracks 0).status = ACTIVE ∧ (s'.tracks 0).next = 2 ∧ (s'.tracks 0).time = 0 :=
  (C34_inactive_step (adc_of [0, 1] [2]) 0 (speed_with_status INACTIVE) (by decide)
    ⟨by decide, by decide⟩).imp
    (fun _ h => ⟨h.1, h.2.2.1 (by decide) ⟨by decide, by decide, by decide⟩⟩)

/-- C34, counterexample: track 0 on pin 1 (B = 1), INACTIVE.  The pins 0 and 2 report both
`is_on` and `is_off`, pin 1 reports `is_on`: before is_on, at is_on and after is_off, yet
the trigger after the step is pin 0 = B - 1, not pin 2 = B + 1. -/
theorem C34_counterexample :
    ((speed_with_status INACTIVE).tracks 0).status = INACTIVE ∧
    ((speed_with_status INACTIVE).tracks 0).number = 1 ∧
    ((adc_of [0, 1, 2] [0, 2]) 0).is_on ≠ 0 ∧ ((adc_of [0, 1, 2] [0, 2]) 1).is_on ≠ 0 ∧
    ((adc_of [0, 1, 2] [0, 2]) 2).is_off ≠ 0 ∧
    (check_speed_track (adc_of [0, 1, 2] [0, 2]) 0 (speed_with_status INACTIVE)).map
        (fun s => ((s.tracks 0).status, (s.tracks 0).next, (s.tracks 0).time))
      = some (ACTIVE, 0, 0) :=
  ⟨by decide, by decide, by decide, by decide, by decide, by decide⟩

/-- C35 (as amended): for an ACTIVE track, one step increments the 16-bit tick count by one
modulo 65536 and then: returns with status ERROR if the measurement pin reports `is_off`,
whatever the trigger pin reports; otherwise, if the trigger pin reports `is_on`, the new
tick count is not 0 and the speed to print is below 1000 (its text fits the 16 bytes of the
display buffer), returns with status SHOW; otherwise, if the trigger pin does not report
`is_on`, returns with status ACTIVE and the progress mark at display index
`(ticks / 25) mod 16`, which is below 16. -/
theorem C35_active_step (adc_result : Nat → AdcResult) (i : Nat) (s : SpeedState)
    (hact : (s.tracks i).status = ACTIVE) :
    ((adc_result (s.tracks i).number).is_off ≠ 0 →
      ∃ s', check_speed_track adc_result i s = some s' ∧
        (s'.tracks i).status = ERROR ∧
        (s'.tracks i).time = ((s.tracks i).time + 1) % 65536) ∧
    ((adc_result (s.tracks i).number).is_off = 0 →
      (adc_result (s.tracks i).next).is_on ≠ 0 → ((s.tracks i).time + 1) % 65536 ≠ 0 →
      speed_shown (s.tracks i).length (((s.tracks i).time + 1) % 65536) < 1000 →
      ∃ s', check_speed_track adc_result i s = some s' ∧ (s'.tracks i).status = SHOW) ∧
    ((adc_result (s.tracks i).number).is_off = 0 →
      (adc_result (s.tracks i).next).is_on = 0 →
      ∃ s', check_speed_track adc_result i s = some s' ∧
        (s'.tracks i).status = ACTIVE ∧
        (s'.tracks i).time = ((s.tracks i).time + 1) % 65536 ∧
        s'.lcd i = LcdLine.progress ((((s.tracks i).time + 1) % 65536 / 25) % 16) ∧
        (((s.tracks i).time + 1) % 65536 / 25) % 16 < 16) ∧
    ((s.tracks i).time < 65535 → ((s.tracks i).time + 1) % 65536 = (s.tracks i).time + 1) := by
  refine ⟨fun hTB => ⟨_, check_speed_track_error adc_result i s hact hTB, ?_, ?_⟩,
    fun hTB hTN ht hfit =>
      ⟨_, check_speed_track_show adc_result i s hact hTB hTN ht hfit, ?_⟩,
    fun hTB hTN => ⟨_, check_speed_track_progress adc_result i s hact hTB hTN, ?_, ?_, ?_,
      Nat.mod_lt _ (by norm_num)⟩,
    fun hlt => Nat.mod_eq_of_lt (by omega)⟩
  · simp only [store_same]
  · simp only [store_same]
  · simp only [store_same]
  · simp only [store_same]
    exact hact
  · simp only [store_same]
  · simp only [store_same]
    rfl

/-- C35, witness: track 0, ACTIVE for 179 ticks, with its own pin and the trigger pin
on. -/
theorem C35_active_step_witness :
    ∃ s', check_speed_track (adc_of [1, 2] []) 0 (speed_active 1000 179) = some s' ∧
      (s'.tracks 0).status = SHOW :=
  (C35_active_step (adc_of [1, 2] []) 0 (speed_active 1000 179) (by decide)).2.1
    (by decide) (by decide) (by decide) (by decide)

/-- C35, counterexample: track 0, ACTIVE with tick count 65535, its own pin on and the
trigger pin not on.  The step leaves the track ACTIVE with tick count 0, not 65536. -/
theorem C35_counterexample :
    ((speed_active 1000 65535).tracks 0).status = ACTIVE ∧
    ((speed_active 1000 65535).tracks 0).time = 65535 ∧
    (check_speed_track (adc_of [1] []) 0 (speed_active 1000 65535)).map
        (fun s => ((s.tracks 0).status, (s.tracks 0).time, s.lcd 0))
      = some (ACTIVE, 0, LcdLine.progress 0) :=
  ⟨by decide, by decide, by decide⟩

/-! ## The speed tracks: the divisor and the indices read -/

theorem run_speed_cons (step : Nat × (Nat → AdcResult)) (rest : List (Nat × (Nat → AdcResult)))
    (s : SpeedState) :
    run_speed s (step :: rest) =
      (check_speed_track step.2 step.1 s).bind (fun s => run_speed s rest) := rfl

theorem run_speed_append (l1 l2 : List (Nat × (Nat → AdcResult))) :
    ∀ s : SpeedState,
      run_speed s (l1 ++ l2) = (run_speed s l1).bind (fun s1 => run_speed s1 l2) := by
  induction l1 with
  | nil => intro s; rfl
  | cons step rest ih =>
    intro s
    show (check_speed_track step.2 step.1 s).bind (fun s => run_speed s (rest ++ l2)) =
      ((check_speed_track step.2 step.1 s).bind (fun s => run_speed s rest)).bind
        (fun s1 => run_speed s1 l2)
    cases check_speed_track step.2 step.1 s with
    | none => rfl
    | some s1 => exact ih s1

/-- While the pin of an ACTIVE track is not off and its trigger pin is not on, `n` steps
add `n` to the tick count, as long as it stays below 65536. -/
theorem run_speed_progress (i : Nat) (adc_result : Nat → AdcResult) (n : Nat) :
    ∀ s : SpeedState, (s.tracks i).status = ACTIVE →
      (adc_result (s.tracks i).number).is_off = 0 →
      (adc_result (s.tracks i).next).is_on = 0 →
      (s.tracks i).time + n < 65536 →
      ∃ s', run_speed s (List.replicate n (i, adc_result)) = some s' ∧
        s'.tracks i = { s.tracks i with time := (s.tracks i).time + n } := by
  induction n with
  | zero => intro s _ _ _ _; exact ⟨s, rfl, rfl⟩
  | succ n ih =>
    intro s hact hTB hTN hlt
    simp only [List.replicate_succ, run_speed]
    rw [check_speed_track_progress adc_result i s hact hTB hTN]
    simp only [Option.some_bind]
    obtain ⟨s', h1, h2⟩ := ih
      { tracks := store s.tracks i { s.tracks i with time := ((s.tracks i).time + 1) % 65536 },
        TA := ((s.tracks i).number + 256 - 1) % 256, TB := (s.tracks i).number,
        TC := ((s.tracks i).number + 1) % 256, TN := (s.tracks i).next,
        lcd := store s.lcd i
          (LcdLine.progress ((((s.tracks i).time + 1) % 65536 / 25) % LCD_SIZE)) }
      (by simp only [store_same]; exact hact) (by simp only [store_same]; exact hTB)
      (by simp only [store_same]; exact hTN)
      (by simp only [store_same]; omega)
    refine ⟨s', h1, ?_⟩
    rw [h2]
    simp only [store_same]
    have e : ((s.tracks i).time + 1) % 65536 + n = (s.tracks i).time + (n + 1) := by omega
    rw [e]

/-- The step of an ACTIVE track whose trigger pin is reached when the tick count wraps to 0
divides by zero. -/
theorem check_speed_track_zero_divisor (adc_result : Nat → AdcResult) (i : Nat)
    (s : SpeedState) (hact : (s.tracks i).status = ACTIVE)
    (hTB : (adc_result (s.tracks i).number).is_off = 0)
    (hTN : (adc_result (s.tracks i).next).is_on ≠ 0)
    (ht : (s.tracks i).time = 65535) :
    check_speed_track adc_result i s = none := by
  unfold check_speed_track
  have h1 : ¬ ACTIVE = INACTIVE := by decide
  simp only [hact, h1, if_false, if_true, hTB, ne_eq, not_true_eq_false, hTN,
    not_false_eq_true, ht, l_time_product]

/-- C37, the code at the failing input: track 0 on pin 1 with a length of 1000 mm.  A
train on the pins 0 and 1 makes the track ACTIVE; for 65535 further calls pin 1 is on and
pin 2 is not; the state then has tick count 65535.  At the next call pin 2 is on: the tick
count wraps to 0, the divisor `l_time` is 0 and the call does not return a state. -/
theorem C37_zero_divisor_reached :
    (∃ s', run_speed (init_speed_track cv_speed_1000 SpeedState.zero)
        ((0, adc_of [0, 1] [2]) :: List.replicate 65535 (0, adc_of [1] [])) = some s' ∧
      (s'.tracks 0).status = ACTIVE ∧ (s'.tracks 0).time = 65535 ∧
      l_time_product (((s'.tracks 0).time + 1) % 65536) = 0) ∧
    run_speed (init_speed_track cv_speed_1000 SpeedState.zero)
        (((0, adc_of [0, 1] [2]) :: List.replicate 65535 (0, adc_of [1] []))
          ++ [(0, adc_of [1, 2] [])]) = none := by
  have hfirst : (check_speed_track (adc_of [0, 1] [2]) 0
      (init_speed_track cv_speed_1000 SpeedState.zero)).map
        (fun s => ((s.tracks 0).status, (s.tracks 0).time, (s.tracks 0).number,
          (s.tracks 0).next)) = some (ACTIVE, 0, 1, 2) := by decide
  obtain ⟨s1, hs1, hf⟩ := Option.map_eq_some'.1 hfirst
  have hst : (s1.tracks 0).status = ACTIVE := congrArg (fun p => p.1) hf
  have htime : (s1.tracks 0).time = 0 := congrArg (fun p => p.2.1) hf
  have hnum : (s1.tracks 0).number = 1 := congrArg (fun p => p.2.2.1) hf
  have hnext : (s1.tracks 0).next = 2 := congrArg (fun p => p.2.2.2) hf
  obtain ⟨s2, hs2, ht2⟩ := run_speed_progress 0 (adc_of [1] []) 65535 s1 hst
    (by rw [hnum]; decide) (by rw [hnext]; decide) (by rw [htime]; norm_num)
  have hrun : run_speed (init_speed_track cv_speed_1000 SpeedState.zero)
      ((0, adc_of [0, 1] [2]) :: List.replicate 65535 (0, adc_of [1] [])) = some s2 := by
    rw [run_speed_cons, hs1, Option.some_bind]
    exact hs2
  have hst2 : (s2.tracks 0).status = ACTIVE := by rw [ht2]; exact hst
  have htime2 : (s2.tracks 0).time = 65535 := by rw [ht2]; simp only [htime]
  have hnum2 : (s2.tracks 0).number = 1 := by rw [ht2]; exact hnum
  have hnext2 : (s2.tracks 0).next = 2 := by rw [ht2]; exact hnext
  refine ⟨⟨s2, hrun, hst2, htime2, by rw [htime2]; rfl⟩, ?_⟩
  rw [run_speed_append, hrun, Option.some_bind, run_speed_cons]
  rw [check_speed_track_zero_divisor (adc_of [1, 2] []) 0 s2 hst2 (by rw [hnum2]; decide)
    (by rw [hnext2]; decide) htime2]
  rfl

/-- One step keeps every track in range. -/
theorem trackInRange_step (adc_result : Nat → AdcResult) (i j : Nat) (s s' : SpeedState)
    (h : check_speed_track adc_result j s = some s') (hin : TrackInRange (s.tracks i)) :
    TrackInRange (s'.tracks i) := by
  by_cases hij : i = j
  · subst hij
    by_cases h0 : (s.tracks i).status = NOT_INITIALISED
    · rw [check_speed_track_not_initialised _ _ _ h0] at h
      simp only [Option.some.injEq] at h
      rw [← h]
      exact hin
    · rcases hin with hin | ⟨hn1, hn6, hnext⟩
      · exact absurd hin h0
      · have eA : ((s.tracks i).number + 256 - 1) % 256 = (s.tracks i).number - 1 := by omega
        have eC : ((s.tracks i).number + 1) % 256 = (s.tracks i).number + 1 := by omega
        right
        unfold check_speed_track at h
        simp only [eA, eC] at h
        unfold step_inactive at h
        simp only at h
        split_ifs at h <;> simp only [Option.some.injEq] at h <;> subst h <;>
          simp only [store_same] <;> refine ⟨hn1, hn6, fun c => ?_⟩ <;>
          first
          | exact hnext c
          | exact absurd c (by decide)
          | exact Or.inr rfl
          | exact Or.inr trivial
          | exact Or.inl (by omega)
  · rw [check_speed_track_other adc_result i j s s' hij h]
    exact hin

theorem trackInRange_run_speed (i : Nat) (l : List (Nat × (Nat → AdcResult))) :
    ∀ s s' : SpeedState, run_speed s l = some s' → TrackInRange (s.tracks i) →
      TrackInRange (s'.tracks i) := by
  induction l with
  | nil =>
    intro s s' h hin
    simp only [run_speed, Option.some.injEq] at h
    rw [← h]; exact hin
  | cons step rest ih =>
    intro s s' h hin
    simp only [run_speed] at h
    cases hstep : check_speed_track step.2 step.1 s with
    | none => rw [hstep] at h; simp at h
    | some s1 =>
      rw [hstep] at h
      simp only [Option.some_bind] at h
      exact ih s1 s' h (trackInRange_step _ i step.1 s s1 hstep hin)

/-- After `init_speed_track` both tracks are in range. -/
theorem trackInRange_init (cv : CV) (s : SpeedState) (i : Nat) (hi : i < 2) :
    TrackInRange ((init_speed_track cv s).tracks i) := by
  have key : ∀ (o : Nat) (t : Track), t.status = INACTIVE →
      t.number = (o + 256 - 1) % 256 → TrackInRange (sanity_checks o t) := by
    intro o t hst hnum
    unfold TrackInRange
    have hs := sanity_checks_status o t hst
    have hn : (sanity_checks o t).number = t.number := by
      unfold sanity_checks; simp only; split_ifs <;> rfl
    rw [hs, hn]
    split_ifs with c
    · right
      exact ⟨c.2.1, c.2.2.1, fun h => absurd h (by decide)⟩
    · left; rfl
  interval_cases i
  · exact key _ _ rfl rfl
  · exact key _ _ rfl rfl

/-- C38: in every state reached from `init_speed_track` (any configuration) by steps of
`check_speed_track` for the tracks 0 and 1 with any converter results, a track whose status
is not NOT_INITIALISED has its pin in 1 .. 6, the trigger pin of an ACTIVE track is that pin
minus one or plus one, and every `adc_result` index a step for the track can read is at
most 7. -/
theorem C38_indices_in_range (cv : CV) (s0 : SpeedState)
    (l : List (Nat × (Nat → AdcResult))) (s : SpeedState)
    (hrun : run_speed (init_speed_track cv s0) l = some s) (i : Nat) (hi : i < 2) :
    ((s.tracks i).status ≠ NOT_INITIALISED →
      1 ≤ (s.tracks i).number ∧ (s.tracks i).number ≤ 6) ∧
    ((s.tracks i).status = ACTIVE →
      (s.tracks i).next = (s.tracks i).number - 1 ∨
      (s.tracks i).next = (s.tracks i).number + 1) ∧
    (∀ k, k ∈ indices_read i s → k ≤ 7) := by
  have hin := trackInRange_run_speed i l _ s hrun (trackInRange_init cv s0 i hi)
  have h1 : (s.tracks i).status ≠ NOT_INITIALISED →
      1 ≤ (s.tracks i).number ∧ (s.tracks i).number ≤ 6 := by
    intro hne
    rcases hin with h | h
    · exact absurd h hne
    · exact ⟨h.1, h.2.1⟩
  have h2 : (s.tracks i).status = ACTIVE →
      (s.tracks i).next = (s.tracks i).number - 1 ∨
      (s.tracks i).next = (s.tracks i).number + 1 := by
    intro hact
    rcases hin with h | h
    · rw [hact] at h; exact absurd h (by decide)
    · rcases h.2.2 hact with e | e
      · left; omega
      · right; exact e
  refine ⟨h1, h2, fun k hk => ?_⟩
  unfold indices_read at hk
  simp only at hk
  split_ifs at hk with c1 c2 c3 c4
  · have hn := h1 (by rw [c1]; decide)
    simp only [List.mem_cons, List.mem_singleton, List.not_mem_nil, or_false] at hk
    omega
  · have hn := h1 (by rw [c2]; decide)
    have ht := h2 c2
    simp only [List.mem_cons, List.mem_singleton, List.not_mem_nil, or_false] at hk
    omega
  · simp at hk
  · have hn : 1 ≤ (s.tracks i).number ∧ (s.tracks i).number ≤ 6 := by
      rcases c4 with c | c <;> exact h1 (by rw [c]; decide)
    simp only [List.mem_cons, List.mem_singleton, List.not_mem_nil, or_false] at hk
    omega
  · simp at hk

/-- C38, witness: track 0 on pin 1 after a train has entered from the left. -/
theorem C38_indices_in_range_witness :
    ∃ s, run_speed (init_speed_track cv_speed_1000 SpeedState.zero) [(0, adc_of [0, 1] [2])]
        = some s ∧
      (((s.tracks 0).status ≠ NOT_INITIALISED →
        1 ≤ (s.tracks 0).number ∧ (s.tracks 0).number ≤ 6) ∧
      ((s.tracks 0).status = ACTIVE →
        (s.tracks 0).next = (s.tracks 0).number - 1 ∨
        (s.tracks 0).next = (s.tracks 0).number + 1) ∧
      (∀ k, k ∈ indices_read 0 s → k ≤ 7)) :=
  ⟨_, rfl, C38_indices_in_range cv_speed_1000 SpeedState.zero [(0, adc_of [0, 1] [2])] _ rfl
    0 (by decide)⟩


/-! ## The invariant behind `is_on` -/

theorem count_down_port_stable (p : AdcPort) :
    (count_down_port p).on_is_stable = p.on_is_stable := by
  unfold count_down_port; split <;> rfl

theorem onImpliesStable_delay_off_step (s : AdcState) (h : OnImpliesStable s) :
    OnImpliesStable (delay_off_step s) := by
  intro c hc
  rw [delay_off_step_eq] at hc ⊢
  by_cases hc8 : c < 8
  · simp only [hc8, if_true, count_down_result_is_on, count_down_port_history,
      count_down_port_stable] at hc ⊢
    exact h c hc
  · simp only [hc8, if_false] at hc ⊢
    exact h c hc

theorem onImpliesStable_sample_step (hw : AdcHw) (s : AdcState) (h : OnImpliesStable s) :
    OnImpliesStable (sample_step hw s) := by
  intro c hc
  by_cases hcp : c = s.ADC_Input_Pin
  · subst hcp
    have hon := sample_step_is_on hw s
    have hst := sample_step_stable hw s
    rw [hon] at hc ⊢
    by_cases hcond :
        ((sample_step hw s).adc_port s.ADC_Input_Pin).adc_history % 2 = 1 ∧
        ((sample_step hw s).adc_port s.ADC_Input_Pin).adc_history &&& s.Min_Samples_Mask
          = s.Min_Samples_Mask
    · rw [if_pos hcond]
      refine ⟨rfl, ?_, ?_⟩
      · rw [Nat.and_one_is_mod]; exact hcond.1
      · rw [hst, if_pos hcond.2]
    · rw [if_neg hcond] at hc
      exact absurd rfl hc
  · have ho := sample_step_other hw s c hcp
    rw [ho.1] at hc ⊢
    rw [ho.2]
    exact h c hc

theorem onImpliesStable_detect (hw : AdcHw) (s : AdcState) (h : OnImpliesStable s) :
    OnImpliesStable (detect_occupied_tracks hw s) := by
  have hr : OnImpliesStable (read_counters hw s) := h
  rw [detect_occupied_tracks_eq]
  split_ifs
  · exact onImpliesStable_delay_off_step _ (onImpliesStable_sample_step hw _ hr)
  · exact onImpliesStable_sample_step hw _ hr
  · exact onImpliesStable_delay_off_step _ hr
  · exact hr

theorem onImpliesStable_run_adc (l : List AdcHw) :
    ∀ s : AdcState, OnImpliesStable s → OnImpliesStable (run_adc s l) := by
  induction l with
  | nil => intro s h; exact h
  | cons hw rest ih =>
    intro s h
    exact ih _ (onImpliesStable_detect hw s h)

theorem onImpliesStable_power_up (cv : CV) : OnImpliesStable (adc_power_up cv) := by
  intro c hc
  rw [adc_power_up_result] at hc
  exact absurd rfl hc

theorem onImpliesOccupied_of_stable (s : AdcState) (h : OnImpliesStable s) :
    OnImpliesOccupied s := by
  intro c hc
  rw [(h c hc).2.1]
  decide

/-- C39: in every state reached from power-up by calls of `detect_occupied_tracks`, a
channel whose `is_on` is set has `is_on = 1`, its lowest history bit equal to 1 and its
stability flag equal to 1; and after every call that runs the 10 ms action no channel
0 .. 7 has both `is_on` and `is_off` set. -/
theorem C39_on_implies_stable (cv : CV) (l : List AdcHw) :
    (∀ c, ((run_adc (adc_power_up cv) l).adc_result c).is_on ≠ 0 →
      ((run_adc (adc_power_up cv) l).adc_result c).is_on = 1 ∧
      ((run_adc (adc_power_up cv) l).adc_port c).adc_history % 2 = 1 ∧
      ((run_adc (adc_power_up cv) l).adc_port c).on_is_stable = 1) ∧
    (∀ hw, counts_down hw = true → ∀ c, c < 8 →
      ¬ (((detect_occupied_tracks hw (run_adc (adc_power_up cv) l)).adc_result c).is_on = 1 ∧
         ((detect_occupied_tracks hw (run_adc (adc_power_up cv) l)).adc_result c).is_off
           = 1)) := by
  have hinv := onImpliesStable_run_adc l _ (onImpliesStable_power_up cv)
  refine ⟨fun c hc => ?_, fun hw hcd c hc8 => ?_⟩
  · have h := hinv c hc
    rw [Nat.and_one_is_mod] at h
    exact h
  · have hr : OnImpliesStable (read_counters hw (run_adc (adc_power_up cv) l)) := hinv
    rw [detect_occupied_tracks_eq]
    simp only [hcd, if_true]
    split_ifs
    · exact delay_off_step_exclusive _
        (onImpliesOccupied_of_stable _ (onImpliesStable_sample_step hw _ hr)) c hc8
    · exact delay_off_step_exclusive _ (onImpliesOccupied_of_stable _ hr) c hc8

/-- C39, witness: channel 0 after three rounds of samples in which it converts 1023, and a
call that samples and runs the 10 ms action. -/
theorem C39_on_implies_stable_witness :
    ((run_adc (adc_power_up CV.default)
        (hw_round_on ++ hw_round_on ++ hw_round_on)).adc_result 0).is_on = 1 ∧
    ((run_adc (adc_power_up CV.default)
        (hw_round_on ++ hw_round_on ++ hw_round_on)).adc_port 0).adc_history % 2 = 1 ∧
    ((run_adc (adc_power_up CV.default)
        (hw_round_on ++ hw_round_on ++ hw_round_on)).adc_port 0).on_is_stable = 1 :=
  (C39_on_implies_stable CV.default (hw_round_on ++ hw_round_on ++ hw_round_on)).1 0
    (by decide)

/-! ## `init_global`: the addressing mode -/

theorem and_64_ne_one (x : Nat) : x &&& (1 <<< 6) ≠ 1 := by
  intro h
  have h0 := congrArg (fun n => n.testBit 0) h
  simp only [Nat.testBit_and, Nat.one_shiftLeft, Nat.testBit_two_pow] at h0
  simp at h0

/-- C40, the code: for every configuration `MyConfig` is the Config byte masked with
`1 << 6`, a value that is 0 or 64 and never 1, so the test `MyConfig != 1` always succeeds
and `My_Dec_Addr` is computed with the basic formula `(cv9 << 6) + cv1 - 1`.  At the
failing input (bit 6 of Config set, CV1 = 1, CV9 = 1) `init_global` leaves
`My_Dec_Addr = 64`, where the extended formula `(cv9 << 8) + cv1 - 1` gives 256. -/
theorem C40_extended_never_selected (INVALID_DEC_ADR LOCO_OFFSET IGNORE_CMD : Nat) (cv : CV)
    (g : GlobalState) :
    (init_global INVALID_DEC_ADR LOCO_OFFSET IGNORE_CMD cv g).MyConfig
      = my_eeprom_read_byte cv.Config &&& (1 <<< 6) ∧
    (init_global INVALID_DEC_ADR LOCO_OFFSET IGNORE_CMD cv g).MyConfig ≠ 1 ∧
    (∀ cv1 cv9,
      select_dec_addr (init_global INVALID_DEC_ADR LOCO_OFFSET IGNORE_CMD cv g).MyConfig
          cv1 cv9
        = ((cv9 <<< 6) + cv1 + 65536 - 1) % 65536) ∧
    (my_eeprom_read_byte cv_config_extended.Config).testBit 6 = true ∧
    (init_global INVALID_DEC_ADR LOCO_OFFSET IGNORE_CMD cv_config_extended g).MyConfig = 64 ∧
    (init_global INVALID_DEC_ADR LOCO_OFFSET IGNORE_CMD cv_config_extended g).My_Dec_Addr
      = 64 ∧
    ((1 <<< 8) + 1 + 65536 - 1) % 65536 = 256 := by
  have hne : (init_global INVALID_DEC_ADR LOCO_OFFSET IGNORE_CMD cv g).MyConfig ≠ 1 :=
    and_64_ne_one _
  refine ⟨rfl, hne, fun cv1 cv9 => ?_, by decide, rfl, rfl, by decide⟩
  unfold select_dec_addr
  rw [if_pos hne]

end OpenDecoder
